import Mathlib

/-!
Verification of the Workflow document store (src/src-tauri/src/main.rs).

The Rust code operates on dynamically typed `serde_json::Value` trees.  We
embed those values as the inductive `Json` below.  Numbers are modelled as
integers: every numeric field the program manipulates (`order`, `quantity`,
`version`, times) is integral, and floating-point behaviour is outside the
scope of this development.  Objects are modelled as association lists whose
lookup returns the first matching binding and whose insert replaces the first
matching binding (or appends); documents produced by `serde_json` parsing have
unique keys, for which these semantics coincide with the Rust map semantics.
-/

set_option maxHeartbeats 1000000
set_option maxRecDepth 100000

namespace Workflow

/-- Shallow model of `serde_json::Value`. -/
inductive Json where
  | null
  | bool (b : Bool)
  | num (n : Int)
  | str (s : String)
  | arr (items : List Json)
  | obj (fields : List (String × Json))
deriving Repr, BEq

namespace Json

def isObj : Json → Bool
  | .obj _ => true
  | _ => false

def isArr : Json → Bool
  | .arr _ => true
  | _ => false

def isNum : Json → Bool
  | .num _ => true
  | _ => false

/-- `value.as_array().cloned()` -/
def asArr : Json → Option (List Json)
  | .arr items => some items
  | _ => none

/-- `value.as_object().cloned()` -/
def asObj : Json → Option (List (String × Json))
  | .obj fields => some fields
  | _ => none

end Json

/-- Lookup in a JSON object field list (`Map::get`): first matching binding. -/
def getVal : List (String × Json) → String → Option Json
  | [], _ => none
  | (k, v) :: rest, key => if k = key then some v else getVal rest key

/-- `value.get(key)` on a JSON value. -/
def jget : Json → String → Option Json
  | .obj fields, key => getVal fields key
  | _, _ => none

/-- `Map::insert` (replace the first binding with this key, else append). -/
def setVal : List (String × Json) → String → Json → List (String × Json)
  | [], key, v => [(key, v)]
  | (k, w) :: rest, key, v =>
    if k = key then (k, v) :: rest else (k, w) :: setVal rest key v

/-- `obj.get_mut(key).and_then(as_object_mut)` followed by in-place mutation of
the inner object's field list: rewrite the first binding for `key` when its
value is an object, leaving everything else untouched. -/
def updateObjVal : List (String × Json) → String →
    (List (String × Json) → List (String × Json)) → List (String × Json)
  | [], _, _ => []
  | (k, v) :: rest, key, f =>
    if k = key then
      match v with
      | .obj inner => (k, .obj (f inner)) :: rest
      | _ => (k, v) :: rest
    else (k, v) :: updateObjVal rest key f

/-! String primitives, implemented over the character list so that every
definition reduces structurally (Lean's built-in `String.trim`,
`String.toInt?` … recurse on byte positions, which blocks kernel
evaluation).  They mirror the Rust `str` methods the program uses. -/

/-- `str::trim` (ASCII/common whitespace). -/
def trimStr (s : String) : String :=
  String.mk (((s.data.dropWhile Char.isWhitespace).reverse.dropWhile
    Char.isWhitespace).reverse)

/-- `str::to_lowercase` (ASCII case mapping, which covers every string the
program compares). -/
def lowerStr (s : String) : String :=
  String.mk (s.data.map Char.toLower)

/-- `str::to_uppercase` (ASCII case mapping). -/
def upperStr (s : String) : String :=
  String.mk (s.data.map Char.toUpper)

/-- Digit accumulator for `parse::<i64>`. -/
def parseDigitsAux : List Char → Nat → Option Nat
  | [], acc => some acc
  | c :: rest, acc =>
    if c.isDigit then parseDigitsAux rest (acc * 10 + (c.toNat - 48)) else none

/-- `str::parse::<i64>` on a character list: optional sign, then one or more
digits and nothing else.  (i64 overflow on astronomically long inputs is not
modelled; the program's numeric fields are small.) -/
def parseIntChars : List Char → Option Int
  | [] => none
  | '+' :: rest =>
    match rest with
    | [] => none
    | _ => (parseDigitsAux rest 0).map Int.ofNat
  | '-' :: rest =>
    match rest with
    | [] => none
    | _ => (parseDigitsAux rest 0).map fun n => -(n : Int)
  | cs => (parseDigitsAux cs 0).map Int.ofNat

/-- `str::parse::<i64>().ok()`. -/
def strToInt (s : String) : Option Int :=
  parseIntChars s.data

/-- Rust's `Option::is_some_and`. -/
def isSomeAnd (o : Option Json) (p : Json → Bool) : Bool :=
  match o with
  | some v => p v
  | none => false

/-- One `if !obj.get(key).is_some_and(p) { obj.insert(key, v) }` step of
`ensure_db_shape_value`. -/
def ensureStep (l : List (String × Json)) (key : String) (p : Json → Bool)
    (v : Json) : List (String × Json) :=
  if isSomeAnd (getVal l key) p then l else setVal l key v

/-- `nonempty_string` (main.rs): stringify a primitive JSON value.  The
`as_i64/as_u64/as_f64` chain collapses to the single integer case of our
number model. -/
def nonempty_string : Option Json → Option String
  | none => none
  | some .null => none
  | some (.str text) => some text
  | some (.num number) => some (toString number)
  | some (.bool boolean) => some (toString boolean)
  | some _ => none

/-- `value_ref_string` (main.rs). -/
def value_ref_string (value : Option Json) : String :=
  (nonempty_string value).getD ""

/-- `value_i64` (main.rs).  The `f64` branch is absent because numbers are
modelled integrally; Lean's `String.toInt?` stands in for `str.parse::<i64>`
(both reject empty/garbage input, yielding the 0 default). -/
def value_i64 : Option Json → Int
  | some (.num n) => n
  | some (.str text) => (strToInt (trimStr text)).getD 0
  | some _ => 0
  | none => 0

/-- `has_key` (main.rs). -/
def has_key (value : Json) (key : String) : Bool :=
  match value with
  | .obj fields => (getVal fields key).isSome
  | _ => false

def DB_VERSION : Int := 3

/-- The `json!` kanban default used by `ensure_db_shape_value`. -/
def default_kanban : Json :=
  .obj [("columns", .arr []), ("cards", .arr []), ("candidates", .arr [])]

/-- The `json!` recycle default used by `ensure_db_shape_value`. -/
def default_recycle : Json :=
  .obj [("items", .arr []), ("redo", .arr [])]

/-- `default_db_value` (main.rs). -/
def default_db_value : Json :=
  .obj [("version", .num DB_VERSION),
        ("kanban", default_kanban),
        ("uniforms", .arr []),
        ("weekly", .obj []),
        ("todos", .arr []),
        ("recycle", default_recycle)]

/-- The inner fix-up of the `kanban` object in `ensure_db_shape_value`. -/
def ensure_kanban_fields (ks : List (String × Json)) : List (String × Json) :=
  ensureStep (ensureStep (ensureStep ks
    "columns" Json.isArr (.arr []))
    "cards" Json.isArr (.arr []))
    "candidates" Json.isArr (.arr [])

/-- The inner fix-up of the `recycle` object in `ensure_db_shape_value`. -/
def ensure_recycle_fields (rs : List (String × Json)) : List (String × Json) :=
  ensureStep (ensureStep rs "items" Json.isArr (.arr []))
    "redo" Json.isArr (.arr [])

/-- The successive inserts `ensure_db_shape_value` performs on the top-level
object's field list, in source order. -/
def ensure_db_fields (fields : List (String × Json)) : List (String × Json) :=
  updateObjVal
    (ensureStep
      (ensureStep
        (ensureStep
          (ensureStep
            (updateObjVal
              (ensureStep
                (ensureStep fields "version" Json.isNum (.num DB_VERSION))
                "kanban" Json.isObj default_kanban)
              "kanban" ensure_kanban_fields)
            "uniforms" Json.isArr (.arr []))
          "weekly" Json.isObj (.obj []))
        "todos" Json.isArr (.arr []))
      "recycle" Json.isObj default_recycle)
    "recycle" ensure_recycle_fields

/-- `ensure_db_shape_value` (main.rs). -/
def ensure_db_shape_value : Json → Json
  | .obj fields => .obj (ensure_db_fields fields)
  | _ => default_db_value

/-- The conjunction of every check `ensure_db_shape_value` performs: a
document passing `good_shape` is left untouched by the normalizer. -/
def good_kanban (ks : List (String × Json)) : Bool :=
  isSomeAnd (getVal ks "columns") Json.isArr &&
  isSomeAnd (getVal ks "cards") Json.isArr &&
  isSomeAnd (getVal ks "candidates") Json.isArr

def good_recycle (rs : List (String × Json)) : Bool :=
  isSomeAnd (getVal rs "items") Json.isArr &&
  isSomeAnd (getVal rs "redo") Json.isArr

/-- Test that an optional value is an object whose field list passes `p`. -/
def objCheck (o : Option Json) (p : List (String × Json) → Bool) : Bool :=
  match o with
  | some (.obj inner) => p inner
  | _ => false

def good_fields (fields : List (String × Json)) : Bool :=
  isSomeAnd (getVal fields "version") Json.isNum &&
  objCheck (getVal fields "kanban") good_kanban &&
  isSomeAnd (getVal fields "uniforms") Json.isArr &&
  isSomeAnd (getVal fields "weekly") Json.isObj &&
  isSomeAnd (getVal fields "todos") Json.isArr &&
  objCheck (getVal fields "recycle") good_recycle

def good_shape : Json → Bool
  | .obj fields => good_fields fields
  | _ => false

/-! ### Uniform inventory (main.rs `uniform_*` / `deduct_*` functions) -/

/-- `clamp_string` (main.rs): optionally trim, drop control characters
(code < 32 or 127), cap the character count. -/
def clamp_string (value : String) (max_len : Nat) (trim : Bool) : String :=
  let out := if trim then trimStr value else value
  let out := String.mk (out.data.filter fun ch => 32 ≤ ch.toNat && ch.toNat != 127)
  String.mk (out.data.take max_len)

/-- `normalize_uniform_type` (main.rs). -/
def normalize_uniform_type (value : String) : String :=
  let text := clamp_string value 40 true
  let lowered := lowerStr text
  if lowered = "shirts" then "Shirt"
  else if lowered = "pants" then "Pants"
  else text

/-- `UniformPayload` (main.rs). -/
structure UniformPayload where
  alteration : String
  kind : String
  size : String
  waist : String
  inseam : String
  quantity : Int
  branch : String
deriving Repr

/-- `uniform_key_from_entry` (main.rs). -/
def uniform_key_from_entry (entry : Json) : String :=
  lowerStr (value_ref_string (jget entry "branch")) ++ "|" ++
  lowerStr (value_ref_string (jget entry "type")) ++ "|" ++
  lowerStr (value_ref_string (jget entry "size")) ++ "|" ++
  lowerStr (value_ref_string (jget entry "alteration"))

/-- `uniform_key_from_payload` (main.rs). -/
def uniform_key_from_payload (payload : UniformPayload) : String :=
  lowerStr payload.branch ++ "|" ++ lowerStr payload.kind ++ "|" ++
  lowerStr payload.size ++ "|" ++ lowerStr payload.alteration

/-- `parse_nonnegative_integer` (main.rs); the `f64` branch is absent because
numbers are modelled integrally. -/
def parse_nonnegative_integer (value : Option Json) : Int :=
  let parsed : Option Int :=
    match value with
    | some (.num n) => some n
    | some (.str t) => strToInt (trimStr t)
    | _ => none
  max (parsed.getD 0) 0

/-- `normalize_uniform_payload` (main.rs). -/
def normalize_uniform_payload (payload : Json) : UniformPayload :=
  let alteration := clamp_string (value_ref_string (jget payload "alteration")) 80 true
  let kind := normalize_uniform_type (value_ref_string (jget payload "type"))
  let size := clamp_string (value_ref_string (jget payload "size")) 40 true
  let waist := clamp_string (value_ref_string ((jget payload "waist").or (jget payload "Waist"))) 2 true
  let inseam := clamp_string (value_ref_string ((jget payload "inseam").or (jget payload "Inseam"))) 2 true
  let branch := clamp_string (value_ref_string (jget payload "branch")) 40 true
  let quantity := parse_nonnegative_integer (jget payload "quantity")
  let size := if kind = "Pants" ∧ size = "" ∧ waist ≠ "" ∧ inseam ≠ "" then
      waist ++ "x" ++ inseam else size
  let size := if kind = "Shirt" then clamp_string (upperStr size) 40 true else size
  ⟨alteration, kind, size, waist, inseam, quantity, branch⟩

/-- `db.get(key)` then `as_array().cloned()`. -/
def getArr (db : Json) (key : String) : Option (List Json) :=
  (jget db key).bind Json.asArr

/-- Write a top-level field back into the document (models in-place mutation
through `get_mut`). -/
def setTop (db : Json) (key : String) (v : Json) : Json :=
  match db with
  | .obj fields => .obj (setVal fields key v)
  | other => other

/-- The uniforms list of a document (empty when absent or ill-typed). -/
def uniformsOf (db : Json) : List Json :=
  (getArr db "uniforms").getD []

/-- The scan inside `upsert_uniform_stock`: find the first entry that matches
the composite key *and* is an object, bump its quantity (clamped at 0), and
report the updated row; a matching non-object entry is passed over, exactly as
the Rust `if let Some(entry_obj) = entry.as_object_mut()` falls through. -/
def upsert_in_list (entries : List Json) (key : String) (quantity : Int) :
    List Json × Option Json :=
  match entries with
  | [] => ([], none)
  | entry :: rest =>
    if uniform_key_from_entry entry = key then
      match entry with
      | .obj obj =>
        let next := value_i64 (getVal obj "quantity") + quantity
        let updated := Json.obj (setVal obj "quantity" (.num (max next 0)))
        (updated :: rest, some updated)
      | _ =>
        let (rest2, found) := upsert_in_list rest key quantity
        (entry :: rest2, found)
    else
      let (rest2, found) := upsert_in_list rest key quantity
      (entry :: rest2, found)

/-- `upsert_uniform_stock` (main.rs).  `freshId` stands for the `new_id()`
call used when a brand-new stock row is pushed. -/
def upsert_uniform_stock (db : Json) (payload : UniformPayload) (freshId : String) :
    Json × Option Json :=
  match getArr db "uniforms" with
  | none => (db, none)
  | some uniforms =>
    let (us, found) := upsert_in_list uniforms (uniform_key_from_payload payload) payload.quantity
    match found with
    | some entry => (setTop db "uniforms" (.arr us), some entry)
    | none =>
      let row := Json.obj [("id", .str freshId),
        ("alteration", .str payload.alteration),
        ("type", .str payload.kind),
        ("size", .str payload.size),
        ("waist", .str payload.waist),
        ("inseam", .str payload.inseam),
        ("quantity", .num payload.quantity),
        ("branch", .str payload.branch)]
      (setTop db "uniforms" (.arr (us ++ [row])), some row)

/-- `obj.insert("quantity", json!(available - deducted))` on the matched
stock entry (`if let Some(obj) = uniforms[idx].as_object_mut()`; a non-object
entry is left as-is). -/
def decrementedEntry (entry : Json) (available deducted : Int) : Json :=
  match entry with
  | .obj obj => Json.obj (setVal obj "quantity" (.num (available - deducted)))
  | other => other

/-- The scan inside `decrement_uniform_stock`: the first key-matching entry is
decremented by `min(available, max(quantity, 0))` and dropped from the list
when its quantity is no longer positive; later matches are untouched. -/
def decrement_in_list (entries : List Json) (key : String) (quantity : Int) :
    List Json × Int :=
  match entries with
  | [] => ([], 0)
  | entry :: rest =>
    if uniform_key_from_entry entry = key then
      let available := max (value_i64 (jget entry "quantity")) 0
      if available ≤ 0 then (entry :: rest, 0)
      else
        let deducted := min available (max quantity 0)
        let updated := decrementedEntry entry available deducted
        if value_i64 (jget updated "quantity") ≤ 0 then (rest, deducted)
        else (updated :: rest, deducted)
    else
      let (rest2, deducted) := decrement_in_list rest key quantity
      (entry :: rest2, deducted)

/-- `decrement_uniform_stock` (main.rs). -/
def decrement_uniform_stock (db : Json) (payload : UniformPayload) : Json × Int :=
  match getArr db "uniforms" with
  | none => (db, 0)
  | some uniforms =>
    let (us, deducted) :=
      decrement_in_list uniforms (uniform_key_from_payload payload) payload.quantity
    (setTop db "uniforms" (.arr us), deducted)

/-- `parse_issued_uniform_quantity` (main.rs). -/
def parse_issued_uniform_quantity (value : String) : Int :=
  let num := (strToInt (trimStr value)).getD 0
  if 1 ≤ num ∧ num ≤ 4 then num else 0

/-- `parse_issued_uniform_quantity(quantity.to_string())` as used by
`deduct_uniforms_across_alterations`: printing an `i64` and reparsing it is
the identity, so the composite keeps quantities in `1..=4` and zeroes out
everything else. -/
def parse_issued_quantity_int (quantity : Int) : Int :=
  if 1 ≤ quantity ∧ quantity ≤ 4 then quantity else 0

/-- The scan inside `append_uniform_adjustment`: `some` when a key-matching
entry exists (its quantity bumped when it is an object — a matching
non-object entry still ends the scan, mirroring the early `return`). -/
def append_adjust_list (entries : List Json) (key : String) (quantity : Int) :
    Option (List Json) :=
  match entries with
  | [] => none
  | entry :: rest =>
    if uniform_key_from_entry entry = key then
      match entry with
      | .obj obj =>
        some (Json.obj (setVal obj "quantity"
          (.num (value_i64 (getVal obj "quantity") + quantity))) :: rest)
      | _ => some (entry :: rest)
    else (append_adjust_list rest key quantity).map (entry :: ·)

/-- `append_uniform_adjustment` (main.rs). -/
def append_uniform_adjustment (adjustments : List Json) (payload : UniformPayload)
    (quantity : Int) : List Json :=
  if quantity ≤ 0 then adjustments
  else
    match append_adjust_list adjustments (uniform_key_from_payload payload) quantity with
    | some updated => updated
    | none =>
      adjustments ++ [Json.obj [("alteration", .str payload.alteration),
        ("type", .str payload.kind),
        ("size", .str payload.size),
        ("quantity", .num quantity),
        ("branch", .str payload.branch)]]

/-- The round-robin `while remaining > 0 && misses < targets.len()` loop of
`deduct_uniforms_across_alterations`.  The loop terminates because every
iteration either lowers `remaining` or raises `misses`; `fuel` is an upper
bound on the number of iterations (structural recursion stands in for the
Rust `while`), and the caller passes a fuel amount that provably exceeds the
iteration count, so the `fuel = 0` branch is never reached
(`deduct_loop_fuel_stable` below). -/
def deduct_loop (kind size branch : String) (targets : List String) :
    Nat → Json → Int → Nat → Nat → List Json → Json × List Json
  | 0, db, _, _, _, adjustments => (db, adjustments)
  | fuel + 1, db, remaining, misses, idx, adjustments =>
    if 0 < remaining ∧ misses < targets.length then
      let alteration := targets.getD (idx % targets.length) ""
      let payload : UniformPayload := ⟨alteration, kind, size, "", "", 1, branch⟩
      let result := decrement_uniform_stock db payload
      if 0 < result.2 then
        deduct_loop kind size branch targets fuel result.1 (remaining - result.2) 0 (idx + 1)
          (append_uniform_adjustment adjustments payload result.2)
      else
        deduct_loop kind size branch targets fuel result.1 remaining (misses + 1) (idx + 1)
          adjustments
    else (db, adjustments)

/-- `deduct_uniforms_across_alterations` (main.rs).  Returns the mutated
document together with the adjustments list. -/
def deduct_uniforms_across_alterations (db : Json) (kind size : String)
    (quantity : Int) (branch : String) (alterations : List String) :
    Json × List Json :=
  let normalized_kind := normalize_uniform_type kind
  let normalized_size := clamp_string size 40 true
  let normalized_branch := clamp_string branch 40 true
  let normalized_quantity := parse_issued_quantity_int quantity
  if normalized_kind = "" ∨ normalized_size = "" ∨ normalized_branch = "" ∨
      normalized_quantity ≤ 0 then (db, [])
  else
    let targets0 := (alterations.map fun value => clamp_string value 80 true).filter (· ≠ "")
    let targets := if targets0 = [] then [""] else targets0
    if targets.length = 1 then
      let payload : UniformPayload :=
        ⟨targets.headD "", normalized_kind, normalized_size, "", "",
          normalized_quantity, normalized_branch⟩
      let result := decrement_uniform_stock db payload
      (result.1, append_uniform_adjustment [] payload result.2)
    else
      deduct_loop normalized_kind normalized_size normalized_branch targets
        (normalized_quantity.toNat * (targets.length + 1) + targets.length + 1)
        db normalized_quantity 0 0 []

/-- The `quantity` field of a stock/adjustment entry, as the program reads
it. -/
def adjQty (e : Json) : Int :=
  value_i64 (jget e "quantity")

/-- Total units across a list of stock/adjustment entries. -/
def totalQty (l : List Json) : Int :=
  (l.map adjQty).sum

/-- Stock rows for the spec's partial-fulfillment scenario: one unit of
`alt1` and one unit of `alt2` under the same (B, Pants, 32x34) key. -/
def c9_alt1 : Json :=
  .obj [("id", .str "u1"), ("alteration", .str "alt1"), ("type", .str "Pants"),
    ("size", .str "32x34"), ("waist", .str ""), ("inseam", .str ""),
    ("quantity", .num 1), ("branch", .str "B")]

def c9_alt2 : Json :=
  .obj [("id", .str "u2"), ("alteration", .str "alt2"), ("type", .str "Pants"),
    ("size", .str "32x34"), ("waist", .str ""), ("inseam", .str ""),
    ("quantity", .num 1), ("branch", .str "B")]

def c9_db : Json := .obj [("uniforms", .arr [c9_alt1, c9_alt2])]

/-- A small concrete stock state used to witness the deduction-bounds
theorem: three units of one pants row. -/
def c3w_row : Json :=
  .obj [("id", .str "w1"), ("alteration", .str "hemmed"), ("type", .str "Pants"),
    ("size", .str "30x30"), ("waist", .str ""), ("inseam", .str ""),
    ("quantity", .num 3), ("branch", .str "North")]

def c3w_db : Json := .obj [("uniforms", .arr [c3w_row])]

/-! ### Merge engine (main.rs `merge_databases`)

`new_id()` draws random, time-stamped identifiers; the embedding threads an
id supply `fresh : Nat → String` and a counter, so the k-th minted id is
`fresh k`.  The claims assume only that minted ids are pairwise distinct and
distinct from every id already present, which the supply hypotheses state
explicitly.  `now_string()` is threaded as the `now` parameter. -/

/-- `CANDIDATE_FIELDS` (main.rs). -/
def CANDIDATE_FIELDS : List String :=
  ["Candidate Name", "Hire Date", "ICIMS ID", "Employee ID", "Neo Arrival Time",
   "Neo Departure Time", "Total Neo Hours", "REQ ID", "Job ID Name",
   "Job Location", "Manager", "Branch", "Contact Phone", "Contact Email",
   "Background Provider", "Background Cleared Date", "Background MVR Flag",
   "License Type", "MA CORI Status", "MA CORI Date", "NH GC Status",
   "NH GC Expiration Date", "NH GC ID Number", "ME GC Status",
   "ME GC Expiration Date", "ID Type", "State Abbreviation", "ID Number",
   "DOB", "EXP", "Other ID Type", "Social", "Bank Name", "Account Type",
   "Routing Number", "Account Number", "Shirt Size", "Waist", "Inseam",
   "Issued Shirt Size", "Issued Waist", "Issued Inseam", "Issued Pants Size",
   "Issued Shirt Type", "Issued Shirts Given", "Issued Pants Type",
   "Issued Pants Given", "Uniforms Issued", "Shirt Type", "Shirts Given",
   "Pants Type", "Pants Given", "Pants Size", "Boots Size",
   "Emergency Contact Name", "Emergency Contact Relationship",
   "Emergency Contact Phone", "Additional Details", "Additional Notes",
   "candidate UUID"]

/-- First-match lookup in a `HashMap<String, String>` modelled as a cons
list (an insert shadows older bindings, matching `HashMap::insert`). -/
def strLookup : List (String × String) → String → Option String
  | [], _ => none
  | (k, v) :: rest, key => if k = key then some v else strLookup rest key

/-- First-match lookup in a `HashMap<String, i64>` modelled the same way. -/
def ordLookup : List (String × Int) → String → Option Int
  | [], _ => none
  | (k, v) :: rest, key => if k = key then some v else ordLookup rest key

/-- Stable insertion by ascending `order` key: the new element goes before
the first strictly larger key, after equal ones it followed in the input. -/
def insertByOrder (x : Json) : List Json → List Json
  | [] => [x]
  | y :: ys =>
    if value_i64 (jget y "order") < value_i64 (jget x "order") then
      y :: insertByOrder x ys
    else x :: y :: ys

/-- `sort_by_key(|v| value_i64(v.get("order")))` — Rust's stable sort; the
stable insertion sort computes the same list. -/
def sortByOrder : List Json → List Json
  | [] => []
  | x :: xs => insertByOrder x (sortByOrder xs)

/-- `db.get("kanban").and_then(|v| v.get(key)).and_then(as_array).cloned()
.unwrap_or_default()`. -/
def kanban_arr (db : Json) (key : String) : List Json :=
  ((jget db "kanban").bind fun k => (jget k key).bind Json.asArr).getD []

/-- `db_kanban_columns_mut`-style access: succeeds when `kanban` is an object
and the sub-collection an array. -/
def kanban_list? (db : Json) (key : String) : Option (List Json) :=
  (jget db "kanban").bind fun k => (jget k key).bind Json.asArr

/-- Write a kanban sub-list back (through `kanban`'s object binding). -/
def set_kanban_list (db : Json) (key : String) (l : List Json) : Json :=
  match db with
  | .obj fields => .obj (updateObjVal fields "kanban" fun ks => setVal ks key (.arr l))
  | other => other

def colIdList (l : List Json) : List String :=
  l.map fun c => value_ref_string (jget c "id")

def cardIdList (l : List Json) : List String :=
  l.map fun c => value_ref_string (jget c "uuid")

def rowIdList (l : List Json) : List String :=
  l.map fun r => value_ref_string (jget r "candidate UUID")

/-- Column ids of a document. -/
def colIdsOf (db : Json) : List String := colIdList (kanban_arr db "columns")

/-- Card uuids of a document. -/
def cardIdsOf (db : Json) : List String := cardIdList (kanban_arr db "cards")

/-- Candidate-row UUIDs of a document. -/
def rowIdsOf (db : Json) : List String := rowIdList (kanban_arr db "candidates")

/-- Todo ids of a document. -/
def todoIdsOf (db : Json) : List String :=
  (((jget db "todos").bind Json.asArr).getD []).map fun t =>
    value_ref_string (jget t "id")

/-- Every id (column, card, candidate row, todo) present in the normalized
target or incoming document: the universe the freshness hypotheses range
over. -/
def mergeIdUniverse (target incoming : Json) : List String :=
  colIdsOf (ensure_db_shape_value target) ++ colIdsOf (ensure_db_shape_value incoming) ++
  cardIdsOf (ensure_db_shape_value target) ++ cardIdsOf (ensure_db_shape_value incoming) ++
  rowIdsOf (ensure_db_shape_value target) ++ rowIdsOf (ensure_db_shape_value incoming) ++
  todoIdsOf (ensure_db_shape_value target) ++ todoIdsOf (ensure_db_shape_value incoming)

/-- `target.get("kanban")…columns.first().map(id).unwrap_or_default()`. -/
def first_column_id (db : Json) : String :=
  match kanban_list? db "columns" with
  | some (c :: _) => value_ref_string (jget c "id")
  | _ => ""

/-- The column loop of `merge_databases`: for each incoming column (skipping
those without an id), remint the id on collision, bump the running maximal
order, stamp `updated_at`, and append.  Returns (appended columns,
existing-id set, old→new map, next fresh index). -/
def merge_columns_go (fresh : Nat → String) (now : String) :
    List Json → List Json → List String → List (String × String) → Int → Nat →
    List Json × List String × List (String × String) × Nat
  | [], acc, ids, cmap, _, n => (acc, ids, cmap, n)
  | column :: rest, acc, ids, cmap, maxOrder, n =>
    let old_id := value_ref_string (jget column "id")
    if old_id = "" then merge_columns_go fresh now rest acc ids cmap maxOrder n
    else
      let pick := if old_id ∈ ids then (fresh n, n + 1) else (old_id, n)
      let maxOrder' := maxOrder + 1
      let next_column := setVal (setVal (setVal ((column.asObj).getD [])
        "id" (.str pick.1)) "order" (.num maxOrder')) "updated_at" (.str now)
      merge_columns_go fresh now rest (acc ++ [Json.obj next_column]) (pick.1 :: ids)
        ((old_id, pick.1) :: cmap) maxOrder' pick.2

/-- `order_by_column` initialisation from the target's cards. -/
def build_order_by_column (cards : List Json) : List (String × Int) :=
  cards.foldl (fun m card =>
    let column_id := value_ref_string (jget card "column_id")
    if column_id = "" then m
    else (column_id, max ((ordLookup m column_id).getD 0)
      (value_i64 (jget card "order"))) :: m) []

/-- The `mapped_column`/`safe_column` computation inside the card loop:
remap through the column map, fall back to the target's first column when the
mapped column is missing. -/
def safe_column_of (cmap : List (String × String)) (existingCols : List String)
    (firstCol incoming_column : String) : String :=
  let mapped_column := (strLookup cmap incoming_column).getD incoming_column
  if mapped_column ≠ "" ∧ mapped_column ∈ existingCols then mapped_column
  else if firstCol ≠ "" then firstCol
  else mapped_column

/-- The rebuilt card the card loop pushes (uuid/column/order remapped,
update time stamped). -/
def next_card_obj (card : Json) (uuid column_id : String) (ord : Int)
    (now : String) : Json :=
  Json.obj (setVal (setVal (setVal (setVal ((card.asObj).getD [])
    "uuid" (.str uuid)) "column_id" (.str column_id)) "order" (.num ord))
    "updated_at" (.str now))

/-- The card loop of `merge_databases`. -/
def merge_cards_go (fresh : Nat → String) (now : String)
    (cmap : List (String × String)) (existingCols : List String) (firstCol : String) :
    List Json → List Json → List String → List (String × String) →
    List (String × Int) → Nat →
    List Json × List String × List (String × String) × Nat
  | [], acc, ids, cardMap, _, n => (acc, ids, cardMap, n)
  | card :: rest, acc, ids, cardMap, orders, n =>
    let old_id := value_ref_string (jget card "uuid")
    if old_id = "" then
      merge_cards_go fresh now cmap existingCols firstCol rest acc ids cardMap orders n
    else
      let pick := if old_id ∈ ids then (fresh n, n + 1) else (old_id, n)
      let safe_column := safe_column_of cmap existingCols firstCol
        (value_ref_string (jget card "column_id"))
      let next_order := ((ordLookup orders safe_column).getD 0) + 1
      merge_cards_go fresh now cmap existingCols firstCol rest
        (acc ++ [next_card_obj card pick.1 safe_column next_order now])
        (pick.1 :: ids) ((old_id, pick.1) :: cardMap)
        ((safe_column, next_order) :: orders) pick.2

/-- `for field in CANDIDATE_FIELDS { if !contains_key { insert "" } }`. -/
def fill_missing_fields (row : List (String × Json)) : List (String × Json) :=
  CANDIDATE_FIELDS.foldl (fun r f =>
    if (getVal r f).isSome then r else setVal r f (.str "")) row

/-- The candidate-row loop of `merge_databases`. -/
def merge_rows_go (fresh : Nat → String) (cardMap : List (String × String)) :
    List Json → List Json → List String → Nat → List Json × List String × Nat
  | [], acc, ids, n => (acc, ids, n)
  | row :: rest, acc, ids, n =>
    match row.asObj with
    | none => merge_rows_go fresh cardMap rest acc ids n
    | some row_obj =>
      let original_id := value_ref_string (jget row "candidate UUID")
      let mapped := (strLookup cardMap original_id).getD original_id
      let pick := if mapped = "" ∨ mapped ∈ ids then (fresh n, n + 1) else (mapped, n)
      let next_row := fill_missing_fields (setVal row_obj "candidate UUID" (.str pick.1))
      merge_rows_go fresh cardMap rest (acc ++ [Json.obj next_row]) (pick.1 :: ids) pick.2

/-- `target_weeks.entry(week_start).or_insert_with(default week slot)`. -/
def or_insert_week (target_weeks : List (String × Json))
    (week_start week_end : String) : List (String × Json) :=
  if (getVal target_weeks week_start).isSome then target_weeks
  else setVal target_weeks week_start (Json.obj
    [("week_start", .str week_start), ("week_end", .str week_end),
     ("entries", .obj [])])

/-- `if !week_obj.get("entries").is_some_and(is_object) { insert {} }`. -/
def ensure_entries_obj (week_obj : List (String × Json)) : List (String × Json) :=
  if isSomeAnd (getVal week_obj "entries") Json.isObj then week_obj
  else setVal week_obj "entries" (.obj [])

/-- Copy the incoming week's day entries into the target week object,
filling only absent days. -/
def merge_week_fill (week : Json) (week_obj : List (String × Json)) :
    List (String × Json) :=
  match (jget week "entries").bind Json.asObj with
  | some source_entries =>
    updateObjVal (ensure_entries_obj week_obj) "entries" fun target_entries =>
      source_entries.foldl (fun te dp =>
        if (getVal te dp.1).isSome then te else setVal te dp.1 dp.2) target_entries
  | none => ensure_entries_obj week_obj

/-- One incoming week merged into the target's weekly map: create the week
slot if absent, then fill only the days the target does not already have. -/
def merge_week_into (target_weeks : List (String × Json)) (week : Json) :
    List (String × Json) :=
  if value_ref_string (jget week "week_start") = "" then target_weeks
  else updateObjVal
    (or_insert_week target_weeks (value_ref_string (jget week "week_start"))
      (value_ref_string (jget week "week_end")))
    (value_ref_string (jget week "week_start")) (merge_week_fill week)

/-- The weekly phase of `merge_databases`. -/
def merge_weekly (db : Json) (incoming_weeks : List (String × Json)) : Json :=
  match db with
  | .obj fields => .obj (updateObjVal fields "weekly" fun target_weeks =>
      incoming_weeks.foldl (fun tw wp => merge_week_into tw wp.2) target_weeks)
  | other => other

/-- The todo loop of `merge_databases`. -/
def merge_todos_go (fresh : Nat → String) :
    List Json → List Json → List String → Nat → List Json × List String × Nat
  | [], acc, ids, n => (acc, ids, n)
  | todo :: rest, acc, ids, n =>
    match todo.asObj with
    | none => merge_todos_go fresh rest acc ids n
    | some todo_obj =>
      let tid := value_ref_string (jget todo "id")
      let pick := if tid = "" ∨ tid ∈ ids then (fresh n, n + 1) else (tid, n)
      let next_todo := setVal todo_obj "id" (.str pick.1)
      merge_todos_go fresh rest (acc ++ [Json.obj next_todo]) (pick.1 :: ids) pick.2

/-- The uniform phase of `merge_databases`: additive upsert of each valid
incoming stock entry.  (The fresh counter advances per entry; an id is only
spent when `upsert_uniform_stock` pushes a brand-new row, and the supply is
merely required to be injective and disjoint from existing ids, so skipped
indices are immaterial.) -/
def merge_uniforms_go (fresh : Nat → String) :
    List Json → Json → Nat → Json × Nat
  | [], db, n => (db, n)
  | entry :: rest, db, n =>
    let normalized := normalize_uniform_payload entry
    if normalized.kind = "" ∨ normalized.size = "" ∨ normalized.branch = "" ∨
        normalized.quantity ≤ 0 then
      merge_uniforms_go fresh rest db n
    else
      merge_uniforms_go fresh rest (upsert_uniform_stock db normalized (fresh n)).1 (n + 1)

/-- The column phase of `merge_databases` (skipped whole when
`db_kanban_columns_mut` would fail): returns the updated document, the final
existing-column-id set, the old→new column map and the next fresh index. -/
def merge_phase_columns (fresh : Nat → String) (now : String)
    (target incoming : Json) : Json × List String × List (String × String) × Nat :=
  let existing_columns0 := (colIdList (kanban_arr target "columns")).filter (· ≠ "")
  match kanban_list? target "columns" with
  | some cols =>
    let r := merge_columns_go fresh now (sortByOrder (kanban_arr incoming "columns"))
      [] existing_columns0 []
      ((((kanban_arr target "columns").map fun c =>
        value_i64 (jget c "order")).max?).getD 0) 0
    (set_kanban_list target "columns" (cols ++ r.1), r.2.1, r.2.2.1, r.2.2.2)
  | none => (target, existing_columns0, ([] : List (String × String)), 0)

/-- The card phase of `merge_databases`: returns the updated document, the
old→new card map and the next fresh index. -/
def merge_phase_cards (fresh : Nat → String) (now : String) (incoming db1 : Json)
    (existingCols : List String) (column_map : List (String × String)) (n1 : Nat) :
    Json × List (String × String) × Nat :=
  match kanban_list? db1 "cards" with
  | some cards =>
    let r := merge_cards_go fresh now column_map existingCols (first_column_id db1)
      (sortByOrder (kanban_arr incoming "cards")) []
      ((cardIdList (kanban_arr db1 "cards")).filter (· ≠ "")) []
      (build_order_by_column (kanban_arr db1 "cards")) n1
    (set_kanban_list db1 "cards" (cards ++ r.1), r.2.2.1, r.2.2.2)
  | none => (db1, ([] : List (String × String)), n1)

/-- The candidate-row phase of `merge_databases`.  `existing_row_ids0` is the
row-id set captured before the card loop ran. -/
def merge_phase_rows (fresh : Nat → String) (incoming db2 : Json)
    (existing_row_ids0 : List String) (card_id_map : List (String × String))
    (n2 : Nat) : Json × Nat :=
  match kanban_list? db2 "candidates" with
  | some rows =>
    let r := merge_rows_go fresh card_id_map (kanban_arr incoming "candidates") []
      existing_row_ids0 n2
    (set_kanban_list db2 "candidates" (rows ++ r.1), r.2.2)
  | none => (db2, n2)

/-- The todo phase of `merge_databases`. -/
def merge_phase_todos (fresh : Nat → String) (incoming db4 : Json) (n3 : Nat) :
    Json × Nat :=
  match (jget db4 "todos").bind Json.asArr with
  | some todos =>
    let r := merge_todos_go fresh (((jget incoming "todos").bind Json.asArr).getD [])
      [] ((todoIdsOf db4).filter (· ≠ "")) n3
    (setTop db4 "todos" (.arr (todos ++ r.1)), r.2.2)
  | none => (db4, n3)

/-- `merge_databases` (main.rs): normalize both documents, then append
columns, cards, candidate rows, weekly gaps, todos and uniform stock from
`incoming` into `target`. -/
def merge_databases (fresh : Nat → String) (now : String)
    (target incoming : Json) : Json :=
  let target := ensure_db_shape_value target
  let incoming := ensure_db_shape_value incoming
  let s1 := merge_phase_columns fresh now target incoming
  let existing_row_ids0 := (rowIdList (kanban_arr s1.1 "candidates")).filter (· ≠ "")
  let s2 := merge_phase_cards fresh now incoming s1.1 s1.2.1 s1.2.2.1 s1.2.2.2
  let s3 := merge_phase_rows fresh incoming s2.1 existing_row_ids0 s2.2.1 s2.2.2
  let db4 := merge_weekly s3.1 (((jget incoming "weekly").bind Json.asObj).getD [])
  let s5 := merge_phase_todos fresh incoming db4 s3.2
  (merge_uniforms_go fresh (((jget incoming "uniforms").bind Json.asArr).getD [])
    s5.1 s5.2).1

/-- The weekly day payload stored for `(week-start, day)` in a document. -/
def weekly_entry (db : Json) (wk day : String) : Option Json :=
  (jget db "weekly").bind fun w =>
    (jget w wk).bind fun we =>
      (jget we "entries").bind fun es => jget es day

/-- An injective, nonempty id supply disjoint from the ids of the concrete
witness documents below (`f`, `ff`, `fff`, …). -/
def c2w_fresh : Nat → String := fun k => String.mk (List.replicate (k + 1) 'f')

/-- A small fully-populated document used to witness the merge theorems:
one column, one card, one mirrored candidate row, one todo, one weekly day
entry. -/
def c2w_db : Json :=
  .obj [("version", .num 3),
    ("kanban", .obj [
      ("columns", .arr [.obj [("id", .str "c1"), ("name", .str "Intake"),
        ("order", .num 1)]]),
      ("cards", .arr [.obj [("uuid", .str "k1"), ("candidate_name", .str "A"),
        ("column_id", .str "c1"), ("order", .num 1)]]),
      ("candidates", .arr [.obj [("candidate UUID", .str "k1"),
        ("Candidate Name", .str "A")]])]),
    ("uniforms", .arr []),
    ("weekly", .obj [("2024-01-01", .obj [("week_start", .str "2024-01-01"),
      ("week_end", .str "2024-01-07"),
      ("entries", .obj [("Monday", .obj [("content", .str "orig")])])])]),
    ("todos", .arr [.obj [("id", .str "t1"), ("text", .str "hi")]]),
    ("recycle", .obj [("items", .arr []), ("redo", .arr [])])]

/-- An incoming document carrying a different payload for the same weekly
day as `c2w_db`. -/
def c5w_incoming : Json :=
  .obj [("version", .num 3),
    ("kanban", .obj [("columns", .arr []), ("cards", .arr []),
      ("candidates", .arr [])]),
    ("uniforms", .arr []),
    ("weekly", .obj [("2024-01-01", .obj [("week_start", .str "2024-01-01"),
      ("week_end", .str "2024-01-07"),
      ("entries", .obj [("Monday", .obj [("content", .str "foreign")])])])]),
    ("todos", .arr []),
    ("recycle", .obj [("items", .arr []), ("redo", .arr [])])]

/-! ### Undo/redo ledger (main.rs `push/pop_recycle_item`,
`restore_recycle_item`, `reapply_recycle_item`, `db_recycle_undo/redo`) -/

/-- `db.get_mut("recycle")…get_mut("items")…as_array_mut` (read side). -/
def recycle_items? (db : Json) : Option (List Json) :=
  (jget db "recycle").bind fun r => (jget r "items").bind Json.asArr

/-- `db.get_mut("recycle")…get_mut("redo")…as_array_mut` (read side). -/
def redo_items? (db : Json) : Option (List Json) :=
  (jget db "recycle").bind fun r => (jget r "redo").bind Json.asArr

/-- Write a recycle sub-list back (through the `recycle` object binding). -/
def set_recycle_list (db : Json) (key : String) (l : List Json) : Json :=
  match db with
  | .obj fields => .obj (updateObjVal fields "recycle" fun rs => setVal rs key (.arr l))
  | other => other

/-- The ledger entry built by `push_recycle_item`/`push_redo_item`: a map
seeded with the fresh id and deletion stamp, then overwritten by every
payload field (so a payload carrying an `id` field replaces the fresh id). -/
def recycle_entry_of (freshId now : String) (payload : Json) : Json :=
  match payload with
  | .obj obj => Json.obj (obj.foldl (fun e kv => setVal e kv.1 kv.2)
      (setVal (setVal [] "id" (.str freshId)) "deleted_at" (.str now)))
  | _ => Json.obj (setVal (setVal [] "id" (.str freshId)) "deleted_at" (.str now))

/-- `push_recycle_item` (main.rs). -/
def push_recycle_item (db : Json) (payload : Json) (freshId now : String) :
    Json × Option String :=
  match recycle_items? db with
  | none => (db, none)
  | some items =>
    (set_recycle_list db "items" (items ++ [recycle_entry_of freshId now payload]),
     some freshId)

/-- `push_redo_item` (main.rs). -/
def push_redo_item (db : Json) (payload : Json) (freshId now : String) :
    Json × Option String :=
  match redo_items? db with
  | none => (db, none)
  | some redo =>
    (set_recycle_list db "redo" (redo ++ [recycle_entry_of freshId now payload]),
     some freshId)

/-- `items.remove(position(id))`: the removed entry and the remaining list. -/
def pop_from_list (items : List Json) (id : String) : Option (Json × List Json) :=
  match items with
  | [] => none
  | item :: rest =>
    if value_ref_string (jget item "id") = id then some (item, rest)
    else (pop_from_list rest id).map fun r => (r.1, item :: r.2)

/-- `pop_recycle_item` (main.rs): the removed entry and the updated document. -/
def pop_recycle_item (db : Json) (id : String) : Option (Json × Json) :=
  match recycle_items? db with
  | none => none
  | some items =>
    (pop_from_list items id).map fun r => (r.1, set_recycle_list db "items" r.2)

/-- `pop_redo_item` (main.rs). -/
def pop_redo_item (db : Json) (id : String) : Option (Json × Json) :=
  match redo_items? db with
  | none => none
  | some redo =>
    (pop_from_list redo id).map fun r => (r.1, set_recycle_list db "redo" r.2)

/-- The append-skipping-existing-keys pattern shared by the restorers: the
existing-key set is computed once, snapshot entities with an empty or
already-present key are skipped, the rest are appended. -/
def restore_append (keyName : String) (current snapshot : List Json) : List Json :=
  current ++ snapshot.filter fun e =>
    decide (¬(value_ref_string (jget e keyName) = "" ∨
      value_ref_string (jget e keyName) ∈
        current.map fun c => value_ref_string (jget c keyName)))

/-- The `week_obj` mutation of the `weekly_entries` restorer: stamp
`week_start` (and a nonempty `week_end`), ensure the `entries` object, then
insert the day payload unconditionally. -/
def restore_week_obj (week_start week_end day : String) (payload : Json)
    (week_obj : List (String × Json)) : List (String × Json) :=
  updateObjVal
    (ensure_entries_obj
      (if week_end ≠ "" then
        setVal (setVal week_obj "week_start" (.str week_start)) "week_end"
          (.str week_end)
      else setVal week_obj "week_start" (.str week_start)))
    "entries" fun days => setVal days day payload

/-- One snapshot entry of the `weekly_entries` restorer applied to the weekly
map. -/
def restore_week_entry (weekly : List (String × Json)) (entry : Json) :
    List (String × Json) :=
  if value_ref_string (jget entry "week_start") = "" ∨
      value_ref_string (jget entry "day") = "" then weekly
  else
    updateObjVal
      (or_insert_week weekly (value_ref_string (jget entry "week_start"))
        (value_ref_string (jget entry "week_end")))
      (value_ref_string (jget entry "week_start"))
      (restore_week_obj (value_ref_string (jget entry "week_start"))
        (value_ref_string (jget entry "week_end"))
        (value_ref_string (jget entry "day"))
        ((jget entry "payload").getD (.obj [])))

/-- The adjustment re-credit loop of the `kanban_cards` restorer. -/
def restore_adjustments (fresh : Nat → String) :
    List Json → Json → Nat → Json × Nat
  | [], db, n => (db, n)
  | entry :: rest, db, n =>
    if 0 < (normalize_uniform_payload entry).quantity then
      restore_adjustments fresh rest
        (upsert_uniform_stock db (normalize_uniform_payload entry) (fresh n)).1 (n + 1)
    else restore_adjustments fresh rest db n

/-- Snapshot card uuids (nonempty) used by the `kanban_columns` restorer. -/
def snapCardIds (cards : List Json) : List String :=
  (cards.map fun c => value_ref_string (jget c "uuid")).filter (· ≠ "")

/-- `item.get(key).and_then(as_array).cloned().unwrap_or_default()`. -/
def snapList (item : Json) (key : String) : List Json :=
  ((jget item key).bind Json.asArr).getD []

/-- One guarded `if let Ok(list) = db_kanban_*_mut(db)` restore step: append
the snapshot entities whose key is new. -/
def restore_into_kanban (db : Json) (key keyName : String)
    (snapshot : List Json) : Json :=
  match kanban_list? db key with
  | some cur => set_kanban_list db key (restore_append keyName cur snapshot)
  | none => db

/-- The same restore step against a top-level array (`todos`, `uniforms`). -/
def restore_into_top (db : Json) (key keyName : String)
    (snapshot : List Json) : Json :=
  match (jget db key).bind Json.asArr with
  | some cur => setTop db key (.arr (restore_append keyName cur snapshot))
  | none => db

/-- The card half of the `kanban_columns` restorer: retain cards whose uuid
is not in the snapshot, then push every snapshot card with a nonempty uuid
(replacing, not skipping). -/
def restore_columns_cards (db : Json) (snapshot : List Json) : Json :=
  match kanban_list? db "cards" with
  | some db_cards => set_kanban_list db "cards"
      ((db_cards.filter fun card =>
        decide (value_ref_string (jget card "uuid") ∉ snapCardIds snapshot)) ++
       snapshot.filter fun card =>
         decide (value_ref_string (jget card "uuid") ≠ ""))
  | none => db

/-- The `weekly_entries` restorer body over the weekly object. -/
def restore_weekly_entries (db : Json) (entries : List Json) : Json :=
  match db with
  | .obj fields => Json.obj (updateObjVal fields "weekly" fun weekly =>
      entries.foldl restore_week_entry weekly)
  | other => other

/-- `restore_recycle_item` (main.rs): dispatch on the entry's type tag and
re-insert the snapshot.  Returns the updated document, the success flag and
the next fresh-id index (ids are spent by stock upserts). -/
def restore_recycle_item (fresh : Nat → String) (db : Json) (item : Json)
    (n : Nat) : Json × Bool × Nat :=
  match value_ref_string (jget item "type") with
  | "kanban_cards" =>
    let r := restore_adjustments fresh (snapList item "uniformAdjustments")
      (restore_into_kanban
        (restore_into_kanban db "cards" "uuid" (snapList item "cards"))
        "candidates" "candidate UUID" (snapList item "candidates")) n
    (r.1, true, r.2)
  | "kanban_columns" =>
    (restore_columns_cards
      (restore_into_kanban db "columns" "id" (snapList item "columns"))
      (snapList item "cards"), true, n)
  | "candidate_rows" =>
    (restore_into_kanban db "candidates" "candidate UUID"
      (snapList item "candidates"), true, n)
  | "weekly_entries" =>
    (restore_weekly_entries db (snapList item "entries"), true, n)
  | "todos" =>
    (restore_into_top db "todos" "id" (snapList item "todos"), true, n)
  | "uniform_rows" =>
    (restore_into_top db "uniforms" "id" (snapList item "uniforms"), true, n)
  | _ => (db, false, n)

/-- The card-reassignment walk of `remove_kanban_columns`: each card sitting
on a removed column moves to the target column with the next order slot. -/
def reassign_fold (ids : List String) (target now : String) :
    List Json → Int → List Json
  | [], _ => []
  | card :: rest, next_order =>
    if value_ref_string (jget card "column_id") ∈ ids then
      (match card with
       | .obj obj => Json.obj (setVal (setVal (setVal obj "column_id" (.str target))
           "order" (.num next_order)) "updated_at" (.str now))
       | other => other) :: reassign_fold ids target now rest (next_order + 1)
    else card :: reassign_fold ids target now rest next_order

/-- The first remaining column (sorted by order), the reassignment target. -/
def target_column_id (remaining_columns : List Json) : String :=
  value_ref_string (((sortByOrder remaining_columns).head?).bind fun v =>
    jget v "id")

/-- The card-reassignment block of `remove_kanban_columns` (`None` models the
early `Invalid table.` return of the re-borrow). -/
def reassign_step (db : Json) (ids : List String) (target now : String) :
    Option Json :=
  match kanban_list? db "cards" with
  | none => none
  | some cards2 => some (set_kanban_list db "cards"
      (reassign_fold ids target now (sortByOrder cards2)
        ((((cards2.filter fun card =>
            value_ref_string (jget card "column_id") = target).map fun card =>
            value_i64 (jget card "order")).max?).getD 0 + 1)))

/-- The column-retain step of `remove_kanban_columns` (also the generic
retain used by `reapply_recycle_item`). -/
def retain_kanban (db : Json) (key keyName : String) (ids : List String) : Json :=
  match kanban_list? db key with
  | some cur => set_kanban_list db key (cur.filter fun e =>
      decide (value_ref_string (jget e keyName) ∉ ids))
  | none => db

/-- The optional undo-record step of `remove_kanban_columns`. -/
def record_undo_step (db : Json) (record_undo : Bool)
    (removed_columns removed_cards : List Json) (freshId now : String) :
    Json × Option String :=
  if record_undo ∧ ¬removed_columns.isEmpty then
    push_recycle_item db (.obj [("type", .str "kanban_columns"),
      ("columns", .arr removed_columns), ("cards", .arr removed_cards)])
      freshId now
  else (db, none)

/-- The success response of `remove_kanban_columns`. -/
def remove_columns_response (db : Json) (undoId : Option String) : Json :=
  .obj [("ok", .bool true),
    ("columns", ((jget db "kanban").bind fun k => jget k "columns").getD (.arr [])),
    ("cards", ((jget db "kanban").bind fun k => jget k "cards").getD (.arr [])),
    ("undoId", undoId.elim .null .str)]

/-- The tail of `remove_kanban_columns`: retain the surviving columns,
optionally record the undo entry, and build the success response. -/
def remove_columns_tail (db2 : Json) (ids : List String) (record_undo : Bool)
    (removed_columns removed_cards : List Json) (freshId now : String) :
    Json × Json :=
  ((record_undo_step (retain_kanban db2 "columns" "id" ids) record_undo
      removed_columns removed_cards freshId now).1,
   remove_columns_response
     (record_undo_step (retain_kanban db2 "columns" "id" ids) record_undo
       removed_columns removed_cards freshId now).1
     (record_undo_step (retain_kanban db2 "columns" "id" ids) record_undo
       removed_columns removed_cards freshId now).2)

/-- `remove_kanban_columns` (main.rs).  `freshId`/`now` feed the optional
undo recording; the reapply path calls it with `record_undo = false`. -/
def remove_kanban_columns (db : Json) (ids : List String) (record_undo : Bool)
    (freshId now : String) : Json × Json :=
  match kanban_list? db "columns" with
  | none => (db, .obj [("ok", .bool false), ("error", .str "Invalid table.")])
  | some columns =>
    match kanban_list? db "cards" with
    | none => (db, .obj [("ok", .bool false), ("error", .str "Invalid table.")])
    | some cards =>
      if (columns.filter fun col =>
            decide (value_ref_string (jget col "id") ∉ ids)).isEmpty ∧
          ¬(cards.filter fun card =>
            decide (value_ref_string (jget card "column_id") ∈ ids)).isEmpty then
        (db, .obj [("ok", .bool false), ("error", .str "last_column"),
          ("message", .str "Please remove candidate cards from the last remaining column before deleting it.")])
      else
        match
          if ¬(columns.filter fun col =>
                decide (value_ref_string (jget col "id") ∉ ids)).isEmpty ∧
              ¬(cards.filter fun card =>
                decide (value_ref_string (jget card "column_id") ∈ ids)).isEmpty then
            (if target_column_id (columns.filter fun col =>
                decide (value_ref_string (jget col "id") ∉ ids)) = "" then some db
             else reassign_step db ids
               (target_column_id (columns.filter fun col =>
                 decide (value_ref_string (jget col "id") ∉ ids))) now)
          else some db
        with
        | none => (db, .obj [("ok", .bool false), ("error", .str "Invalid table.")])
        | some db2 =>
          remove_columns_tail db2 ids record_undo
            (columns.filter fun col =>
              decide (value_ref_string (jget col "id") ∈ ids))
            (cards.filter fun card =>
              decide (value_ref_string (jget card "column_id") ∈ ids))
            freshId now

/-- The id-set debit loop of `reapply_recycle_item` for `kanban_cards`. -/
def reapply_adjustments (adjustments : List Json) (db : Json) : Json :=
  adjustments.foldl (fun db entry =>
    if 0 < (normalize_uniform_payload entry).quantity then
      (decrement_uniform_stock db (normalize_uniform_payload entry)).1
    else db) db

/-- The nonempty keys of a snapshot (the `HashSet` of the reapply paths). -/
def idsFrom (snapshot : List Json) (keyName : String) : List String :=
  (snapshot.map fun e => value_ref_string (jget e keyName)).filter (· ≠ "")

/-- The reapply retain step against a top-level array (`todos`, `uniforms`). -/
def retain_top (db : Json) (key keyName : String) (ids : List String) : Json :=
  match (jget db key).bind Json.asArr with
  | some cur => setTop db key (.arr (cur.filter fun e =>
      decide (value_ref_string (jget e keyName) ∉ ids)))
  | none => db

/-- The `weekly_entries` reapply body: delete each snapshot day again. -/
def reapply_weekly_entries (db : Json) (entries : List Json) : Json :=
  match db with
  | .obj fields => Json.obj (updateObjVal fields "weekly" fun weekly =>
      entries.foldl (fun weekly entry =>
        updateObjVal weekly (value_ref_string (jget entry "week_start"))
          fun week => updateObjVal week "entries" fun days =>
            days.filter fun dp =>
              decide (dp.1 ≠ value_ref_string (jget entry "day")))
        weekly)
  | other => other

/-- `reapply_recycle_item` (main.rs): the redo direction — remove what the
undo restored. -/
def reapply_recycle_item (db : Json) (item : Json) (now : String) : Json × Bool :=
  match value_ref_string (jget item "type") with
  | "kanban_cards" =>
    (reapply_adjustments (snapList item "uniformAdjustments")
      (retain_kanban
        (retain_kanban db "cards" "uuid" (idsFrom (snapList item "cards") "uuid"))
        "candidates" "candidate UUID"
        (idsFrom (snapList item "candidates") "candidate UUID")), true)
  | "kanban_columns" =>
    if (idsFrom (snapList item "columns") "id").isEmpty then (db, false)
    else
      ((remove_kanban_columns db (idsFrom (snapList item "columns") "id")
          false "" now).1,
       isSomeAnd (jget (remove_kanban_columns db
           (idsFrom (snapList item "columns") "id") false "" now).2 "ok") fun v =>
         match v with
         | .bool b => b
         | _ => false)
  | "candidate_rows" =>
    (retain_kanban db "candidates" "candidate UUID"
      (idsFrom (snapList item "candidates") "candidate UUID"), true)
  | "weekly_entries" =>
    (reapply_weekly_entries db (snapList item "entries"), true)
  | "todos" =>
    (retain_top db "todos" "id" (idsFrom (snapList item "todos") "id"), true)
  | "uniform_rows" =>
    (retain_top db "uniforms" "id" (idsFrom (snapList item "uniforms") "id"), true)
  | _ => (db, false)

/-- `db_recycle_undo` (main.rs), at the document level: the returned
document is the durably saved state — on every failure path the original
document is returned unchanged (the Rust function returns before saving). -/
def db_recycle_undo (db : Json) (payloadId : String) (fresh : Nat → String)
    (now : String) (n : Nat) : Json × Json × Nat :=
  if clamp_string payloadId 128 true = "" then
    (db, .obj [("ok", .bool false), ("error", .str "Nothing to undo.")], n)
  else
    match pop_recycle_item db (clamp_string payloadId 128 true) with
    | none => (db, .obj [("ok", .bool false), ("error", .str "Nothing to undo.")], n)
    | some (item, db1) =>
      let r := restore_recycle_item fresh db1 item n
      if r.2.1 = false then
        (db, .obj [("ok", .bool false), ("error", .str "Unable to restore.")], n)
      else
        let p := push_redo_item r.1 item (fresh r.2.2) now
        (p.1, .obj [("ok", .bool true), ("redoId", p.2.elim .null .str)], r.2.2 + 1)

/-- `db_recycle_redo` (main.rs), at the document level. -/
def db_recycle_redo (db : Json) (payloadId : String) (fresh : Nat → String)
    (now : String) (n : Nat) : Json × Json × Nat :=
  if clamp_string payloadId 128 true = "" then
    (db, .obj [("ok", .bool false), ("error", .str "Nothing to redo.")], n)
  else
    match pop_redo_item db (clamp_string payloadId 128 true) with
    | none => (db, .obj [("ok", .bool false), ("error", .str "Nothing to redo.")], n)
    | some (item, db1) =>
      let r := reapply_recycle_item db1 item now
      if r.2 = false then
        (db, .obj [("ok", .bool false), ("error", .str "Unable to redo.")], n)
      else
        let p := push_recycle_item r.1 item (fresh n) now
        (p.1, .obj [("ok", .bool true), ("undoId", p.2.elim .null .str)], n + 1)

/-- The recycle-ledger token ids of a document. -/
def recycleIdsOf (db : Json) : List String :=
  ((recycle_items? db).getD []).map fun i => value_ref_string (jget i "id")

/-- The redo-ledger token ids of a document. -/
def redoIdsOf (db : Json) : List String :=
  ((redo_items? db).getD []).map fun i => value_ref_string (jget i "id")

/-! ### Candidate processing (main.rs `db_kanban_process_candidate`)

`serde_json::from_str::<Vec<Value>>` inside `parse_alteration_list` is
threaded as the parameter `jparse` (a JSON text parser, like the id supply
and clock); `now_string()`/`new_id()` as `now`/`fid`. -/

/-- `SENSITIVE_PII_FIELDS` (main.rs). -/
def SENSITIVE_PII_FIELDS : List String :=
  ["Contact Phone", "Contact Email", "Background Provider",
   "Background Cleared Date", "Background MVR Flag", "License Type",
   "MA CORI Status", "MA CORI Date", "NH GC Status", "NH GC Expiration Date",
   "NH GC ID Number", "ME GC Status", "ME GC Expiration Date", "ID Type",
   "State Abbreviation", "ID Number", "DOB", "EXP", "Other ID Type", "Social",
   "Bank Name", "Account Type", "Routing Number", "Account Number",
   "Emergency Contact Name", "Emergency Contact Relationship",
   "Emergency Contact Phone", "Additional Details", "Additional Notes"]

/-- `SENSITIVE_CARD_FIELDS` (main.rs). -/
def SENSITIVE_CARD_FIELDS : List String := ["icims_id", "employee_id"]

/-- `parse_military_time` (main.rs): keep the ASCII digits, require exactly
four, read HHMM. -/
def parse_military_time (value : String) : Option Int :=
  let digits := value.data.filter Char.isDigit
  if digits.length = 4 then
    match parseDigitsAux (digits.take 2) 0, parseDigitsAux (digits.drop 2) 0 with
    | some h, some m =>
      if h ≤ 23 ∧ m ≤ 59 then some ((h : Int) * 60 + m) else none
    | _, _ => none
  else none

/-- `round_to_quarter_hour` (main.rs): `((m as f64)/15.0).round() * 15`
clamped to `0..=23*60+45`.  For an integer `m` the value `m/15` is never an
exact half (15·(k+½) is not an integer), the `f64` error cannot bridge the
≥ 1/30 gap to a half, and the program only passes minutes in `0..=1439`, so
`⌊(2m+15)/30⌋·15` computes the same result. -/
def round_to_quarter_hour (minutes : Int) : Int :=
  max 0 (min (((2 * minutes + 15) / 30) * 15) (23 * 60 + 45))

/-- Two-digit zero padding of `"{:02}"`. -/
def pad2 (n : Int) : String :=
  if 0 ≤ n ∧ n < 10 then "0" ++ toString n else toString n

/-- `format_military_time` (main.rs). -/
def format_military_time (minutes : Int) : String :=
  pad2 (minutes.ediv 60) ++ ":" ++ pad2 (minutes.emod 60)

/-- `format_total_hours` (main.rs): `"{:.2}"` of `m/60.0`.  For the
nonnegative minute totals the program produces, rounding `5m/3` hundredths
to the nearest integer (an exact half never occurs: 10m = 6k+3 has no
solution) matches the `f64` formatting. -/
def format_total_hours (minutes : Int) : String :=
  toString ((10 * minutes + 3) / 6 / 100) ++ "." ++ pad2 ((10 * minutes + 3) / 6 % 100)

/-- `job_id_name` (main.rs). -/
def job_id_name (job_id job_name : String) : String :=
  String.intercalate " " (([trimStr job_id, trimStr job_name]).filter (· ≠ ""))

/-- `str::split(',')` over the character list. -/
def splitOnComma : List Char → List (List Char)
  | [] => [[]]
  | c :: rest =>
    if c = ',' then [] :: splitOnComma rest
    else
      match splitOnComma rest with
      | [] => [[c]]
      | g :: gs => (c :: g) :: gs

/-- The `HashSet`-based first-occurrence dedup (by lowercase) closing
`parse_alteration_list`. -/
def dedup_lower : List String → List String → List String
  | [], _ => []
  | x :: rest, seen =>
    if lowerStr x ∈ seen then dedup_lower rest seen
    else x :: dedup_lower rest (lowerStr x :: seen)

/-- `parse_alteration_list` (main.rs); `jparse` stands in for
`serde_json::from_str::<Vec<Value>>` (`none` = parse error). -/
def parse_alteration_list (jparse : String → Option (List Json))
    (value : String) : List String :=
  let text := trimStr value
  if text = "" then []
  else
    dedup_lower
      (if text.data.head? = some '[' ∧ text.data.getLast? = some ']' then
        match jparse text with
        | some parsed =>
          (parsed.map fun item =>
            clamp_string (value_ref_string (some item)) 80 true).filter (· ≠ "")
        | none => []
      else
        ((splitOnComma text.data).map fun part =>
          clamp_string (String.mk part) 80 true).filter (· ≠ ""))
      []

/-- `default_candidate_row` (main.rs). -/
def default_candidate_row : List (String × Json) :=
  CANDIDATE_FIELDS.foldl (fun o field => setVal o field (.str "")) []

/-- The `if !row_obj.contains_key(field) { insert "" }` loop of
`ensure_candidate_row`. -/
def fill_candidate_fields (row_obj : List (String × Json)) :
    List (String × Json) :=
  CANDIDATE_FIELDS.foldl (fun o field =>
    if (getVal o field).isSome then o else setVal o field (.str "")) row_obj

/-- `ensure_candidate_row` (main.rs): the updated document and the index of
the ensured row (`none` models the `Err` paths of the kanban accessors). -/
def ensure_candidate_row (db : Json) (cid : String) : Option (Json × Nat) :=
  match kanban_list? db "cards" with
  | none => none
  | some cards =>
    match kanban_list? db "candidates" with
    | none => none
    | some candidates =>
      match candidates.findIdx? (fun row =>
          value_ref_string (jget row "candidate UUID") == cid) with
      | some idx =>
        some (set_kanban_list db "candidates" (candidates.set idx
          (match candidates.getD idx Json.null with
           | .obj row_obj =>
             Json.obj (setVal (fill_candidate_fields row_obj)
               "candidate UUID" (.str cid))
           | other => other)), idx)
      | none =>
        some (set_kanban_list db "candidates" (candidates ++
          [Json.obj (match cards.find? fun c =>
              value_ref_string (jget c "uuid") == cid with
            | some c => setVal (setVal
                (setVal default_candidate_row "candidate UUID" (.str cid))
                "Candidate Name"
                (.str (value_ref_string (jget c "candidate_name"))))
                "REQ ID" (.str (value_ref_string (jget c "req_id")))
            | none => setVal default_candidate_row "candidate UUID"
                (.str cid))]),
          candidates.length)

/-- The card `branch`/`updated_at` stamp of `db_kanban_process_candidate`. -/
def stamp_card (card : Json) (branch now : String) : Json :=
  match card with
  | .obj o => .obj (setVal (setVal o "branch" (.str branch)) "updated_at"
      (.str now))
  | other => other

/-- The `SENSITIVE_CARD_FIELDS` blanking. -/
def scrub_card (card : Json) : Json :=
  match card with
  | .obj o => .obj (SENSITIVE_CARD_FIELDS.foldl
      (fun o field => setVal o field (.str "")) o)
  | other => other

/-- The `SENSITIVE_PII_FIELDS` blanking loop. -/
def scrub_pii (row : List (String × Json)) : List (String × Json) :=
  SENSITIVE_PII_FIELDS.foldl (fun o field => setVal o field (.str "")) row

/-- The selected branch: the payload's clamped branch, else the card's. -/
def selected_branch_of (cards : List Json) (card_index : Nat)
    (braw : String) : String :=
  if clamp_string braw 40 true = "" then
    value_ref_string (jget (cards.getD card_index Json.null) "branch")
  else clamp_string braw 40 true

/-- The row inserts of the processing block (card identity fields,
branch, NEO times and total). -/
def row_stamp (row : List (String × Json)) (pre_card : Json)
    (selected_branch arrival_text departure_text total_hours : String) :
    List (String × Json) :=
  setVal (setVal (setVal (setVal
    (match pre_card with
     | .obj card =>
       setVal (setVal (setVal (setVal (setVal (setVal (setVal row
         "Candidate Name" (.str (value_ref_string (getVal card "candidate_name"))))
         "ICIMS ID" (.str (value_ref_string (getVal card "icims_id"))))
         "Employee ID" (.str (value_ref_string (getVal card "employee_id"))))
         "REQ ID" (.str (value_ref_string (getVal card "req_id"))))
         "Job ID Name" (.str (job_id_name
           (value_ref_string (getVal card "job_id"))
           (value_ref_string (getVal card "job_name")))))
         "Job Location" (.str (value_ref_string (getVal card "job_location"))))
         "Manager" (.str (value_ref_string (getVal card "manager")))
     | _ => row)
    "Branch" (.str selected_branch))
    "Neo Arrival Time" (.str arrival_text))
    "Neo Departure Time" (.str departure_text))
    "Total Neo Hours" (.str total_hours)

/-- `if a.is_empty() { b } else { a }`. -/
def orElse_str (a b : String) : String := if a = "" then b else a

/-- The shirt deduction plan (size, quantity, alteration list). -/
def shirt_plan_of (row : List (String × Json))
    (jparse : String → Option (List Json)) :
    Option (String × Int × List String) :=
  let shirt_size := orElse_str
    (clamp_string (value_ref_string (getVal row "Issued Shirt Size")) 40 true)
    (clamp_string (value_ref_string (getVal row "Shirt Size")) 40 true)
  let shirts_given := parse_issued_uniform_quantity (orElse_str
    (value_ref_string (getVal row "Issued Shirts Given"))
    (value_ref_string (getVal row "Shirts Given")))
  let shirt_type_text := orElse_str
    (value_ref_string (getVal row "Issued Shirt Type"))
    (value_ref_string (getVal row "Shirt Type"))
  if shirt_size ≠ "" ∧ 0 < shirts_given then
    some (shirt_size, shirts_given, parse_alteration_list jparse shirt_type_text)
  else none

/-- The pants deduction plan (size, quantity, alteration). -/
def pants_plan_of (row : List (String × Json)) :
    Option (String × Int × String) :=
  let waist := orElse_str
    (clamp_string (value_ref_string (getVal row "Issued Waist")) 2 true)
    (clamp_string (value_ref_string (getVal row "Waist")) 2 true)
  let inseam := orElse_str
    (clamp_string (value_ref_string (getVal row "Issued Inseam")) 2 true)
    (clamp_string (value_ref_string (getVal row "Inseam")) 2 true)
  let pants_size0 := orElse_str
    (clamp_string (value_ref_string (getVal row "Issued Pants Size")) 40 true)
    (clamp_string (value_ref_string (getVal row "Pants Size")) 40 true)
  let pants_size := if pants_size0 = "" ∧ waist ≠ "" ∧ inseam ≠ "" then
      waist ++ "x" ++ inseam else pants_size0
  let pants_given := parse_issued_uniform_quantity (orElse_str
    (value_ref_string (getVal row "Issued Pants Given"))
    (value_ref_string (getVal row "Pants Given")))
  let pants_alteration := clamp_string (orElse_str
    (value_ref_string (getVal row "Issued Pants Type"))
    (value_ref_string (getVal row "Pants Type"))) 80 true
  if pants_size ≠ "" ∧ 0 < pants_given then
    some (pants_size, pants_given, pants_alteration)
  else none

/-- The tail of `db_kanban_process_candidate`: blank the card's sensitive
fields, drop the card, record the undo snapshot and build the response. -/
def process_finish (db6 : Json) (card_index : Nat) (cid : String)
    (pre_card pre_row : Json) (adjustments : List Json) (fid now : String) :
    Option (Json × Json) :=
  match kanban_list? db6 "cards" with
  | none => none
  | some cs2 =>
    match kanban_list? (set_kanban_list db6 "cards"
        (cs2.set card_index (scrub_card (cs2.getD card_index Json.null))))
        "cards" with
    | none => none
    | some cs3 =>
      let db8 := set_kanban_list (set_kanban_list db6 "cards"
        (cs2.set card_index (scrub_card (cs2.getD card_index Json.null))))
        "cards" (cs3.filter fun card =>
          decide (value_ref_string (jget card "uuid") ≠ cid))
      let pushed := push_recycle_item db8 (.obj [("type", .str "kanban_cards"),
        ("cards", .arr [pre_card]), ("candidates", .arr [pre_row]),
        ("uniformAdjustments", .arr adjustments)]) fid now
      some (pushed.1, .obj [("ok", .bool true),
        ("cards", ((jget pushed.1 "kanban").bind fun k =>
          jget k "cards").getD (.arr [])),
        ("undoId", pushed.2.elim .null .str)])

/-- The shirt deduction dispatch. -/
def plan_deduct_shirt (db4 : Json) (branch : String)
    (plan : Option (String × Int × List String)) : Json × List Json :=
  match plan with
  | some (size, qty, alts) =>
    deduct_uniforms_across_alterations db4 "Shirt" size qty branch alts
  | none => (db4, [])

/-- The pants deduction dispatch. -/
def plan_deduct_pants (db5 : Json) (branch : String)
    (plan : Option (String × Int × String)) : Json × List Json :=
  match plan with
  | some (size, qty, alt) =>
    deduct_uniforms_across_alterations db5 "Pants" size qty branch [alt]
  | none => (db5, [])

/-- The stamped row of the processing block. -/
def stamped_row (row_obj : List (String × Json)) (pre_card : Json)
    (branch : String) (am dm : Int) : List (String × Json) :=
  row_stamp row_obj pre_card branch
    (format_military_time am) (format_military_time dm)
    (format_total_hours (if dm - am < 0 then dm - am + 24 * 60 else dm - am))

/-- `row_obj.get("Uniforms Issued").eq_ignore_ascii_case("yes")`. -/
def uniforms_issued_of (row : List (String × Json)) : Prop :=
  lowerStr (value_ref_string (getVal row "Uniforms Issued")) = "yes"

instance (row : List (String × Json)) : Decidable (uniforms_issued_of row) :=
  inferInstanceAs (Decidable (_ = _))

/-- The object-row branch of the processing block. -/
def process_with_row (cards : List Json) (card_index idx2 : Nat)
    (cid branch : String) (am dm : Int) (now fid : String)
    (jparse : String → Option (List Json)) (pre_row db3 : Json)
    (rows3 : List Json) (row_obj : List (String × Json)) :
    Option (Json × Json) :=
  let s := plan_deduct_shirt
    (set_kanban_list db3 "candidates" (rows3.set idx2
      (Json.obj (scrub_pii (stamped_row row_obj (cards.getD card_index (.obj []))
        branch am dm)))))
    branch
    (if uniforms_issued_of (stamped_row row_obj (cards.getD card_index (.obj []))
        branch am dm) then
      shirt_plan_of (stamped_row row_obj (cards.getD card_index (.obj []))
        branch am dm) jparse
    else none)
  let p := plan_deduct_pants s.1 branch
    (if uniforms_issued_of (stamped_row row_obj (cards.getD card_index (.obj []))
        branch am dm) then
      pants_plan_of (stamped_row row_obj (cards.getD card_index (.obj []))
        branch am dm)
    else none)
  process_finish p.1 card_index cid (cards.getD card_index (.obj [])) pre_row
    (s.2 ++ p.2) fid now

/-- The core of `db_kanban_process_candidate` after validation: snapshot,
stamp, plan, scrub, deduct, finish. -/
def process_core (db1 : Json) (cards : List Json) (card_index idx : Nat)
    (cid branch : String) (am dm : Int) (now fid : String)
    (jparse : String → Option (List Json)) : Option (Json × Json) :=
  match kanban_list? db1 "candidates" with
  | none => none
  | some rows1 =>
    match kanban_list? db1 "cards" with
    | none => none
    | some cs1 =>
      match ensure_candidate_row (set_kanban_list db1 "cards"
          (cs1.set card_index (stamp_card (cs1.getD card_index Json.null)
            branch now))) cid with
      | none => none
      | some (db3, idx2) =>
        match kanban_list? db3 "candidates" with
        | none => none
        | some rows3 =>
          match rows3.getD idx2 Json.null with
          | .obj row_obj =>
            process_with_row cards card_index idx2 cid branch am dm now fid
              jparse (rows1.getD idx Json.null) db3 rows3 row_obj
          | _ =>
            process_finish db3 card_index cid (cards.getD card_index (.obj []))
              (rows1.getD idx Json.null) [] fid now

/-- `db_kanban_process_candidate` (main.rs), at the document level (`none`
models the command's `Err` paths, which save nothing; the error responses
return the original document, also unsaved). -/
def db_kanban_process_candidate (db : Json) (cid_raw braw arr dep : String)
    (now fid : String) (jparse : String → Option (List Json)) :
    Option (Json × Json) :=
  if clamp_string cid_raw 128 true = "" then
    some (db, .obj [("ok", .bool false), ("message", .str "Missing candidate.")])
  else
    match kanban_list? db "cards" with
    | none => none
    | some cards =>
      match cards.findIdx? (fun card =>
          value_ref_string (jget card "uuid") == clamp_string cid_raw 128 true) with
      | none => some (db, .obj [("ok", .bool false),
          ("message", .str "Candidate not found.")])
      | some card_index =>
        if selected_branch_of cards card_index braw = "" then
          some (db, .obj [("ok", .bool false),
            ("message", .str "Branch is required.")])
        else
          match (parse_military_time arr).map round_to_quarter_hour,
              (parse_military_time dep).map round_to_quarter_hour with
          | none, _ => some (db, .obj [("ok", .bool false),
              ("message", .str "Invalid time format. Use 4-digit 24H time.")])
          | some _, none => some (db, .obj [("ok", .bool false),
              ("message", .str "Invalid time format. Use 4-digit 24H time.")])
          | some arrival_minutes, some departure_minutes =>
            match ensure_candidate_row db (clamp_string cid_raw 128 true) with
            | none => none
            | some (db1, idx) =>
              process_core db1 cards card_index idx
                (clamp_string cid_raw 128 true)
                (selected_branch_of cards card_index braw)
                arrival_minutes departure_minutes now fid jparse

/-- A concrete board card for the processing scenario. -/
def c10_card : Json := .obj [("uuid", .str "cand1"), ("column_id", .str "c1"),
  ("order", .num 1), ("branch", .str "North"),
  ("candidate_name", .str "Pat Doe"), ("icims_id", .str "IC9"),
  ("employee_id", .str "E7"), ("req_id", .str "R1"), ("job_id", .str "J1"),
  ("job_name", .str "Cook"), ("job_location", .str "HQ"),
  ("manager", .str "Mgr")]

/-- A concrete candidate row holding PII. -/
def c10_row : Json := .obj [("candidate UUID", .str "cand1"),
  ("Contact Phone", .str "555-0100"), ("Social", .str "123-45-6789"),
  ("Uniforms Issued", .str "No")]

/-- A concrete document for the processing scenario. -/
def c10_db : Json := .obj [
  ("kanban", .obj [("columns", .arr []), ("cards", .arr [c10_card]),
    ("candidates", .arr [c10_row])]),
  ("uniforms", .arr []),
  ("recycle", .obj [("items", .arr []), ("redo", .arr [])])]

/-- `c10_db` after the first `ensure_candidate_row`. -/
def c10_db1 : Json :=
  match ensure_candidate_row c10_db "cand1" with
  | some p => p.1
  | none => Json.null

/-- The candidate rows of `c10_db1`. -/
def c10_rows1 : List Json :=
  match kanban_list? c10_db1 "candidates" with
  | some r => r
  | none => []

/-- `c10_db1` after the card stamp and the second `ensure_candidate_row`. -/
def c10_db3 : Json :=
  match ensure_candidate_row (set_kanban_list c10_db1 "cards"
      (([c10_card]).set 0 (stamp_card (([c10_card]).getD 0 Json.null)
        (selected_branch_of [c10_card] 0 "") "NOW"))) "cand1" with
  | some p => p.1
  | none => Json.null

/-! ### Crypto layer (main.rs `encrypt_text`/`decrypt_envelope`,
`load_cached_db_crypto`, `save_db_value`)

The cryptographic primitives (PBKDF2, AES-256-GCM, base64, UTF-8) are
abstracted as a bundle `CryptoPrims` of pure functions; `GoodCrypto` states
the algebraic facts the program relies on (encode/decode and seal/open
round trips, the AEAD's 16-byte tag overhead, UTF-8 round trip and
emptiness).  `OsRng` salt/iv draws are threaded as parameters. -/

/-- `DEFAULT_PBKDF2_ITERATIONS` (main.rs). -/
def DEFAULT_PBKDF2_ITERATIONS : Nat := 200000

/-- `CryptoEnvelope` (main.rs). -/
structure CryptoEnvelope where
  v : Int
  salt : String
  iv : String
  tag : String
  data : String
deriving Repr

/-- The pure primitives the crypto code composes.  Bytes are `List Nat`. -/
structure CryptoPrims where
  deriveKey : String → List Nat → Nat → List Nat
  aeadEncrypt : List Nat → List Nat → List Nat → List Nat
  aeadDecrypt : List Nat → List Nat → List Nat → Option (List Nat)
  encodeB64 : List Nat → String
  decodeB64 : String → Option (List Nat)
  utf8Encode : String → List Nat
  utf8Decode : List Nat → Option String

/-- The facts about the primitives that the round-trip argument uses. -/
def GoodCrypto (P : CryptoPrims) : Prop :=
  (∀ bs, P.decodeB64 (P.encodeB64 bs) = some bs) ∧
  (∀ key iv m, P.aeadDecrypt key iv (P.aeadEncrypt key iv m) = some m) ∧
  (∀ key iv m, (P.aeadEncrypt key iv m).length = m.length + 16) ∧
  (∀ s, P.utf8Decode (P.utf8Encode s) = some s) ∧
  (∀ s, P.utf8Encode s = [] ↔ s = "")

/-- `encrypt_text_with_key` (main.rs); the random iv is a parameter, `none`
models the `Err` path. -/
def encrypt_text_with_key (P : CryptoPrims) (text : String)
    (salt iv key : List Nat) : Option CryptoEnvelope :=
  if (P.aeadEncrypt key iv (P.utf8Encode text)).length < 16 then none
  else some
    { v := 1
      salt := P.encodeB64 salt
      iv := P.encodeB64 iv
      tag := P.encodeB64 ((P.aeadEncrypt key iv (P.utf8Encode text)).drop
        ((P.aeadEncrypt key iv (P.utf8Encode text)).length - 16))
      data := P.encodeB64 ((P.aeadEncrypt key iv (P.utf8Encode text)).take
        ((P.aeadEncrypt key iv (P.utf8Encode text)).length - 16)) }

/-- `encrypt_text` (main.rs); the random salt and iv are parameters. -/
def encrypt_text (P : CryptoPrims) (text password : String)
    (salt iv : List Nat) : Option CryptoEnvelope :=
  encrypt_text_with_key P text salt iv
    (P.deriveKey password salt DEFAULT_PBKDF2_ITERATIONS)

/-- `decrypt_envelope_with_key` (main.rs): `none` covers every `Ok(None)`
path (bad base64, wrong iv length, empty tag or data, AEAD failure, bad
UTF-8); the `Err` path cannot occur for a 32-byte key. -/
def decrypt_envelope_with_key (P : CryptoPrims) (payload : CryptoEnvelope)
    (key : List Nat) : Option String :=
  match P.decodeB64 payload.iv, P.decodeB64 payload.tag,
      P.decodeB64 payload.data with
  | some iv, some tag, some data =>
    if iv.length ≠ 12 ∨ tag = [] ∨ data = [] then none
    else
      match P.aeadDecrypt key iv (data ++ tag) with
      | some decrypted => P.utf8Decode decrypted
      | none => none
  | _, _, _ => none

/-- `decrypt_envelope` (main.rs). -/
def decrypt_envelope (P : CryptoPrims) (payload : CryptoEnvelope)
    (password : String) : Option String :=
  match P.decodeB64 payload.salt with
  | some salt => decrypt_envelope_with_key P payload
      (P.deriveKey password salt DEFAULT_PBKDF2_ITERATIONS)
  | none => none

/-- `DbCacheState` (main.rs); `key` holds the hash of the password the
cached entries belong to. -/
structure DbCacheState where
  key : Option String
  value : Option Json
  db_salt : Option (List Nat)
  db_key : Option (List Nat)

/-- `load_cached_db_crypto` (main.rs); `hash` stands for `db_cache_key`
(SHA-256 + base64 of the password). -/
def load_cached_db_crypto (hash : String → String) (st : DbCacheState)
    (password : String) : Option (List Nat × List Nat) :=
  if st.key = some (hash password) then
    match st.db_salt, st.db_key with
    | some salt, some key => some (salt, key)
    | _, _ => none
  else none

/-- The `(salt, key)` selection of `save_db_value` (main.rs).  `file_env`
models the existing file: `none` = no file, `some none` = unreadable or
unparsable, `some (some env)` = parsed envelope; `fresh_salt` is the
`OsRng` draw. -/
def save_salt_key (P : CryptoPrims) (hash : String → String)
    (st : DbCacheState) (password : String)
    (file_env : Option (Option CryptoEnvelope)) (fresh_salt : List Nat) :
    List Nat × List Nat :=
  match load_cached_db_crypto hash st password with
  | some pair => pair
  | none =>
    match file_env with
    | some fe =>
      match
        (match fe with
         | some env =>
           match P.decodeB64 env.salt with
           | some salt =>
             if ¬salt.isEmpty then
               some (salt, P.deriveKey password salt DEFAULT_PBKDF2_ITERATIONS)
             else none
           | none => none
         | none => none) with
      | some pair => pair
      | none => (fresh_salt,
          P.deriveKey password fresh_salt DEFAULT_PBKDF2_ITERATIONS)
    | none => (fresh_salt,
        P.deriveKey password fresh_salt DEFAULT_PBKDF2_ITERATIONS)

/-- `save_db_value` (main.rs), at the state level: the written envelope and
the updated cache (`ser` stands for `serde_json::to_string`; `none` models
the `Err` paths). -/
def save_db_value (P : CryptoPrims) (hash : String → String)
    (ser : Json → String) (st : DbCacheState) (password : String)
    (value : Json) (file_env : Option (Option CryptoEnvelope))
    (fresh_salt iv : List Nat) : Option (CryptoEnvelope × DbCacheState) :=
  match encrypt_text_with_key P (ser (ensure_db_shape_value value))
      (save_salt_key P hash st password file_env fresh_salt).1 iv
      (save_salt_key P hash st password file_env fresh_salt).2 with
  | none => none
  | some env => some (env,
      { key := some (hash password)
        value := some (ensure_db_shape_value value)
        db_salt := some (save_salt_key P hash st password file_env fresh_salt).1
        db_key := some (save_salt_key P hash st password file_env fresh_salt).2 })

/-- The key choice of `load_db_value` (main.rs) once the file's salt is
decoded: the cached key is used only when the cached salt equals the file's
salt exactly. -/
def load_key_choice (P : CryptoPrims) (hash : String → String)
    (st : DbCacheState) (password : String) (salt : List Nat) : List Nat :=
  match load_cached_db_crypto hash st password with
  | some pair =>
    if pair.1 = salt then pair.2
    else P.deriveKey password salt DEFAULT_PBKDF2_ITERATIONS
  | none => P.deriveKey password salt DEFAULT_PBKDF2_ITERATIONS

/-! A concrete instance of the primitives for the witnesses: each byte is
encoded as `a` followed by that many `b`s (a total, provably invertible
encoding), the AEAD appends a 16-byte tag of zeros, UTF-8 is the
codepoint map. -/

/-- Toy byte-list encoding: `b ↦ "a" ++ "b"*b`, concatenated. -/
def encodeToy (bs : List Nat) : String :=
  String.mk (bs.flatMap fun b => 'a' :: List.replicate b 'b')

/-- Fueled inverse of `encodeToy` (the fuel is an upper bound on the number
of groups; structural recursion keeps it kernel-reducible). -/
def decodeToyAux : Nat → List Char → Option (List Nat)
  | _, [] => some []
  | 0, _ :: _ => none
  | fuel + 1, c :: rest =>
    if c = 'a' then
      (decodeToyAux fuel (rest.dropWhile (· = 'b'))).map
        ((rest.takeWhile (· = 'b')).length :: ·)
    else none

/-- Toy decoding. -/
def decodeToy (s : String) : Option (List Nat) :=
  decodeToyAux s.data.length s.data

/-- The toy primitive bundle. -/
def toyCrypto : CryptoPrims where
  deriveKey := fun password salt _ => password.length :: salt
  aeadEncrypt := fun _ _ m => m ++ List.replicate 16 0
  aeadDecrypt := fun _ _ c =>
    if 16 ≤ c.length then some (c.take (c.length - 16)) else none
  encodeB64 := encodeToy
  decodeB64 := decodeToy
  utf8Encode := fun s => s.data.map Char.toNat
  utf8Decode := fun bs => some (String.mk (bs.map Char.ofNat))

/-- Cache state for the salt-reuse scenario: a cached pair under the
password hash, salt `[1]`. -/
def c8_state : DbCacheState :=
  { key := some "pw", value := none, db_salt := some [1], db_key := some [7] }

/-- An existing file envelope whose salt decodes to `[2]` — different from
the cached salt. -/
def c8_env : CryptoEnvelope :=
  { v := 1, salt := encodeToy [2], iv := "", tag := "", data := "" }

/-- The identity password hash used by the concrete cache scenarios. -/
def toyHash : String → String := fun s => s

/-! Concrete documents exercising the undo/redo ledger. -/

/-- A recycle entry: a deleted todo behind token `tok1`. -/
def c6item : Json := .obj [("id", .str "tok1"), ("type", .str "todos"),
  ("todos", .arr [.obj [("id", .str "t9")]])]

/-- A document whose recycle ledger holds `c6item`. -/
def c6db : Json := .obj [
  ("todos", .arr [.obj [("id", .str "t1")]]),
  ("recycle", .obj [("items", .arr [c6item]), ("redo", .arr [])])]

/-- `c6db` with the ledger entry popped. -/
def c6db1 : Json := .obj [
  ("todos", .arr [.obj [("id", .str "t1")]]),
  ("recycle", .obj [("items", .arr []), ("redo", .arr [])])]

/-- A redo entry: a restored todo behind token `tok2`. -/
def c6item2 : Json := .obj [("id", .str "tok2"), ("type", .str "todos"),
  ("todos", .arr [.obj [("id", .str "t9")]])]

/-- A document whose redo ledger holds `c6item2`. -/
def c6rdb : Json := .obj [
  ("todos", .arr [.obj [("id", .str "t9")]]),
  ("recycle", .obj [("items", .arr []), ("redo", .arr [c6item2])])]

/-- `c6rdb` with the redo entry popped. -/
def c6rdb1 : Json := .obj [
  ("todos", .arr [.obj [("id", .str "t9")]]),
  ("recycle", .obj [("items", .arr []), ("redo", .arr [])])]

/-- A recycle entry whose todo snapshot key already exists in `c7db`. -/
def c7item : Json := .obj [("id", .str "tokA"), ("type", .str "todos"),
  ("todos", .arr [.obj [("id", .str "t1"), ("title", .str "stale copy")]])]

/-- A document already holding todo `t1`. -/
def c7db : Json := .obj [
  ("todos", .arr [.obj [("id", .str "t1"), ("title", .str "live copy")]]),
  ("recycle", .obj [("items", .arr []), ("redo", .arr [])])]

/-- A weekly snapshot entry whose (week, day) already exists in `c7wdb`. -/
def c7witem : Json := .obj [("id", .str "tokB"), ("type", .str "weekly_entries"),
  ("entries", .arr [.obj [("week_start", .str "2024-01-01"),
    ("week_end", .str "2024-01-07"), ("day", .str "Monday"),
    ("payload", .str "overwritten")]])]

/-- A document already holding a Monday payload for week 2024-01-01. -/
def c7wdb : Json := .obj [
  ("weekly", .obj [("2024-01-01", .obj [("week_start", .str "2024-01-01"),
    ("week_end", .str "2024-01-07"),
    ("entries", .obj [("Monday", .str "original")])])])]

/-! ### Association-list lemmas -/

theorem getVal_setVal_self (l : List (String × Json)) (key : String) (v : Json) :
    getVal (setVal l key v) key = some v := by
  induction l with
  | nil => simp [setVal, getVal]
  | cons head rest ih =>
    obtain ⟨k, w⟩ := head
    by_cases h : k = key
    · simp [setVal, getVal, h]
    · simp [setVal, getVal, h, ih]

theorem getVal_setVal_ne (l : List (String × Json)) (key other : String) (v : Json)
    (h : other ≠ key) : getVal (setVal l key v) other = getVal l other := by
  have hko : key ≠ other := fun hk => h hk.symm
  induction l with
  | nil => simp [setVal, getVal, hko]
  | cons head rest ih =>
    obtain ⟨k, w⟩ := head
    by_cases hk : k = key
    · subst hk
      simp [setVal, getVal, hko]
    · simp only [setVal, if_neg hk, getVal]
      by_cases hkother : k = other
      · simp [hkother]
      · simp [hkother, ih]

theorem getVal_ensureStep_ne (l : List (String × Json)) (key other : String)
    (p : Json → Bool) (v : Json) (h : other ≠ key) :
    getVal (ensureStep l key p v) other = getVal l other := by
  unfold ensureStep
  by_cases hc : isSomeAnd (getVal l key) p
  · simp [hc]
  · simp [hc, getVal_setVal_ne _ _ _ _ h]

theorem ensureStep_holds (l : List (String × Json)) (key : String)
    (p : Json → Bool) (v : Json) (hv : p v = true) :
    isSomeAnd (getVal (ensureStep l key p v) key) p = true := by
  unfold ensureStep
  by_cases hc : isSomeAnd (getVal l key) p = true
  · rw [if_pos hc]; exact hc
  · rw [if_neg hc, getVal_setVal_self]; exact hv

theorem ensureStep_id (l : List (String × Json)) (key : String)
    (p : Json → Bool) (v : Json) (h : isSomeAnd (getVal l key) p = true) :
    ensureStep l key p v = l := by
  simp [ensureStep, h]

theorem getVal_updateObjVal_ne (l : List (String × Json)) (key other : String)
    (f : List (String × Json) → List (String × Json)) (h : other ≠ key) :
    getVal (updateObjVal l key f) other = getVal l other := by
  induction l with
  | nil => simp [updateObjVal]
  | cons head rest ih =>
    obtain ⟨k, w⟩ := head
    by_cases hk : k = key
    · subst hk
      have hko : k ≠ other := fun hko => h hko.symm
      cases w <;> simp [updateObjVal, getVal, hko]
    · simp only [updateObjVal, if_neg hk, getVal]
      by_cases hko : k = other
      · simp [hko]
      · simp [hko, ih]

theorem getVal_updateObjVal_obj (l : List (String × Json)) (key : String)
    (f : List (String × Json) → List (String × Json)) (inner : List (String × Json))
    (h : getVal l key = some (.obj inner)) :
    getVal (updateObjVal l key f) key = some (.obj (f inner)) := by
  induction l with
  | nil => simp [getVal] at h
  | cons head rest ih =>
    obtain ⟨k, w⟩ := head
    by_cases hk : k = key
    · subst hk
      simp only [getVal, if_pos rfl] at h
      cases h
      simp [updateObjVal, getVal]
    · simp only [getVal, if_neg hk] at h
      simp [updateObjVal, hk, getVal, ih h]

theorem updateObjVal_id (l : List (String × Json)) (key : String)
    (f : List (String × Json) → List (String × Json))
    (h : ∀ inner, getVal l key = some (.obj inner) → f inner = inner) :
    updateObjVal l key f = l := by
  induction l with
  | nil => simp [updateObjVal]
  | cons head rest ih =>
    obtain ⟨k, w⟩ := head
    by_cases hk : k = key
    · subst hk
      cases w with
      | obj inner =>
        have := h inner (by simp [getVal])
        simp [updateObjVal, this]
      | null => simp [updateObjVal]
      | bool b => simp [updateObjVal]
      | num n => simp [updateObjVal]
      | str s => simp [updateObjVal]
      | arr xs => simp [updateObjVal]
    · simp only [updateObjVal, if_neg hk]
      rw [ih]
      intro inner hinner
      exact h inner (by simp [getVal, hk, hinner])

/-! ### C4 – normalization idempotence -/

theorem good_kanban_ensure (ks : List (String × Json)) :
    good_kanban (ensure_kanban_fields ks) = true := by
  unfold ensure_kanban_fields good_kanban
  refine (Bool.and_eq_true _ _).mpr ⟨(Bool.and_eq_true _ _).mpr ⟨?_, ?_⟩, ?_⟩
  · rw [getVal_ensureStep_ne _ _ _ _ _ (by decide),
      getVal_ensureStep_ne _ _ _ _ _ (by decide)]
    exact ensureStep_holds _ _ _ _ rfl
  · rw [getVal_ensureStep_ne _ _ _ _ _ (by decide)]
    exact ensureStep_holds _ _ _ _ rfl
  · exact ensureStep_holds _ _ _ _ rfl

theorem good_recycle_ensure (rs : List (String × Json)) :
    good_recycle (ensure_recycle_fields rs) = true := by
  unfold ensure_recycle_fields good_recycle
  refine (Bool.and_eq_true _ _).mpr ⟨?_, ?_⟩
  · rw [getVal_ensureStep_ne _ _ _ _ _ (by decide)]
    exact ensureStep_holds _ _ _ _ rfl
  · exact ensureStep_holds _ _ _ _ rfl

theorem ensure_kanban_id (ks : List (String × Json)) (h : good_kanban ks = true) :
    ensure_kanban_fields ks = ks := by
  unfold good_kanban at h
  simp only [Bool.and_eq_true] at h
  obtain ⟨⟨h1, h2⟩, h3⟩ := h
  unfold ensure_kanban_fields
  rw [ensureStep_id _ _ _ _ h1, ensureStep_id _ _ _ _ h2, ensureStep_id _ _ _ _ h3]

theorem ensure_recycle_id (rs : List (String × Json)) (h : good_recycle rs = true) :
    ensure_recycle_fields rs = rs := by
  unfold good_recycle at h
  simp only [Bool.and_eq_true] at h
  obtain ⟨h1, h2⟩ := h
  unfold ensure_recycle_fields
  rw [ensureStep_id _ _ _ _ h1, ensureStep_id _ _ _ _ h2]

theorem objCheck_eq_true {o : Option Json} {p : List (String × Json) → Bool}
    (h : objCheck o p = true) :
    ∃ inner, o = some (.obj inner) ∧ p inner = true := by
  cases o with
  | none => exact absurd h (by simp [objCheck])
  | some v =>
    cases v with
    | obj inner => exact ⟨inner, rfl, h⟩
    | null => exact absurd h (by simp [objCheck])
    | bool b => exact absurd h (by simp [objCheck])
    | num n => exact absurd h (by simp [objCheck])
    | str s => exact absurd h (by simp [objCheck])
    | arr xs => exact absurd h (by simp [objCheck])

theorem good_shape_obj (fs : List (String × Json))
    (hversion : isSomeAnd (getVal fs "version") Json.isNum = true)
    (hkanban : ∃ ks, getVal fs "kanban" = some (.obj ks) ∧ good_kanban ks = true)
    (huniforms : isSomeAnd (getVal fs "uniforms") Json.isArr = true)
    (hweekly : isSomeAnd (getVal fs "weekly") Json.isObj = true)
    (htodos : isSomeAnd (getVal fs "todos") Json.isArr = true)
    (hrecycle : ∃ rs, getVal fs "recycle" = some (.obj rs) ∧ good_recycle rs = true) :
    good_shape (Json.obj fs) = true := by
  obtain ⟨ks, hks, hgks⟩ := hkanban
  obtain ⟨rs, hrs, hgrs⟩ := hrecycle
  show good_fields fs = true
  unfold good_fields
  rw [hversion, hks, hrs, huniforms, hweekly, htodos]
  simp [objCheck, hgks, hgrs]

theorem good_shape_ensure (value : Json) :
    good_shape (ensure_db_shape_value value) = true := by
  have hdefault : good_shape default_db_value = true := by decide
  cases value with
  | obj fields =>
    show good_shape (Json.obj (ensure_db_fields fields)) = true
    unfold ensure_db_fields
    set f1 := ensureStep fields "version" Json.isNum (.num DB_VERSION) with hf1
    set f2 := ensureStep f1 "kanban" Json.isObj default_kanban with hf2
    set f3 := updateObjVal f2 "kanban" ensure_kanban_fields with hf3
    set f4 := ensureStep f3 "uniforms" Json.isArr (.arr []) with hf4
    set f5 := ensureStep f4 "weekly" Json.isObj (.obj []) with hf5
    set f6 := ensureStep f5 "todos" Json.isArr (.arr []) with hf6
    set f7 := ensureStep f6 "recycle" Json.isObj default_recycle with hf7
    set f8 := updateObjVal f7 "recycle" ensure_recycle_fields with hf8
    -- the kanban binding after step 3
    have hk2 : isSomeAnd (getVal f2 "kanban") Json.isObj = true :=
      ensureStep_holds _ _ _ _ rfl
    obtain ⟨ks, hks⟩ : ∃ ks, getVal f2 "kanban" = some (.obj ks) := by
      cases hg : getVal f2 "kanban" with
      | none => rw [hg] at hk2; simp [isSomeAnd] at hk2
      | some v =>
        rw [hg] at hk2
        cases v <;> simp [isSomeAnd, Json.isObj] at hk2 ⊢
    have hk3 : getVal f3 "kanban" = some (.obj (ensure_kanban_fields ks)) :=
      getVal_updateObjVal_obj _ _ _ _ hks
    -- the recycle binding after step 8
    have hr7 : isSomeAnd (getVal f7 "recycle") Json.isObj = true :=
      ensureStep_holds _ _ _ _ rfl
    obtain ⟨rs, hrs⟩ : ∃ rs, getVal f7 "recycle" = some (.obj rs) := by
      cases hg : getVal f7 "recycle" with
      | none => rw [hg] at hr7; simp [isSomeAnd] at hr7
      | some v =>
        rw [hg] at hr7
        cases v <;> simp [isSomeAnd, Json.isObj] at hr7 ⊢
    have hr8 : getVal f8 "recycle" = some (.obj (ensure_recycle_fields rs)) :=
      getVal_updateObjVal_obj _ _ _ _ hrs
    refine good_shape_obj _ ?_ ?_ ?_ ?_ ?_ ?_
    · rw [hf8, getVal_updateObjVal_ne _ _ _ _ (by decide),
        hf7, getVal_ensureStep_ne _ _ _ _ _ (by decide),
        hf6, getVal_ensureStep_ne _ _ _ _ _ (by decide),
        hf5, getVal_ensureStep_ne _ _ _ _ _ (by decide),
        hf4, getVal_ensureStep_ne _ _ _ _ _ (by decide),
        hf3, getVal_updateObjVal_ne _ _ _ _ (by decide),
        hf2, getVal_ensureStep_ne _ _ _ _ _ (by decide)]
      exact ensureStep_holds _ _ _ _ rfl
    · refine ⟨ensure_kanban_fields ks, ?_, good_kanban_ensure ks⟩
      rw [hf8, getVal_updateObjVal_ne _ _ _ _ (by decide),
        hf7, getVal_ensureStep_ne _ _ _ _ _ (by decide),
        hf6, getVal_ensureStep_ne _ _ _ _ _ (by decide),
        hf5, getVal_ensureStep_ne _ _ _ _ _ (by decide),
        hf4, getVal_ensureStep_ne _ _ _ _ _ (by decide)]
      exact hk3
    · rw [hf8, getVal_updateObjVal_ne _ _ _ _ (by decide),
        hf7, getVal_ensureStep_ne _ _ _ _ _ (by decide),
        hf6, getVal_ensureStep_ne _ _ _ _ _ (by decide),
        hf5, getVal_ensureStep_ne _ _ _ _ _ (by decide)]
      exact ensureStep_holds _ _ _ _ rfl
    · rw [hf8, getVal_updateObjVal_ne _ _ _ _ (by decide),
        hf7, getVal_ensureStep_ne _ _ _ _ _ (by decide),
        hf6, getVal_ensureStep_ne _ _ _ _ _ (by decide)]
      exact ensureStep_holds _ _ _ _ rfl
    · rw [hf8, getVal_updateObjVal_ne _ _ _ _ (by decide),
        hf7, getVal_ensureStep_ne _ _ _ _ _ (by decide)]
      exact ensureStep_holds _ _ _ _ rfl
    · exact ⟨ensure_recycle_fields rs, hr8, good_recycle_ensure rs⟩
  | null => exact hdefault
  | bool b => exact hdefault
  | num n => exact hdefault
  | str s => exact hdefault
  | arr xs => exact hdefault

theorem ensure_id (value : Json) (h : good_shape value = true) :
    ensure_db_shape_value value = value := by
  cases value with
  | obj fields =>
    replace h : good_fields fields = true := h
    unfold good_fields at h
    simp only [Bool.and_eq_true] at h
    obtain ⟨⟨⟨⟨⟨hversion, hkanban⟩, huniforms⟩, hweekly⟩, htodos⟩, hrecycle⟩ := h
    obtain ⟨ks, hks, hgks⟩ := objCheck_eq_true hkanban
    obtain ⟨rs, hrs, hgrs⟩ := objCheck_eq_true hrecycle
    have h1 : ensureStep fields "version" Json.isNum (.num DB_VERSION) = fields :=
      ensureStep_id _ _ _ _ hversion
    have h2 : ensureStep fields "kanban" Json.isObj default_kanban = fields :=
      ensureStep_id _ _ _ _ (by rw [hks]; rfl)
    have h3 : updateObjVal fields "kanban" ensure_kanban_fields = fields :=
      updateObjVal_id _ _ _ (fun inner hinner => by
        rw [hks] at hinner
        cases hinner
        exact ensure_kanban_id _ hgks)
    have h4 : ensureStep fields "uniforms" Json.isArr (.arr []) = fields :=
      ensureStep_id _ _ _ _ huniforms
    have h5 : ensureStep fields "weekly" Json.isObj (.obj []) = fields :=
      ensureStep_id _ _ _ _ hweekly
    have h6 : ensureStep fields "todos" Json.isArr (.arr []) = fields :=
      ensureStep_id _ _ _ _ htodos
    have h7 : ensureStep fields "recycle" Json.isObj default_recycle = fields :=
      ensureStep_id _ _ _ _ (by rw [hrs]; rfl)
    have h8 : updateObjVal fields "recycle" ensure_recycle_fields = fields :=
      updateObjVal_id _ _ _ (fun inner hinner => by
        rw [hrs] at hinner
        cases hinner
        exact ensure_recycle_id _ hgrs)
    show Json.obj (ensure_db_fields fields) = Json.obj fields
    unfold ensure_db_fields
    rw [h1, h2, h3, h4, h5, h6, h7, h8]
  | null => simp [good_shape] at h
  | bool b => simp [good_shape] at h
  | num n => simp [good_shape] at h
  | str s => simp [good_shape] at h
  | arr xs => simp [good_shape] at h

/-- C4: the document-shape normalization is idempotent
(`normalize(normalize(doc)) == normalize(doc)` for every JSON value), and
every non-object input normalizes to the default empty document. -/
theorem ensure_db_shape_idempotent (doc : Json) :
    ensure_db_shape_value (ensure_db_shape_value doc) = ensure_db_shape_value doc ∧
    (doc.isObj = false → ensure_db_shape_value doc = default_db_value) := by
  constructor
  · exact ensure_id _ (good_shape_ensure doc)
  · intro h
    cases doc <;> first | rfl | simp [Json.isObj] at h

/-- Witness for C4 at a concrete non-object input. -/
theorem ensure_db_shape_idempotent_witness :
    ensure_db_shape_value (ensure_db_shape_value .null) = ensure_db_shape_value .null ∧
    ensure_db_shape_value .null = default_db_value :=
  ⟨(ensure_db_shape_idempotent .null).1,
   (ensure_db_shape_idempotent .null).2 rfl⟩

/-! ### Frame lemmas for document updates -/

theorem jget_obj_getVal (fields : List (String × Json)) (key : String) :
    jget (.obj fields) key = getVal fields key := rfl

theorem updateObjVal_eq_of_not_obj (l : List (String × Json)) (key : String)
    (f : List (String × Json) → List (String × Json))
    (h : ∀ inner, getVal l key ≠ some (.obj inner)) :
    updateObjVal l key f = l :=
  updateObjVal_id l key f fun inner hinner => absurd hinner (h inner)

theorem jget_setTop_ne (db : Json) (key other : String) (v : Json)
    (h : other ≠ key) : jget (setTop db key v) other = jget db other := by
  cases db with
  | obj fields => simp [setTop, jget, getVal_setVal_ne _ _ _ _ h]
  | null => rfl
  | bool b => rfl
  | num n => rfl
  | str s => rfl
  | arr xs => rfl

theorem jget_setTop_self (fields : List (String × Json)) (key : String) (v : Json) :
    jget (setTop (.obj fields) key v) key = some v := by
  simp [setTop, jget, getVal_setVal_self]

theorem jget_set_kanban_ne (db : Json) (key top : String) (l : List Json)
    (h : top ≠ "kanban") :
    jget (set_kanban_list db key l) top = jget db top := by
  cases db with
  | obj fields => simp [set_kanban_list, jget, getVal_updateObjVal_ne _ _ _ _ h]
  | null => rfl
  | bool b => rfl
  | num n => rfl
  | str s => rfl
  | arr xs => rfl

theorem kanban_list?_set_kanban_ne (db : Json) (key other : String) (l : List Json)
    (h : other ≠ key) :
    kanban_list? (set_kanban_list db key l) other = kanban_list? db other := by
  cases db with
  | obj fields =>
    show kanban_list?
      (.obj (updateObjVal fields "kanban" fun ks => setVal ks key (.arr l))) other = _
    cases hk : getVal fields "kanban" with
    | none =>
      rw [updateObjVal_eq_of_not_obj _ _ _ (by simp [hk])]
    | some v =>
      cases v with
      | obj ks =>
        have h2 := getVal_updateObjVal_obj fields "kanban"
          (fun ks => setVal ks key (.arr l)) ks hk
        unfold kanban_list?
        rw [jget_obj_getVal, jget_obj_getVal, h2, hk]
        simp [jget_obj_getVal, getVal_setVal_ne _ _ _ _ h]
      | null =>
        rw [updateObjVal_eq_of_not_obj _ _ _ (by simp [hk])]
      | bool b =>
        rw [updateObjVal_eq_of_not_obj _ _ _ (by simp [hk])]
      | num n =>
        rw [updateObjVal_eq_of_not_obj _ _ _ (by simp [hk])]
      | str s =>
        rw [updateObjVal_eq_of_not_obj _ _ _ (by simp [hk])]
      | arr xs =>
        rw [updateObjVal_eq_of_not_obj _ _ _ (by simp [hk])]
  | null => rfl
  | bool b => rfl
  | num n => rfl
  | str s => rfl
  | arr xs => rfl

theorem kanban_list?_set_kanban_self (fields : List (String × Json)) (key : String)
    (l : List Json) (ks : List (String × Json))
    (h : getVal fields "kanban" = some (.obj ks)) :
    kanban_list? (set_kanban_list (.obj fields) key l) key = some l := by
  show kanban_list?
    (.obj (updateObjVal fields "kanban" fun ks => setVal ks key (.arr l))) key = some l
  have h2 := getVal_updateObjVal_obj fields "kanban"
    (fun ks => setVal ks key (.arr l)) ks h
  unfold kanban_list?
  rw [jget_obj_getVal, h2]
  simp [jget_obj_getVal, getVal_setVal_self, Json.asArr]

theorem jget_merge_weekly_ne (db : Json) (weeks : List (String × Json))
    (top : String) (h : top ≠ "weekly") :
    jget (merge_weekly db weeks) top = jget db top := by
  cases db with
  | obj fields => simp [merge_weekly, jget, getVal_updateObjVal_ne _ _ _ _ h]
  | null => rfl
  | bool b => rfl
  | num n => rfl
  | str s => rfl
  | arr xs => rfl

theorem jget_upsert_ne (db : Json) (p : UniformPayload) (freshId : String)
    (top : String) (h : top ≠ "uniforms") :
    jget ((upsert_uniform_stock db p freshId).1) top = jget db top := by
  unfold upsert_uniform_stock
  cases hg : getArr db "uniforms" with
  | none => rfl
  | some uniforms =>
    cases hup : upsert_in_list uniforms (uniform_key_from_payload p) p.quantity with
    | mk us found =>
      cases found with
      | some entry => simp [hup, jget_setTop_ne _ _ _ _ h]
      | none => simp [hup, jget_setTop_ne _ _ _ _ h]

theorem jget_merge_uniforms_ne (fresh : Nat → String) (entries : List Json)
    (top : String) (h : top ≠ "uniforms") :
    ∀ (db : Json) (n : Nat),
      jget ((merge_uniforms_go fresh entries db n).1) top = jget db top := by
  induction entries with
  | nil => intro db n; rfl
  | cons entry rest ih =>
    intro db n
    by_cases hskip : (normalize_uniform_payload entry).kind = "" ∨
        (normalize_uniform_payload entry).size = "" ∨
        (normalize_uniform_payload entry).branch = "" ∨
        (normalize_uniform_payload entry).quantity ≤ 0
    · simp only [merge_uniforms_go, if_pos hskip]
      exact ih db n
    · simp only [merge_uniforms_go, if_neg hskip]
      rw [ih _ _, jget_upsert_ne _ _ _ _ h]

/-! ### Id lemmas for the merge loops -/

theorem built_column_id (o : List (String × Json)) (v : String) (ord upd : Json) :
    value_ref_string (jget (Json.obj (setVal (setVal (setVal o "id" (.str v))
      "order" ord) "updated_at" upd)) "id") = v := by
  rw [jget_obj_getVal, getVal_setVal_ne _ _ _ _ (by decide),
    getVal_setVal_ne _ _ _ _ (by decide), getVal_setVal_self]
  rfl

theorem built_card_id (card : Json) (v column_id : String) (ord : Int) (now : String) :
    value_ref_string (jget (next_card_obj card v column_id ord now) "uuid") = v := by
  unfold next_card_obj
  rw [jget_obj_getVal, getVal_setVal_ne _ _ _ _ (by decide),
    getVal_setVal_ne _ _ _ _ (by decide), getVal_setVal_ne _ _ _ _ (by decide),
    getVal_setVal_self]
  rfl

theorem getVal_fold_fill (fields : List String) (step : String)
    (r : List (String × Json)) (key : String) (h : (getVal r key).isSome) :
    getVal (fields.foldl (fun r f =>
      if (getVal r f).isSome then r else setVal r f (.str step)) r) key =
    getVal r key := by
  induction fields generalizing r with
  | nil => rfl
  | cons f rest ih =>
    simp only [List.foldl_cons]
    by_cases hf : (getVal r f).isSome
    · rw [if_pos hf]
      exact ih r h
    · rw [if_neg hf]
      have hne : key ≠ f := by
        intro hkey
        subst hkey
        exact hf h
      rw [ih _ (by rw [getVal_setVal_ne _ _ _ _ hne]; exact h),
        getVal_setVal_ne _ _ _ _ hne]

theorem built_row_id (o : List (String × Json)) (v : String) :
    value_ref_string (jget (Json.obj (fill_missing_fields
      (setVal o "candidate UUID" (.str v)))) "candidate UUID") = v := by
  unfold fill_missing_fields
  rw [jget_obj_getVal, getVal_fold_fill _ _ _ _ (by rw [getVal_setVal_self]; rfl),
    getVal_setVal_self]
  rfl

theorem built_todo_id (o : List (String × Json)) (v : String) :
    value_ref_string (jget (Json.obj (setVal o "id" (.str v))) "id") = v := by
  rw [jget_obj_getVal, getVal_setVal_self]
  rfl

theorem mem_insertByOrder (x y : Json) (l : List Json) :
    y ∈ insertByOrder x l ↔ y = x ∨ y ∈ l := by
  induction l with
  | nil => simp [insertByOrder]
  | cons z zs ih =>
    by_cases hlt : value_i64 (jget z "order") < value_i64 (jget x "order")
    · simp only [insertByOrder, if_pos hlt, List.mem_cons, ih]
      tauto
    · simp only [insertByOrder, if_neg hlt, List.mem_cons]

theorem mem_sortByOrder (y : Json) (l : List Json) :
    y ∈ sortByOrder l ↔ y ∈ l := by
  induction l with
  | nil => simp [sortByOrder]
  | cons x xs ih =>
    simp only [sortByOrder, mem_insertByOrder, List.mem_cons, ih]

/-! ### Merge loop invariants (C2) -/

theorem nodup_append_singleton {α : Type} (l : List α) (a : α) :
    (l ++ [a]).Nodup ↔ l.Nodup ∧ a ∉ l := by
  constructor
  · intro h
    exact ⟨h.of_append_left, by
      intro hmem
      exact (List.disjoint_of_nodup_append h) hmem (List.mem_singleton_self a)⟩
  · intro ⟨hnd, hnot⟩
    refine List.Nodup.append hnd (List.nodup_singleton a) ?_
    intro x hx hx2
    rw [List.mem_singleton] at hx2
    subst hx2
    exact hnot hx

theorem colIdList_append_one (l : List Json) (x : Json) :
    colIdList (l ++ [x]) = colIdList l ++ [value_ref_string (jget x "id")] := by
  simp [colIdList]

theorem cardIdList_append_one (l : List Json) (x : Json) :
    cardIdList (l ++ [x]) = cardIdList l ++ [value_ref_string (jget x "uuid")] := by
  simp [cardIdList]

theorem rowIdList_append_one (l : List Json) (x : Json) :
    rowIdList (l ++ [x]) = rowIdList l ++ [value_ref_string (jget x "candidate UUID")] := by
  simp [rowIdList]

theorem merge_columns_go_spec (fresh : Nat → String) (now : String) (univ : List String)
    (hinj : ∀ k l, fresh k = fresh l → k = l)
    (havoid : ∀ k, fresh k ∉ univ ∧ fresh k ≠ "") :
    ∀ (items : List Json) (acc : List Json) (ids origIds : List String)
      (cmap : List (String × String)) (maxOrder : Int) (n : Nat),
      (∀ c ∈ items, value_ref_string (jget c "id") ∈ univ) →
      (∀ i ∈ ids, i ∈ univ ∨ ∃ k, k < n ∧ fresh k = i) →
      (∀ i ∈ origIds, i ≠ "" → i ∈ ids) →
      (∀ j ∈ colIdList acc, j ∈ ids) →
      (origIds ++ colIdList acc).Nodup →
      (origIds ++ colIdList
        (merge_columns_go fresh now items acc ids cmap maxOrder n).1).Nodup ∧
      (∀ i ∈ ids, i ∈ (merge_columns_go fresh now items acc ids cmap maxOrder n).2.1) ∧
      (∀ i ∈ (merge_columns_go fresh now items acc ids cmap maxOrder n).2.1,
        i ∈ univ ∨ ∃ k, k < (merge_columns_go fresh now items acc ids cmap
          maxOrder n).2.2.2 ∧ fresh k = i) := by
  intro items
  induction items with
  | nil =>
    intro acc ids origIds cmap maxOrder n hitems hids horig hacc hnd
    exact ⟨hnd, fun i hi => hi, hids⟩
  | cons column rest ih =>
    intro acc ids origIds cmap maxOrder n hitems hids horig hacc hnd
    by_cases hempty : value_ref_string (jget column "id") = ""
    · simp only [merge_columns_go, if_pos hempty]
      exact ih acc ids origIds cmap maxOrder n
        (fun c hc => hitems c (List.mem_cons_of_mem _ hc)) hids horig hacc hnd
    · by_cases hmem : value_ref_string (jget column "id") ∈ ids
      · simp only [merge_columns_go, if_neg hempty, if_pos hmem]
        have hnotin : fresh n ∉ ids := by
          intro hin
          rcases hids _ hin with h | ⟨k, hk, hfk⟩
          · exact (havoid n).1 h
          · have := hinj _ _ hfk
            omega
        have hfid : value_ref_string (jget (Json.obj (setVal (setVal (setVal
            ((column.asObj).getD []) "id" (.str (fresh n))) "order"
            (.num (maxOrder + 1))) "updated_at" (.str now))) "id") = fresh n :=
          built_column_id _ _ _ _
        obtain ⟨ihnd, ihgrow, ihdom⟩ := ih
          (acc ++ [Json.obj (setVal (setVal (setVal ((column.asObj).getD [])
            "id" (.str (fresh n))) "order" (.num (maxOrder + 1)))
            "updated_at" (.str now))])
          (fresh n :: ids) origIds
          ((value_ref_string (jget column "id"), fresh n) :: cmap)
          (maxOrder + 1) (n + 1)
          (fun c hc => hitems c (List.mem_cons_of_mem _ hc))
          (by
            intro i hi
            rcases List.mem_cons.mp hi with rfl | hi2
            · exact Or.inr ⟨n, by omega, rfl⟩
            · rcases hids i hi2 with h | ⟨k, hk, hfk⟩
              · exact Or.inl h
              · exact Or.inr ⟨k, by omega, hfk⟩)
          (fun i hio hine => List.mem_cons_of_mem _ (horig i hio hine))
          (by
            intro j hj
            rw [colIdList_append_one, List.mem_append] at hj
            rcases hj with hj | hj
            · exact List.mem_cons_of_mem _ (hacc j hj)
            · rw [List.mem_singleton] at hj
              rw [hfid] at hj
              subst hj
              exact List.mem_cons_self _ _)
          (by
            rw [colIdList_append_one, hfid, ← List.append_assoc,
              nodup_append_singleton]
            refine ⟨hnd, ?_⟩
            rw [List.mem_append]
            rintro (hf | hf)
            · exact hnotin (horig _ hf (havoid n).2)
            · exact hnotin (hacc _ hf))
        exact ⟨ihnd, fun i hi => ihgrow i (List.mem_cons_of_mem _ hi), ihdom⟩
      · simp only [merge_columns_go, if_neg hempty, if_neg hmem]
        have hfid : value_ref_string (jget (Json.obj (setVal (setVal (setVal
            ((column.asObj).getD []) "id"
            (.str (value_ref_string (jget column "id")))) "order"
            (.num (maxOrder + 1))) "updated_at" (.str now))) "id") =
            value_ref_string (jget column "id") :=
          built_column_id _ _ _ _
        obtain ⟨ihnd, ihgrow, ihdom⟩ := ih
          (acc ++ [Json.obj (setVal (setVal (setVal ((column.asObj).getD [])
            "id" (.str (value_ref_string (jget column "id")))) "order"
            (.num (maxOrder + 1))) "updated_at" (.str now))])
          (value_ref_string (jget column "id") :: ids) origIds
          ((value_ref_string (jget column "id"),
            value_ref_string (jget column "id")) :: cmap)
          (maxOrder + 1) n
          (fun c hc => hitems c (List.mem_cons_of_mem _ hc))
          (by
            intro i hi
            rcases List.mem_cons.mp hi with rfl | hi2
            · exact Or.inl (hitems column (List.mem_cons_self _ _))
            · exact hids i hi2)
          (fun i hio hine => List.mem_cons_of_mem _ (horig i hio hine))
          (by
            intro j hj
            rw [colIdList_append_one, List.mem_append] at hj
            rcases hj with hj | hj
            · exact List.mem_cons_of_mem _ (hacc j hj)
            · rw [List.mem_singleton] at hj
              rw [hfid] at hj
              subst hj
              exact List.mem_cons_self _ _)
          (by
            rw [colIdList_append_one, hfid, ← List.append_assoc,
              nodup_append_singleton]
            refine ⟨hnd, ?_⟩
            rw [List.mem_append]
            rintro (hf | hf)
            · exact hmem (horig _ hf hempty)
            · exact hmem (hacc _ hf))
        exact ⟨ihnd, fun i hi => ihgrow i (List.mem_cons_of_mem _ hi), ihdom⟩

theorem merge_cards_go_spec (fresh : Nat → String) (now : String) (univ : List String)
    (cmap : List (String × String)) (existingCols : List String) (firstCol : String)
    (hinj : ∀ k l, fresh k = fresh l → k = l)
    (havoid : ∀ k, fresh k ∉ univ ∧ fresh k ≠ "") :
    ∀ (items : List Json) (acc : List Json) (ids origIds : List String)
      (cardMap : List (String × String)) (orders : List (String × Int)) (n : Nat),
      (∀ c ∈ items, value_ref_string (jget c "uuid") ∈ univ) →
      (∀ i ∈ ids, i ∈ univ ∨ ∃ k, k < n ∧ fresh k = i) →
      (∀ i ∈ origIds, i ≠ "" → i ∈ ids) →
      (∀ j ∈ cardIdList acc, j ∈ ids) →
      (origIds ++ cardIdList acc).Nodup →
      (∀ p ∈ cardMap, p.2 ∈ univ ∨ ∃ k, k < n ∧ fresh k = p.2) →
      (origIds ++ cardIdList
        (merge_cards_go fresh now cmap existingCols firstCol items acc ids cardMap
          orders n).1).Nodup ∧
      (∀ i ∈ ids, i ∈ (merge_cards_go fresh now cmap existingCols firstCol items acc
        ids cardMap orders n).2.1) ∧
      (∀ i ∈ (merge_cards_go fresh now cmap existingCols firstCol items acc ids
        cardMap orders n).2.1,
        i ∈ univ ∨ ∃ k, k < (merge_cards_go fresh now cmap existingCols firstCol
          items acc ids cardMap orders n).2.2.2 ∧ fresh k = i) ∧
      (∀ p ∈ (merge_cards_go fresh now cmap existingCols firstCol items acc ids
        cardMap orders n).2.2.1,
        p.2 ∈ univ ∨ ∃ k, k < (merge_cards_go fresh now cmap existingCols firstCol
          items acc ids cardMap orders n).2.2.2 ∧ fresh k = p.2) := by
  intro items
  induction items with
  | nil =>
    intro acc ids origIds cardMap orders n hitems hids horig hacc hnd hmap
    exact ⟨hnd, fun i hi => hi, hids, hmap⟩
  | cons card rest ih =>
    intro acc ids origIds cardMap orders n hitems hids horig hacc hnd hmap
    by_cases hempty : value_ref_string (jget card "uuid") = ""
    · simp only [merge_cards_go, if_pos hempty]
      exact ih acc ids origIds cardMap orders n
        (fun c hc => hitems c (List.mem_cons_of_mem _ hc)) hids horig hacc hnd hmap
    · by_cases hmem : value_ref_string (jget card "uuid") ∈ ids
      · simp only [merge_cards_go, if_neg hempty, if_pos hmem]
        have hnotin : fresh n ∉ ids := by
          intro hin
          rcases hids _ hin with h | ⟨k, hk, hfk⟩
          · exact (havoid n).1 h
          · have := hinj _ _ hfk
            omega
        have hfid := built_card_id card (fresh n)
          (safe_column_of cmap existingCols firstCol
            (value_ref_string (jget card "column_id")))
          (((ordLookup orders (safe_column_of cmap existingCols firstCol
            (value_ref_string (jget card "column_id")))).getD 0) + 1) now
        obtain ⟨ihnd, ihgrow, ihdom, ihmap⟩ := ih
          (acc ++ [next_card_obj card (fresh n)
            (safe_column_of cmap existingCols firstCol
              (value_ref_string (jget card "column_id")))
            (((ordLookup orders (safe_column_of cmap existingCols firstCol
              (value_ref_string (jget card "column_id")))).getD 0) + 1) now])
          (fresh n :: ids) origIds
          ((value_ref_string (jget card "uuid"), fresh n) :: cardMap)
          ((safe_column_of cmap existingCols firstCol
              (value_ref_string (jget card "column_id")),
            ((ordLookup orders (safe_column_of cmap existingCols firstCol
              (value_ref_string (jget card "column_id")))).getD 0) + 1) :: orders)
          (n + 1)
          (fun c hc => hitems c (List.mem_cons_of_mem _ hc))
          (by
            intro i hi
            rcases List.mem_cons.mp hi with rfl | hi2
            · exact Or.inr ⟨n, by omega, rfl⟩
            · rcases hids i hi2 with h | ⟨k, hk, hfk⟩
              · exact Or.inl h
              · exact Or.inr ⟨k, by omega, hfk⟩)
          (fun i hio hine => List.mem_cons_of_mem _ (horig i hio hine))
          (by
            intro j hj
            rw [cardIdList_append_one, List.mem_append] at hj
            rcases hj with hj | hj
            · exact List.mem_cons_of_mem _ (hacc j hj)
            · rw [List.mem_singleton] at hj
              rw [hfid] at hj
              subst hj
              exact List.mem_cons_self _ _)
          (by
            rw [cardIdList_append_one, hfid, ← List.append_assoc,
              nodup_append_singleton]
            refine ⟨hnd, ?_⟩
            rw [List.mem_append]
            rintro (hf | hf)
            · exact hnotin (horig _ hf (havoid n).2)
            · exact hnotin (hacc _ hf))
          (by
            intro p hp
            rcases List.mem_cons.mp hp with rfl | hp2
            · exact Or.inr ⟨n, by omega, rfl⟩
            · rcases hmap p hp2 with h | ⟨k, hk, hfk⟩
              · exact Or.inl h
              · exact Or.inr ⟨k, by omega, hfk⟩)
        exact ⟨ihnd, fun i hi => ihgrow i (List.mem_cons_of_mem _ hi), ihdom, ihmap⟩
      · simp only [merge_cards_go, if_neg hempty, if_neg hmem]
        have hfid := built_card_id card (value_ref_string (jget card "uuid"))
          (safe_column_of cmap existingCols firstCol
            (value_ref_string (jget card "column_id")))
          (((ordLookup orders (safe_column_of cmap existingCols firstCol
            (value_ref_string (jget card "column_id")))).getD 0) + 1) now
        obtain ⟨ihnd, ihgrow, ihdom, ihmap⟩ := ih
          (acc ++ [next_card_obj card (value_ref_string (jget card "uuid"))
            (safe_column_of cmap existingCols firstCol
              (value_ref_string (jget card "column_id")))
            (((ordLookup orders (safe_column_of cmap existingCols firstCol
              (value_ref_string (jget card "column_id")))).getD 0) + 1) now])
          (value_ref_string (jget card "uuid") :: ids) origIds
          ((value_ref_string (jget card "uuid"),
            value_ref_string (jget card "uuid")) :: cardMap)
          ((safe_column_of cmap existingCols firstCol
              (value_ref_string (jget card "column_id")),
            ((ordLookup orders (safe_column_of cmap existingCols firstCol
              (value_ref_string (jget card "column_id")))).getD 0) + 1) :: orders)
          n
          (fun c hc => hitems c (List.mem_cons_of_mem _ hc))
          (by
            intro i hi
            rcases List.mem_cons.mp hi with rfl | hi2
            · exact Or.inl (hitems card (List.mem_cons_self _ _))
            · exact hids i hi2)
          (fun i hio hine => List.mem_cons_of_mem _ (horig i hio hine))
          (by
            intro j hj
            rw [cardIdList_append_one, List.mem_append] at hj
            rcases hj with hj | hj
            · exact List.mem_cons_of_mem _ (hacc j hj)
            · rw [List.mem_singleton] at hj
              rw [hfid] at hj
              subst hj
              exact List.mem_cons_self _ _)
          (by
            rw [cardIdList_append_one, hfid, ← List.append_assoc,
              nodup_append_singleton]
            refine ⟨hnd, ?_⟩
            rw [List.mem_append]
            rintro (hf | hf)
            · exact hmem (horig _ hf hempty)
            · exact hmem (hacc _ hf))
          (by
            intro p hp
            rcases List.mem_cons.mp hp with rfl | hp2
            · exact Or.inl (hitems card (List.mem_cons_self _ _))
            · exact hmap p hp2)
        exact ⟨ihnd, fun i hi => ihgrow i (List.mem_cons_of_mem _ hi), ihdom, ihmap⟩

theorem strLookup_mem (m : List (String × String)) (k v : String)
    (h : strLookup m k = some v) : (k, v) ∈ m := by
  induction m with
  | nil => simp [strLookup] at h
  | cons p ps ihm =>
    obtain ⟨pk, pv⟩ := p
    by_cases hpk : pk = k
    · subst hpk
      rw [strLookup, if_pos rfl] at h
      cases h
      exact List.mem_cons_self _ _
    · rw [strLookup, if_neg hpk] at h
      exact List.mem_cons_of_mem _ (ihm h)

theorem merge_rows_go_spec (fresh : Nat → String) (univ : List String)
    (hinj : ∀ k l, fresh k = fresh l → k = l)
    (havoid : ∀ k, fresh k ∉ univ ∧ fresh k ≠ "") :
    ∀ (items : List Json) (cardMap : List (String × String)) (acc : List Json)
      (ids origIds : List String) (n : Nat),
      (∀ c ∈ items, value_ref_string (jget c "candidate UUID") ∈ univ) →
      (∀ i ∈ ids, i ∈ univ ∨ ∃ k, k < n ∧ fresh k = i) →
      (∀ i ∈ origIds, i ≠ "" → i ∈ ids) →
      (∀ j ∈ rowIdList acc, j ∈ ids) →
      (origIds ++ rowIdList acc).Nodup →
      (∀ p ∈ cardMap, p.2 ∈ univ ∨ ∃ k, k < n ∧ fresh k = p.2) →
      (origIds ++ rowIdList
        (merge_rows_go fresh cardMap items acc ids n).1).Nodup := by
  intro items
  induction items with
  | nil =>
    intro cardMap acc ids origIds n hitems hids horig hacc hnd hmap
    exact hnd
  | cons row rest ih =>
    intro cardMap acc ids origIds n hitems hids horig hacc hnd hmap
    cases hobj : row.asObj with
    | none =>
      simp only [merge_rows_go, hobj]
      exact ih cardMap acc ids origIds n
        (fun c hc => hitems c (List.mem_cons_of_mem _ hc)) hids horig hacc hnd hmap
    | some row_obj =>
      simp only [merge_rows_go, hobj]
      have hmdom : ((strLookup cardMap (value_ref_string
          (jget row "candidate UUID"))).getD (value_ref_string
          (jget row "candidate UUID"))) ∈ univ ∨
          ∃ k, k < n ∧ fresh k = ((strLookup cardMap (value_ref_string
            (jget row "candidate UUID"))).getD (value_ref_string
            (jget row "candidate UUID"))) := by
        cases hlk : strLookup cardMap (value_ref_string (jget row "candidate UUID")) with
        | none =>
          simp only [Option.getD_none]
          exact Or.inl (hitems row (List.mem_cons_self _ _))
        | some v =>
          simp only [Option.getD_some]
          exact hmap _ (strLookup_mem _ _ _ hlk)
      by_cases hfresh : ((strLookup cardMap (value_ref_string
          (jget row "candidate UUID"))).getD (value_ref_string
          (jget row "candidate UUID"))) = "" ∨
          ((strLookup cardMap (value_ref_string
            (jget row "candidate UUID"))).getD (value_ref_string
            (jget row "candidate UUID"))) ∈ ids
      · simp only [if_pos hfresh]
        have hnotin : fresh n ∉ ids := by
          intro hin
          rcases hids _ hin with h | ⟨k, hk, hfk⟩
          · exact (havoid n).1 h
          · have := hinj _ _ hfk
            omega
        have hfid := built_row_id row_obj (fresh n)
        apply ih cardMap _ (fresh n :: ids) origIds (n + 1)
          (fun c hc => hitems c (List.mem_cons_of_mem _ hc))
          (by
            intro i hi
            rcases List.mem_cons.mp hi with rfl | hi2
            · exact Or.inr ⟨n, by omega, rfl⟩
            · rcases hids i hi2 with h | ⟨k, hk, hfk⟩
              · exact Or.inl h
              · exact Or.inr ⟨k, by omega, hfk⟩)
          (fun i hio hine => List.mem_cons_of_mem _ (horig i hio hine))
          (by
            intro j hj
            rw [rowIdList_append_one, List.mem_append] at hj
            rcases hj with hj | hj
            · exact List.mem_cons_of_mem _ (hacc j hj)
            · rw [List.mem_singleton] at hj
              rw [hfid] at hj
              subst hj
              exact List.mem_cons_self _ _)
          (by
            rw [rowIdList_append_one, hfid, ← List.append_assoc,
              nodup_append_singleton]
            refine ⟨hnd, ?_⟩
            rw [List.mem_append]
            rintro (hf | hf)
            · exact hnotin (horig _ hf (havoid n).2)
            · exact hnotin (hacc _ hf))
          (by
            intro p hp
            rcases hmap p hp with h | ⟨k, hk, hfk⟩
            · exact Or.inl h
            · exact Or.inr ⟨k, by omega, hfk⟩)
      · simp only [if_neg hfresh]
        push_neg at hfresh
        obtain ⟨hne, hni⟩ := hfresh
        have hfid := built_row_id row_obj ((strLookup cardMap (value_ref_string
          (jget row "candidate UUID"))).getD (value_ref_string
          (jget row "candidate UUID")))
        apply ih cardMap _ (((strLookup cardMap (value_ref_string
            (jget row "candidate UUID"))).getD (value_ref_string
            (jget row "candidate UUID"))) :: ids) origIds n
          (fun c hc => hitems c (List.mem_cons_of_mem _ hc))
          (by
            intro i hi
            rcases List.mem_cons.mp hi with rfl | hi2
            · exact hmdom
            · exact hids i hi2)
          (fun i hio hine => List.mem_cons_of_mem _ (horig i hio hine))
          (by
            intro j hj
            rw [rowIdList_append_one, List.mem_append] at hj
            rcases hj with hj | hj
            · exact List.mem_cons_of_mem _ (hacc j hj)
            · rw [List.mem_singleton] at hj
              rw [hfid] at hj
              subst hj
              exact List.mem_cons_self _ _)
          (by
            rw [rowIdList_append_one, hfid, ← List.append_assoc,
              nodup_append_singleton]
            refine ⟨hnd, ?_⟩
            rw [List.mem_append]
            rintro (hf | hf)
            · exact hni (horig _ hf hne)
            · exact hni (hacc _ hf))
          (fun p hp => hmap p hp)

theorem merge_todos_go_spec (fresh : Nat → String) (univ : List String)
    (hinj : ∀ k l, fresh k = fresh l → k = l)
    (havoid : ∀ k, fresh k ∉ univ ∧ fresh k ≠ "") :
    ∀ (items : List Json) (acc : List Json) (ids origIds : List String) (n : Nat),
      (∀ c ∈ items, value_ref_string (jget c "id") ∈ univ) →
      (∀ i ∈ ids, i ∈ univ ∨ ∃ k, k < n ∧ fresh k = i) →
      (∀ i ∈ origIds, i ≠ "" → i ∈ ids) →
      (∀ j ∈ colIdList acc, j ∈ ids) →
      (origIds ++ colIdList acc).Nodup →
      (origIds ++ colIdList (merge_todos_go fresh items acc ids n).1).Nodup := by
  intro items
  induction items with
  | nil =>
    intro acc ids origIds n hitems hids horig hacc hnd
    exact hnd
  | cons todo rest ih =>
    intro acc ids origIds n hitems hids horig hacc hnd
    cases hobj : todo.asObj with
    | none =>
      simp only [merge_todos_go, hobj]
      exact ih acc ids origIds n
        (fun c hc => hitems c (List.mem_cons_of_mem _ hc)) hids horig hacc hnd
    | some todo_obj =>
      simp only [merge_todos_go, hobj]
      by_cases hfresh : value_ref_string (jget todo "id") = "" ∨
          value_ref_string (jget todo "id") ∈ ids
      · simp only [if_pos hfresh]
        have hnotin : fresh n ∉ ids := by
          intro hin
          rcases hids _ hin with h | ⟨k, hk, hfk⟩
          · exact (havoid n).1 h
          · have := hinj _ _ hfk
            omega
        have hfid := built_todo_id todo_obj (fresh n)
        apply ih _ (fresh n :: ids) origIds (n + 1)
          (fun c hc => hitems c (List.mem_cons_of_mem _ hc))
          (by
            intro i hi
            rcases List.mem_cons.mp hi with rfl | hi2
            · exact Or.inr ⟨n, by omega, rfl⟩
            · rcases hids i hi2 with h | ⟨k, hk, hfk⟩
              · exact Or.inl h
              · exact Or.inr ⟨k, by omega, hfk⟩)
          (fun i hio hine => List.mem_cons_of_mem _ (horig i hio hine))
          (by
            intro j hj
            rw [colIdList_append_one, List.mem_append] at hj
            rcases hj with hj | hj
            · exact List.mem_cons_of_mem _ (hacc j hj)
            · rw [List.mem_singleton] at hj
              rw [hfid] at hj
              subst hj
              exact List.mem_cons_self _ _)
          (by
            rw [colIdList_append_one, hfid, ← List.append_assoc,
              nodup_append_singleton]
            refine ⟨hnd, ?_⟩
            rw [List.mem_append]
            rintro (hf | hf)
            · exact hnotin (horig _ hf (havoid n).2)
            · exact hnotin (hacc _ hf))
      · simp only [if_neg hfresh]
        push_neg at hfresh
        obtain ⟨hne, hni⟩ := hfresh
        have hfid := built_todo_id todo_obj (value_ref_string (jget todo "id"))
        apply ih _ (value_ref_string (jget todo "id") :: ids) origIds n
          (fun c hc => hitems c (List.mem_cons_of_mem _ hc))
          (by
            intro i hi
            rcases List.mem_cons.mp hi with rfl | hi2
            · exact Or.inl (hitems todo (List.mem_cons_self _ _))
            · exact hids i hi2)
          (fun i hio hine => List.mem_cons_of_mem _ (horig i hio hine))
          (by
            intro j hj
            rw [colIdList_append_one, List.mem_append] at hj
            rcases hj with hj | hj
            · exact List.mem_cons_of_mem _ (hacc j hj)
            · rw [List.mem_singleton] at hj
              rw [hfid] at hj
              subst hj
              exact List.mem_cons_self _ _)
          (by
            rw [colIdList_append_one, hfid, ← List.append_assoc,
              nodup_append_singleton]
            refine ⟨hnd, ?_⟩
            rw [List.mem_append]
            rintro (hf | hf)
            · exact hni (horig _ hf hne)
            · exact hni (hacc _ hf))

theorem isSomeAnd_isArr_exists {o : Option Json} (h : isSomeAnd o Json.isArr = true) :
    ∃ l, o = some (.arr l) := by
  cases o with
  | none => exact absurd h (by simp [isSomeAnd])
  | some v =>
    cases v with
    | arr xs => exact ⟨xs, rfl⟩
    | null => exact absurd h (by simp [isSomeAnd, Json.isArr])
    | bool b => exact absurd h (by simp [isSomeAnd, Json.isArr])
    | num n => exact absurd h (by simp [isSomeAnd, Json.isArr])
    | str s => exact absurd h (by simp [isSomeAnd, Json.isArr])
    | obj fs => exact absurd h (by simp [isSomeAnd, Json.isArr])

/-- A normalized document exposes its object fields and the four array
collections the merge loops work on. -/
theorem ensured_shape (v : Json) :
    ∃ fieldsT ks cols cards rows todosT,
      ensure_db_shape_value v = .obj fieldsT ∧
      getVal fieldsT "kanban" = some (.obj ks) ∧
      getVal ks "columns" = some (.arr cols) ∧
      getVal ks "cards" = some (.arr cards) ∧
      getVal ks "candidates" = some (.arr rows) ∧
      getVal fieldsT "todos" = some (.arr todosT) := by
  have hg := good_shape_ensure v
  cases hE : ensure_db_shape_value v with
  | obj fieldsT =>
    rw [hE] at hg
    replace hg : good_fields fieldsT = true := hg
    unfold good_fields at hg
    simp only [Bool.and_eq_true] at hg
    obtain ⟨⟨⟨⟨⟨hversion, hkanban⟩, huniforms⟩, hweekly⟩, htodos⟩, hrecycle⟩ := hg
    obtain ⟨ks, hks, hgood⟩ := objCheck_eq_true hkanban
    unfold good_kanban at hgood
    simp only [Bool.and_eq_true] at hgood
    obtain ⟨⟨hc1, hc2⟩, hc3⟩ := hgood
    obtain ⟨cols, hcols⟩ := isSomeAnd_isArr_exists hc1
    obtain ⟨cards, hcards⟩ := isSomeAnd_isArr_exists hc2
    obtain ⟨rows, hrows⟩ := isSomeAnd_isArr_exists hc3
    obtain ⟨todosT, htd⟩ := isSomeAnd_isArr_exists htodos
    exact ⟨fieldsT, ks, cols, cards, rows, todosT, rfl, hks, hcols, hcards, hrows, htd⟩
  | null => rw [hE] at hg; exact absurd hg (by simp [good_shape])
  | bool b => rw [hE] at hg; exact absurd hg (by simp [good_shape])
  | num n => rw [hE] at hg; exact absurd hg (by simp [good_shape])
  | str s => rw [hE] at hg; exact absurd hg (by simp [good_shape])
  | arr xs => rw [hE] at hg; exact absurd hg (by simp [good_shape])

theorem kanban_arr_eq (db : Json) (key : String) :
    kanban_arr db key = (kanban_list? db key).getD [] := rfl

theorem kanban_list?_congr (db db' : Json) (key : String)
    (h : jget db "kanban" = jget db' "kanban") :
    kanban_list? db key = kanban_list? db' key := by
  unfold kanban_list?
  rw [h]

/-- C2: merging never leaves two columns, two cards, two candidate rows or
two todos sharing an id — including when `incoming` duplicates `target` —
provided the normalized target's own ids are unique beforehand and the
minted ids (`new_id()`) are pairwise distinct, nonempty and distinct from
every id in either document. -/
theorem merge_id_safety (fresh : Nat → String) (now : String) (target incoming : Json)
    (hinj : ∀ k l, fresh k = fresh l → k = l)
    (havoid : ∀ k, fresh k ∉ mergeIdUniverse target incoming ∧ fresh k ≠ "")
    (hcols : (colIdsOf (ensure_db_shape_value target)).Nodup)
    (hcards : (cardIdsOf (ensure_db_shape_value target)).Nodup)
    (hrows : (rowIdsOf (ensure_db_shape_value target)).Nodup)
    (htodos : (todoIdsOf (ensure_db_shape_value target)).Nodup) :
    (colIdsOf (merge_databases fresh now target incoming)).Nodup ∧
    (cardIdsOf (merge_databases fresh now target incoming)).Nodup ∧
    (rowIdsOf (merge_databases fresh now target incoming)).Nodup ∧
    (todoIdsOf (merge_databases fresh now target incoming)).Nodup := by
  obtain ⟨fT, ks, cols, cards, rows, todosT, hE, hks, hco, hca, hrw2, htd⟩ :=
    ensured_shape target
  simp only [merge_databases]
  set T := ensure_db_shape_value target with hTdef
  set I := ensure_db_shape_value incoming with hIdef
  have hading : ∀ x, (x ∈ colIdsOf T ∨ x ∈ colIdsOf I ∨ x ∈ cardIdsOf T ∨
      x ∈ cardIdsOf I ∨ x ∈ rowIdsOf T ∨ x ∈ rowIdsOf I ∨ x ∈ todoIdsOf T ∨
      x ∈ todoIdsOf I) → x ∈ mergeIdUniverse target incoming := by
    intro x hx
    simp only [mergeIdUniverse, List.mem_append, ← hTdef, ← hIdef]
    tauto
  -- shape equations for the normalized target
  have hklc : kanban_list? T "columns" = some cols := by
    rw [hE]
    simp [kanban_list?, jget_obj_getVal, hks, hco, Json.asArr]
  have hklcards : kanban_list? T "cards" = some cards := by
    rw [hE]
    simp [kanban_list?, jget_obj_getVal, hks, hca, Json.asArr]
  have hklrows : kanban_list? T "candidates" = some rows := by
    rw [hE]
    simp [kanban_list?, jget_obj_getVal, hks, hrw2, Json.asArr]
  have hjtdT : jget T "todos" = some (.arr todosT) := by
    rw [hE, jget_obj_getVal, htd]
  have harrc : kanban_arr T "columns" = cols := by
    rw [kanban_arr_eq, hklc]
    rfl
  have hTcols : colIdsOf T = colIdList cols := by
    rw [colIdsOf, harrc]
  have hTcards : cardIdsOf T = cardIdList cards := by
    rw [cardIdsOf, kanban_arr_eq, hklcards]
    rfl
  have hTrows : rowIdsOf T = rowIdList rows := by
    rw [rowIdsOf, kanban_arr_eq, hklrows]
    rfl
  have hTtodos : todoIdsOf T = todosT.map fun t => value_ref_string (jget t "id") := by
    rw [todoIdsOf, hjtdT]
    rfl
  -- column phase
  set r1 := merge_columns_go fresh now (sortByOrder (kanban_arr I "columns"))
    [] ((colIdList (kanban_arr T "columns")).filter (· ≠ "")) []
    ((((kanban_arr T "columns").map fun c =>
      value_i64 (jget c "order")).max?).getD 0) 0 with hr1
  set s1 := merge_phase_columns fresh now T I with hs1def
  have hs1 : s1 = (set_kanban_list T "columns" (cols ++ r1.1), r1.2.1, r1.2.2.1,
      r1.2.2.2) := by
    rw [hs1def, hr1]
    unfold merge_phase_columns
    rw [hklc]
  obtain ⟨nd1, grow1, dom1⟩ := merge_columns_go_spec fresh now
    (mergeIdUniverse target incoming) hinj havoid
    (sortByOrder (kanban_arr I "columns")) []
    ((colIdList (kanban_arr T "columns")).filter (· ≠ "")) (colIdsOf T) []
    ((((kanban_arr T "columns").map fun c => value_i64 (jget c "order")).max?).getD 0) 0
    (by
      intro c hc
      rw [mem_sortByOrder] at hc
      exact hading _ (Or.inr (Or.inl (List.mem_map_of_mem _ hc))))
    (by
      intro i hi
      rw [List.mem_filter] at hi
      exact Or.inl (hading _ (Or.inl (by rw [hTcols, ← harrc]; exact hi.1))))
    (by
      intro i hio hine
      rw [List.mem_filter]
      refine ⟨by rw [hTcols, ← harrc] at hio; exact hio, by simpa using hine⟩)
    (by intro j hj; simp [colIdList] at hj)
    (by simpa [colIdList] using hcols)
  rw [← hr1] at nd1 grow1 dom1
  have h11 : s1.1 = set_kanban_list T "columns" (cols ++ r1.1) := by rw [hs1]
  have h12 : s1.2.1 = r1.2.1 := by rw [hs1]
  have h13 : s1.2.2.1 = r1.2.2.1 := by rw [hs1]
  have h14 : s1.2.2.2 = r1.2.2.2 := by rw [hs1]
  have hkl1cols : kanban_list? s1.1 "columns" = some (cols ++ r1.1) := by
    rw [h11, hE]
    exact kanban_list?_set_kanban_self fT "columns" _ ks hks
  have hkl1cards : kanban_list? s1.1 "cards" = some cards := by
    rw [h11, kanban_list?_set_kanban_ne _ _ _ _ (by decide)]
    exact hklcards
  have hkl1rows : kanban_list? s1.1 "candidates" = some rows := by
    rw [h11, kanban_list?_set_kanban_ne _ _ _ _ (by decide)]
    exact hklrows
  have hjtd1 : jget s1.1 "todos" = some (.arr todosT) := by
    rw [h11, jget_set_kanban_ne _ _ _ _ (by decide)]
    exact hjtdT
  have harr1cards : kanban_arr s1.1 "cards" = cards := by
    rw [kanban_arr_eq, hkl1cards]
    rfl
  have harr1rows : kanban_arr s1.1 "candidates" = rows := by
    rw [kanban_arr_eq, hkl1rows]
    rfl
  -- card phase
  set r2 := merge_cards_go fresh now s1.2.2.1 s1.2.1 (first_column_id s1.1)
    (sortByOrder (kanban_arr I "cards")) []
    ((cardIdList (kanban_arr s1.1 "cards")).filter (· ≠ "")) []
    (build_order_by_column (kanban_arr s1.1 "cards")) s1.2.2.2 with hr2
  set s2 := merge_phase_cards fresh now I s1.1 s1.2.1 s1.2.2.1 s1.2.2.2 with hs2def
  have hs2 : s2 = (set_kanban_list s1.1 "cards" (cards ++ r2.1), r2.2.2.1,
      r2.2.2.2) := by
    rw [hs2def, hr2]
    unfold merge_phase_cards
    rw [hkl1cards]
  obtain ⟨nd2, grow2, dom2, map2⟩ := merge_cards_go_spec fresh now
    (mergeIdUniverse target incoming) s1.2.2.1 s1.2.1 (first_column_id s1.1)
    hinj havoid
    (sortByOrder (kanban_arr I "cards")) []
    ((cardIdList (kanban_arr s1.1 "cards")).filter (· ≠ "")) (cardIdsOf T) []
    (build_order_by_column (kanban_arr s1.1 "cards")) s1.2.2.2
    (by
      intro c hc
      rw [mem_sortByOrder] at hc
      exact hading _ (Or.inr (Or.inr (Or.inr (Or.inl (List.mem_map_of_mem _ hc))))))
    (by
      intro i hi
      rw [harr1cards, List.mem_filter] at hi
      exact Or.inl (hading _ (Or.inr (Or.inr (Or.inl (by rw [hTcards]; exact hi.1)))))
    )
    (by
      intro i hio hine
      rw [harr1cards, List.mem_filter]
      refine ⟨by rw [hTcards] at hio; exact hio, by simpa using hine⟩)
    (by intro j hj; simp [cardIdList] at hj)
    (by simpa [cardIdList] using hcards)
    (by intro p hp; simp at hp)
  rw [← hr2] at nd2 grow2 dom2 map2
  have h21 : s2.1 = set_kanban_list s1.1 "cards" (cards ++ r2.1) := by rw [hs2]
  have h22 : s2.2.1 = r2.2.2.1 := by rw [hs2]
  have h23 : s2.2.2 = r2.2.2.2 := by rw [hs2]
  have hkl2cols : kanban_list? s2.1 "columns" = some (cols ++ r1.1) := by
    rw [h21, kanban_list?_set_kanban_ne _ _ _ _ (by decide)]
    exact hkl1cols
  have hkl2cards : kanban_list? s2.1 "cards" = some (cards ++ r2.1) := by
    rw [h21, h11, hE]
    refine kanban_list?_set_kanban_self _ "cards" _
      (setVal ks "columns" (.arr (cols ++ r1.1))) ?_
    exact getVal_updateObjVal_obj _ _ _ _ hks
  have hkl2rows : kanban_list? s2.1 "candidates" = some rows := by
    rw [h21, kanban_list?_set_kanban_ne _ _ _ _ (by decide)]
    exact hkl1rows
  have hjtd2 : jget s2.1 "todos" = some (.arr todosT) := by
    rw [h21, jget_set_kanban_ne _ _ _ _ (by decide)]
    exact hjtd1
  -- candidate-row phase
  set r3 := merge_rows_go fresh s2.2.1 (kanban_arr I "candidates") []
    ((rowIdList (kanban_arr s1.1 "candidates")).filter (· ≠ "")) s2.2.2 with hr3
  set s3 := merge_phase_rows fresh I s2.1
    ((rowIdList (kanban_arr s1.1 "candidates")).filter (· ≠ "")) s2.2.1 s2.2.2
    with hs3def
  have hs3 : s3 = (set_kanban_list s2.1 "candidates" (rows ++ r3.1), r3.2.2) := by
    rw [hs3def, hr3]
    unfold merge_phase_rows
    rw [hkl2rows]
  have nd3 := merge_rows_go_spec fresh (mergeIdUniverse target incoming) hinj havoid
    (kanban_arr I "candidates") s2.2.1 []
    ((rowIdList (kanban_arr s1.1 "candidates")).filter (· ≠ "")) (rowIdsOf T) s2.2.2
    (by
      intro c hc
      exact hading _ (Or.inr (Or.inr (Or.inr (Or.inr (Or.inr (Or.inl
        (List.mem_map_of_mem _ hc))))))))
    (by
      intro i hi
      rw [harr1rows, List.mem_filter] at hi
      exact Or.inl (hading _ (Or.inr (Or.inr (Or.inr (Or.inr (Or.inl
        (by rw [hTrows]; exact hi.1))))))))
    (by
      intro i hio hine
      rw [harr1rows, List.mem_filter]
      refine ⟨by rw [hTrows] at hio; exact hio, by simpa using hine⟩)
    (by intro j hj; simp [rowIdList] at hj)
    (by simpa [rowIdList] using hrows)
    (by
      intro p hp
      rw [h22] at hp
      rw [h23]
      exact map2 p hp)
  rw [← hr3] at nd3
  have h31 : s3.1 = set_kanban_list s2.1 "candidates" (rows ++ r3.1) := by rw [hs3]
  have hkl3cols : kanban_list? s3.1 "columns" = some (cols ++ r1.1) := by
    rw [h31, kanban_list?_set_kanban_ne _ _ _ _ (by decide)]
    exact hkl2cols
  have hkl3cards : kanban_list? s3.1 "cards" = some (cards ++ r2.1) := by
    rw [h31, kanban_list?_set_kanban_ne _ _ _ _ (by decide)]
    exact hkl2cards
  have hkl3rows : kanban_list? s3.1 "candidates" = some (rows ++ r3.1) := by
    rw [h31, h21, h11, hE]
    refine kanban_list?_set_kanban_self _ "candidates" _
      (setVal (setVal ks "columns" (.arr (cols ++ r1.1))) "cards"
        (.arr (cards ++ r2.1))) ?_
    exact getVal_updateObjVal_obj _ _ _ _ (getVal_updateObjVal_obj _ _ _ _ hks)
  have hjtd3 : jget s3.1 "todos" = some (.arr todosT) := by
    rw [h31, jget_set_kanban_ne _ _ _ _ (by decide)]
    exact hjtd2
  -- weekly phase
  set db4 := merge_weekly s3.1 (((jget I "weekly").bind Json.asObj).getD [])
    with hdb4
  have hkl4cols : kanban_list? db4 "columns" = some (cols ++ r1.1) := by
    rw [hdb4, kanban_list?_congr _ s3.1 _ (jget_merge_weekly_ne _ _ _ (by decide))]
    exact hkl3cols
  have hkl4cards : kanban_list? db4 "cards" = some (cards ++ r2.1) := by
    rw [hdb4, kanban_list?_congr _ s3.1 _ (jget_merge_weekly_ne _ _ _ (by decide))]
    exact hkl3cards
  have hkl4rows : kanban_list? db4 "candidates" = some (rows ++ r3.1) := by
    rw [hdb4, kanban_list?_congr _ s3.1 _ (jget_merge_weekly_ne _ _ _ (by decide))]
    exact hkl3rows
  have hjtd4 : jget db4 "todos" = some (.arr todosT) := by
    rw [hdb4, jget_merge_weekly_ne _ _ _ (by decide)]
    exact hjtd3
  have htodoIds4 : todoIdsOf db4 = todosT.map fun t => value_ref_string (jget t "id") := by
    rw [todoIdsOf, hjtd4]
    rfl
  -- todo phase
  set r5 := merge_todos_go fresh (((jget I "todos").bind Json.asArr).getD []) []
    ((todoIdsOf db4).filter (· ≠ "")) s3.2 with hr5
  set s5 := merge_phase_todos fresh I db4 s3.2 with hs5def
  have hs5 : s5 = (setTop db4 "todos" (.arr (todosT ++ r5.1)), r5.2.2) := by
    rw [hs5def, hr5]
    unfold merge_phase_todos
    rw [hjtd4]
    rfl
  have nd5 := merge_todos_go_spec fresh (mergeIdUniverse target incoming) hinj havoid
    (((jget I "todos").bind Json.asArr).getD []) []
    ((todoIdsOf db4).filter (· ≠ "")) (todoIdsOf T) s3.2
    (by
      intro c hc
      refine hading _ (Or.inr (Or.inr (Or.inr (Or.inr (Or.inr (Or.inr (Or.inr ?_)))))))
      rw [todoIdsOf]
      exact List.mem_map_of_mem _ hc)
    (by
      intro i hi
      rw [htodoIds4, ← hTtodos, List.mem_filter] at hi
      exact Or.inl (hading _ (Or.inr (Or.inr (Or.inr (Or.inr (Or.inr (Or.inr
        (Or.inl hi.1))))))))
    )
    (by
      intro i hio hine
      rw [htodoIds4, ← hTtodos, List.mem_filter]
      exact ⟨hio, by simpa using hine⟩)
    (by intro j hj; simp [colIdList] at hj)
    (by simpa [colIdList] using htodos)
  rw [← hr5] at nd5
  have h51 : s5.1 = setTop db4 "todos" (.arr (todosT ++ r5.1)) := by rw [hs5]
  have hdb4obj : ∃ f4, db4 = .obj f4 := by
    rw [hdb4, h31, h21, h11, hE]
    exact ⟨_, rfl⟩
  obtain ⟨f4, hf4⟩ := hdb4obj
  have hjtd5 : jget s5.1 "todos" = some (.arr (todosT ++ r5.1)) := by
    rw [h51, hf4]
    exact jget_setTop_self _ _ _
  have hkl5cols : kanban_list? s5.1 "columns" = some (cols ++ r1.1) := by
    rw [h51, kanban_list?_congr _ db4 _ (jget_setTop_ne _ _ _ _ (by decide))]
    exact hkl4cols
  have hkl5cards : kanban_list? s5.1 "cards" = some (cards ++ r2.1) := by
    rw [h51, kanban_list?_congr _ db4 _ (jget_setTop_ne _ _ _ _ (by decide))]
    exact hkl4cards
  have hkl5rows : kanban_list? s5.1 "candidates" = some (rows ++ r3.1) := by
    rw [h51, kanban_list?_congr _ db4 _ (jget_setTop_ne _ _ _ _ (by decide))]
    exact hkl4rows
  -- uniform phase (frame only)
  have hkl6cols : kanban_list? (merge_uniforms_go fresh
      (((jget I "uniforms").bind Json.asArr).getD []) s5.1 s5.2).1 "columns" =
      some (cols ++ r1.1) := by
    rw [kanban_list?_congr _ s5.1 _ (jget_merge_uniforms_ne _ _ _ (by decide) _ _)]
    exact hkl5cols
  have hkl6cards : kanban_list? (merge_uniforms_go fresh
      (((jget I "uniforms").bind Json.asArr).getD []) s5.1 s5.2).1 "cards" =
      some (cards ++ r2.1) := by
    rw [kanban_list?_congr _ s5.1 _ (jget_merge_uniforms_ne _ _ _ (by decide) _ _)]
    exact hkl5cards
  have hkl6rows : kanban_list? (merge_uniforms_go fresh
      (((jget I "uniforms").bind Json.asArr).getD []) s5.1 s5.2).1 "candidates" =
      some (rows ++ r3.1) := by
    rw [kanban_list?_congr _ s5.1 _ (jget_merge_uniforms_ne _ _ _ (by decide) _ _)]
    exact hkl5rows
  have hjtd6 : jget (merge_uniforms_go fresh
      (((jget I "uniforms").bind Json.asArr).getD []) s5.1 s5.2).1 "todos" =
      some (.arr (todosT ++ r5.1)) := by
    rw [jget_merge_uniforms_ne _ _ _ (by decide) _ _]
    exact hjtd5
  refine ⟨?_, ?_, ?_, ?_⟩
  · rw [colIdsOf, kanban_arr_eq, hkl6cols]
    rw [hTcols] at nd1
    simpa [colIdList] using nd1
  · rw [cardIdsOf, kanban_arr_eq, hkl6cards]
    rw [hTcards] at nd2
    simpa [cardIdList] using nd2
  · rw [rowIdsOf, kanban_arr_eq, hkl6rows]
    rw [hTrows] at nd3
    simpa [rowIdList] using nd3
  · rw [todoIdsOf, hjtd6]
    rw [hTtodos] at nd5
    simpa [colIdList, Json.asArr] using nd5

theorem c2w_fresh_ne (k : Nat) (s : String) (h : s.data.head? ≠ some 'f') :
    c2w_fresh k ≠ s := by
  intro he
  apply h
  rw [← he]
  simp [c2w_fresh, List.replicate_succ]

theorem c2w_fresh_inj (k l : Nat) (h : c2w_fresh k = c2w_fresh l) : k = l := by
  have hlen := congrArg (fun s => s.data.length) h
  simp [c2w_fresh] at hlen
  omega

theorem c2w_avoid (k : Nat) :
    c2w_fresh k ∉ mergeIdUniverse c2w_db c2w_db ∧ c2w_fresh k ≠ "" := by
  constructor
  · have huniv : mergeIdUniverse c2w_db c2w_db =
        ["c1", "c1", "k1", "k1", "k1", "k1", "t1", "t1"] := rfl
    rw [huniv]
    intro hmem
    simp only [List.mem_cons, List.not_mem_nil, or_false] at hmem
    rcases hmem with h | h | h | h | h | h | h | h <;>
      exact absurd h (c2w_fresh_ne k _ (by decide))
  · exact c2w_fresh_ne k "" (by decide)

/-- Witness for C2: merging the sample document into an exact copy of
itself keeps all four id collections duplicate-free. -/
theorem merge_id_safety_witness :
    (colIdsOf (merge_databases c2w_fresh "NOW" c2w_db c2w_db)).Nodup ∧
    (cardIdsOf (merge_databases c2w_fresh "NOW" c2w_db c2w_db)).Nodup ∧
    (rowIdsOf (merge_databases c2w_fresh "NOW" c2w_db c2w_db)).Nodup ∧
    (todoIdsOf (merge_databases c2w_fresh "NOW" c2w_db c2w_db)).Nodup :=
  merge_id_safety c2w_fresh "NOW" c2w_db c2w_db c2w_fresh_inj c2w_avoid
    (by decide) (by decide) (by decide) (by decide)

/-! ### C5 – merge never overwrites weekly data -/

theorem weekly_entry_elim (db : Json) (wk day : String) (p : Json)
    (h : weekly_entry db wk day = some p) :
    ∃ fields ws we es, db = .obj fields ∧
      getVal fields "weekly" = some (.obj ws) ∧
      getVal ws wk = some (.obj we) ∧
      getVal we "entries" = some (.obj es) ∧
      getVal es day = some p := by
  unfold weekly_entry at h
  cases db with
  | obj fields =>
    rw [jget_obj_getVal] at h
    cases hw : getVal fields "weekly" with
    | none => rw [hw] at h; exact absurd h (by simp)
    | some w =>
      rw [hw] at h
      simp only [Option.some_bind] at h
      cases w with
      | obj ws =>
        rw [jget_obj_getVal] at h
        cases hwk : getVal ws wk with
        | none => rw [hwk] at h; exact absurd h (by simp)
        | some we0 =>
          rw [hwk] at h
          simp only [Option.some_bind] at h
          cases we0 with
          | obj we =>
            rw [jget_obj_getVal] at h
            cases hes : getVal we "entries" with
            | none => rw [hes] at h; exact absurd h (by simp)
            | some es0 =>
              rw [hes] at h
              simp only [Option.some_bind] at h
              cases es0 with
              | obj es =>
                rw [jget_obj_getVal] at h
                exact ⟨fields, ws, we, es, rfl, hw, hwk, hes, h⟩
              | null => exact absurd h (by simp [jget])
              | bool b => exact absurd h (by simp [jget])
              | num n => exact absurd h (by simp [jget])
              | str s => exact absurd h (by simp [jget])
              | arr xs => exact absurd h (by simp [jget])
          | null => exact absurd h (by simp [jget])
          | bool b => exact absurd h (by simp [jget])
          | num n => exact absurd h (by simp [jget])
          | str s => exact absurd h (by simp [jget])
          | arr xs => exact absurd h (by simp [jget])
      | null => exact absurd h (by simp [jget])
      | bool b => exact absurd h (by simp [jget])
      | num n => exact absurd h (by simp [jget])
      | str s => exact absurd h (by simp [jget])
      | arr xs => exact absurd h (by simp [jget])
  | null => exact absurd h (by simp [jget])
  | bool b => exact absurd h (by simp [jget])
  | num n => exact absurd h (by simp [jget])
  | str s => exact absurd h (by simp [jget])
  | arr xs => exact absurd h (by simp [jget])

theorem weekly_entry_intro (fields ws we es : List (String × Json))
    (wk day : String) (p : Json)
    (h1 : getVal fields "weekly" = some (.obj ws))
    (h2 : getVal ws wk = some (.obj we))
    (h3 : getVal we "entries" = some (.obj es))
    (h4 : getVal es day = some p) :
    weekly_entry (.obj fields) wk day = some p := by
  unfold weekly_entry
  rw [jget_obj_getVal, h1]
  simp only [Option.some_bind, jget_obj_getVal]
  rw [h2]
  simp only [Option.some_bind, jget_obj_getVal]
  rw [h3]
  simp only [Option.some_bind, jget_obj_getVal]
  exact h4

theorem weekly_entry_congr (db db' : Json) (wk day : String)
    (h : jget db "weekly" = jget db' "weekly") :
    weekly_entry db wk day = weekly_entry db' wk day := by
  unfold weekly_entry
  rw [h]

theorem ensure_weekly_preserved (fields : List (String × Json))
    (ws : List (String × Json)) (h : getVal fields "weekly" = some (.obj ws)) :
    getVal (ensure_db_fields fields) "weekly" = some (.obj ws) := by
  unfold ensure_db_fields
  have h4 : getVal (ensureStep (updateObjVal (ensureStep (ensureStep fields
      "version" Json.isNum (.num DB_VERSION)) "kanban" Json.isObj default_kanban)
      "kanban" ensure_kanban_fields) "uniforms" Json.isArr (.arr [])) "weekly" =
      some (.obj ws) := by
    rw [getVal_ensureStep_ne _ _ _ _ _ (by decide),
      getVal_updateObjVal_ne _ _ _ _ (by decide),
      getVal_ensureStep_ne _ _ _ _ _ (by decide),
      getVal_ensureStep_ne _ _ _ _ _ (by decide)]
    exact h
  rw [getVal_updateObjVal_ne _ _ _ _ (by decide),
    getVal_ensureStep_ne _ _ _ _ _ (by decide),
    getVal_ensureStep_ne _ _ _ _ _ (by decide),
    ensureStep_id _ _ _ _ (by rw [h4]; rfl)]
  exact h4

theorem ensure_preserves_weekly_entry (v : Json) (wk day : String) (p : Json)
    (h : weekly_entry v wk day = some p) :
    weekly_entry (ensure_db_shape_value v) wk day = some p := by
  obtain ⟨fields, ws, we, es, rfl, h1, h2, h3, h4⟩ := weekly_entry_elim v wk day p h
  show weekly_entry (.obj (ensure_db_fields fields)) wk day = some p
  exact weekly_entry_intro _ _ _ _ _ _ _
    (ensure_weekly_preserved fields ws h1) h2 h3 h4

theorem fill_fold_preserves (src : List (String × Json)) (es : List (String × Json))
    (day : String) (p : Json) (h : getVal es day = some p) :
    getVal (src.foldl (fun te dp =>
      if (getVal te dp.1).isSome then te else setVal te dp.1 dp.2) es) day = some p := by
  induction src generalizing es with
  | nil => exact h
  | cons dp rest ih =>
    simp only [List.foldl_cons]
    by_cases hs : (getVal es dp.1).isSome
    · rw [if_pos hs]
      exact ih es h
    · rw [if_neg hs]
      have hne : day ≠ dp.1 := by
        intro hd
        rw [← hd, h] at hs
        exact hs rfl
      exact ih _ (by rw [getVal_setVal_ne _ _ _ _ hne]; exact h)

theorem merge_week_fill_preserves (week : Json) (we es : List (String × Json))
    (day : String) (p : Json)
    (h3 : getVal we "entries" = some (.obj es))
    (h4 : getVal es day = some p) :
    ∃ es', getVal (merge_week_fill week we) "entries" = some (.obj es') ∧
      getVal es' day = some p := by
  have hkeep : ensure_entries_obj we = we := by
    unfold ensure_entries_obj
    rw [if_pos (by rw [h3]; rfl)]
  unfold merge_week_fill
  cases hsrc : (jget week "entries").bind Json.asObj with
  | none =>
    rw [hkeep]
    exact ⟨es, h3, h4⟩
  | some se =>
    rw [hkeep]
    refine ⟨_, getVal_updateObjVal_obj we "entries" _ es h3, ?_⟩
    exact fill_fold_preserves se es day p h4

theorem merge_week_into_preserves (tw : List (String × Json)) (week : Json)
    (wk day : String) (we es : List (String × Json)) (p : Json)
    (h2 : getVal tw wk = some (.obj we))
    (h3 : getVal we "entries" = some (.obj es))
    (h4 : getVal es day = some p) :
    ∃ we' es', getVal (merge_week_into tw week) wk = some (.obj we') ∧
      getVal we' "entries" = some (.obj es') ∧ getVal es' day = some p := by
  unfold merge_week_into
  by_cases hws : value_ref_string (jget week "week_start") = ""
  · rw [if_pos hws]
    exact ⟨we, es, h2, h3, h4⟩
  · rw [if_neg hws]
    by_cases heq : value_ref_string (jget week "week_start") = wk
    · rw [heq]
      have hoi : or_insert_week tw wk (value_ref_string (jget week "week_end")) = tw := by
        unfold or_insert_week
        rw [if_pos (by rw [h2]; rfl)]
      rw [hoi]
      obtain ⟨es', hB, hC⟩ := merge_week_fill_preserves week we es day p h3 h4
      exact ⟨_, es', getVal_updateObjVal_obj tw wk _ we h2, hB, hC⟩
    · have hne : wk ≠ value_ref_string (jget week "week_start") :=
        fun hd => heq hd.symm
      rw [getVal_updateObjVal_ne _ _ _ _ hne]
      have hoi : getVal (or_insert_week tw (value_ref_string (jget week "week_start"))
          (value_ref_string (jget week "week_end"))) wk = getVal tw wk := by
        unfold or_insert_week
        by_cases hp : (getVal tw (value_ref_string (jget week "week_start"))).isSome
        · rw [if_pos hp]
        · rw [if_neg hp, getVal_setVal_ne _ _ _ _ hne]
      rw [hoi]
      exact ⟨we, es, h2, h3, h4⟩

theorem merge_weeks_fold_preserves (weeks : List (String × Json))
    (tw : List (String × Json)) (wk day : String) (we es : List (String × Json))
    (p : Json) (h2 : getVal tw wk = some (.obj we))
    (h3 : getVal we "entries" = some (.obj es))
    (h4 : getVal es day = some p) :
    ∃ we' es', getVal (weeks.foldl (fun tw wp => merge_week_into tw wp.2) tw) wk =
      some (.obj we') ∧ getVal we' "entries" = some (.obj es') ∧
      getVal es' day = some p := by
  induction weeks generalizing tw we es with
  | nil => exact ⟨we, es, h2, h3, h4⟩
  | cons wp rest ih =>
    simp only [List.foldl_cons]
    obtain ⟨we', es', hA, hB, hC⟩ :=
      merge_week_into_preserves tw wp.2 wk day we es p h2 h3 h4
    exact ih _ _ _ hA hB hC

theorem merge_weekly_preserves (db : Json) (weeks : List (String × Json))
    (wk day : String) (p : Json) (h : weekly_entry db wk day = some p) :
    weekly_entry (merge_weekly db weeks) wk day = some p := by
  obtain ⟨f, ws, we, es, rfl, h1, h2, h3, h4⟩ := weekly_entry_elim db wk day p h
  show weekly_entry (.obj (updateObjVal f "weekly" _)) wk day = some p
  obtain ⟨we', es', hA, hB, hC⟩ :=
    merge_weeks_fold_preserves weeks ws wk day we es p h2 h3 h4
  exact weekly_entry_intro _ _ _ _ _ _ _
    (getVal_updateObjVal_obj f "weekly" _ ws h1) hA hB hC

theorem jget_phase_columns_ne (fresh : Nat → String) (now : String) (t i : Json)
    (top : String) (h : top ≠ "kanban") :
    jget (merge_phase_columns fresh now t i).1 top = jget t top := by
  unfold merge_phase_columns
  cases hm : kanban_list? t "columns" with
  | some cols => exact jget_set_kanban_ne _ _ _ _ h
  | none => rfl

theorem jget_phase_cards_ne (fresh : Nat → String) (now : String) (i db1 : Json)
    (existingCols : List String) (cmap : List (String × String)) (n1 : Nat)
    (top : String) (h : top ≠ "kanban") :
    jget (merge_phase_cards fresh now i db1 existingCols cmap n1).1 top =
      jget db1 top := by
  unfold merge_phase_cards
  cases hm : kanban_list? db1 "cards" with
  | some cards => exact jget_set_kanban_ne _ _ _ _ h
  | none => rfl

theorem jget_phase_rows_ne (fresh : Nat → String) (i db2 : Json)
    (rowIds0 : List String) (cardMap : List (String × String)) (n2 : Nat)
    (top : String) (h : top ≠ "kanban") :
    jget (merge_phase_rows fresh i db2 rowIds0 cardMap n2).1 top = jget db2 top := by
  unfold merge_phase_rows
  cases hm : kanban_list? db2 "candidates" with
  | some rows => exact jget_set_kanban_ne _ _ _ _ h
  | none => rfl

theorem jget_phase_todos_ne (fresh : Nat → String) (i db4 : Json) (n3 : Nat)
    (top : String) (h : top ≠ "todos") :
    jget (merge_phase_todos fresh i db4 n3).1 top = jget db4 top := by
  unfold merge_phase_todos
  cases hm : (jget db4 "todos").bind Json.asArr with
  | some todos => exact jget_setTop_ne _ _ _ _ h
  | none => rfl

/-- C5: if the target document already stores a payload for a week/day, the
merged document still stores exactly that payload — an incoming entry for
the same week/day never overwrites it. -/
theorem merge_weekly_no_overwrite (fresh : Nat → String) (now : String)
    (target incoming : Json) (wk day : String) (p q : Json)
    (htgt : weekly_entry target wk day = some p)
    (hinc : weekly_entry incoming wk day = some q) :
    weekly_entry (merge_databases fresh now target incoming) wk day = some p := by
  simp only [merge_databases]
  rw [weekly_entry_congr _ _ _ _ (jget_merge_uniforms_ne _ _ _ (by decide) _ _)]
  rw [weekly_entry_congr _ _ _ _ (jget_phase_todos_ne _ _ _ _ _ (by decide))]
  apply merge_weekly_preserves
  rw [weekly_entry_congr _ _ _ _ (jget_phase_rows_ne _ _ _ _ _ _ _ (by decide))]
  rw [weekly_entry_congr _ _ _ _ (jget_phase_cards_ne _ _ _ _ _ _ _ _ (by decide))]
  rw [weekly_entry_congr _ _ _ _ (jget_phase_columns_ne _ _ _ _ _ (by decide))]
  exact ensure_preserves_weekly_entry target wk day p htgt

/-- Witness for C5: both sample documents carry a Monday entry for the same
week; the merge keeps the target's payload. -/
theorem merge_weekly_no_overwrite_witness :
    weekly_entry (merge_databases c2w_fresh "NOW" c2w_db c5w_incoming)
      "2024-01-01" "Monday" = some (.obj [("content", .str "orig")]) :=
  merge_weekly_no_overwrite c2w_fresh "NOW" c2w_db c5w_incoming
    "2024-01-01" "Monday" (.obj [("content", .str "orig")])
    (.obj [("content", .str "foreign")]) rfl rfl

/-! ### C3 / C9 – inventory deduction -/

theorem uniformsOf_setTop (db : Json) (us : List Json) (uniforms : List Json)
    (h : getArr db "uniforms" = some uniforms) :
    uniformsOf (setTop db "uniforms" (.arr us)) = us := by
  cases db with
  | obj fields =>
    simp [uniformsOf, setTop, getArr, jget, getVal_setVal_self, Json.asArr]
  | null => simp [getArr, jget] at h
  | bool b => simp [getArr, jget] at h
  | num n => simp [getArr, jget] at h
  | str s => simp [getArr, jget] at h
  | arr xs => simp [getArr, jget] at h

theorem decrement_in_list_spec (entries : List Json) (key : String) (q : Int) :
    0 ≤ (decrement_in_list entries key q).2 ∧
    (decrement_in_list entries key q).2 ≤ max q 0 ∧
    ∀ e ∈ (decrement_in_list entries key q).1, e ∈ entries ∨ 0 < adjQty e := by
  induction entries with
  | nil => simp [decrement_in_list]
  | cons entry rest ih =>
    by_cases hk : uniform_key_from_entry entry = key
    · by_cases ha : max (value_i64 (jget entry "quantity")) 0 ≤ 0
      · simp only [decrement_in_list, if_pos hk, if_pos ha]
        exact ⟨le_refl 0, le_max_right q 0, fun e he => Or.inl he⟩
      · simp only [decrement_in_list, if_pos hk, if_neg ha]
        by_cases hz : value_i64 (jget (decrementedEntry entry
            (max (value_i64 (jget entry "quantity")) 0)
            (min (max (value_i64 (jget entry "quantity")) 0) (max q 0)))
            "quantity") ≤ 0
        · simp only [if_pos hz]
          refine ⟨le_min (le_max_right _ _) (le_max_right _ _), min_le_right _ _, ?_⟩
          exact fun e he => Or.inl (List.mem_cons_of_mem _ he)
        · simp only [if_neg hz]
          refine ⟨le_min (le_max_right _ _) (le_max_right _ _), min_le_right _ _, ?_⟩
          intro e he
          rcases List.mem_cons.mp he with rfl | he2
          · exact Or.inr (not_le.mp hz)
          · exact Or.inl (List.mem_cons_of_mem _ he2)
    · obtain ⟨ih0, ihle, ihmem⟩ := ih
      cases hdec : decrement_in_list rest key q with
      | mk rest2 d =>
        rw [hdec] at ih0 ihle ihmem
        simp only [decrement_in_list, if_neg hk, hdec]
        refine ⟨ih0, ihle, ?_⟩
        intro e he
        rcases List.mem_cons.mp he with rfl | he2
        · exact Or.inl (List.mem_cons_self _ _)
        · rcases ihmem e he2 with h | h
          · exact Or.inl (List.mem_cons_of_mem _ h)
          · exact Or.inr h

theorem decrement_uniform_stock_spec (db : Json) (p : UniformPayload) :
    0 ≤ (decrement_uniform_stock db p).2 ∧
    (decrement_uniform_stock db p).2 ≤ max p.quantity 0 ∧
    ∀ e ∈ uniformsOf (decrement_uniform_stock db p).1,
      e ∈ uniformsOf db ∨ 0 < adjQty e := by
  unfold decrement_uniform_stock
  cases hg : getArr db "uniforms" with
  | none =>
    exact ⟨le_refl 0, le_max_right _ _, fun e he => Or.inl he⟩
  | some uniforms =>
    obtain ⟨h0, hle, hmem⟩ :=
      decrement_in_list_spec uniforms (uniform_key_from_payload p) p.quantity
    cases hdec : decrement_in_list uniforms (uniform_key_from_payload p) p.quantity with
    | mk us d =>
      rw [hdec] at h0 hle hmem
      simp only [hdec]
      refine ⟨h0, hle, ?_⟩
      intro e he
      rw [uniformsOf_setTop db us uniforms hg] at he
      have huof : uniformsOf db = uniforms := by simp [uniformsOf, hg]
      rcases hmem e he with h | h
      · exact Or.inl (huof ▸ h)
      · exact Or.inr h

theorem append_adjust_list_total (entries : List Json) (key : String) (q : Int) :
    ∀ updated, append_adjust_list entries key q = some updated →
      totalQty updated ≤ totalQty entries + max q 0 := by
  induction entries with
  | nil => intro updated h; simp [append_adjust_list] at h
  | cons entry rest ih =>
    intro updated h
    by_cases hk : uniform_key_from_entry entry = key
    · cases entry with
      | obj obj =>
        simp only [append_adjust_list, if_pos hk, Option.some_inj] at h
        subst h
        have hbump : adjQty (Json.obj (setVal obj "quantity"
            (.num (value_i64 (getVal obj "quantity") + q)))) =
            value_i64 (getVal obj "quantity") + q := by
          simp [adjQty, jget, getVal_setVal_self, value_i64]
        have hold : adjQty (Json.obj obj) = value_i64 (getVal obj "quantity") := rfl
        simp only [totalQty, List.map_cons, List.sum_cons] at *
        rw [hbump, hold]
        have : q ≤ max q 0 := le_max_left q 0
        omega
      | null =>
        simp only [append_adjust_list, if_pos hk, Option.some_inj] at h
        subst h
        have : (0 : Int) ≤ max q 0 := le_max_right q 0
        omega
      | bool b =>
        simp only [append_adjust_list, if_pos hk, Option.some_inj] at h
        subst h
        have : (0 : Int) ≤ max q 0 := le_max_right q 0
        omega
      | num n =>
        simp only [append_adjust_list, if_pos hk, Option.some_inj] at h
        subst h
        have : (0 : Int) ≤ max q 0 := le_max_right q 0
        omega
      | str s =>
        simp only [append_adjust_list, if_pos hk, Option.some_inj] at h
        subst h
        have : (0 : Int) ≤ max q 0 := le_max_right q 0
        omega
      | arr xs =>
        simp only [append_adjust_list, if_pos hk, Option.some_inj] at h
        subst h
        have : (0 : Int) ≤ max q 0 := le_max_right q 0
        omega
    · simp only [append_adjust_list, if_neg hk, Option.map_eq_some'] at h
      obtain ⟨u2, hu2, rfl⟩ := h
      have := ih u2 hu2
      simp only [totalQty, List.map_cons, List.sum_cons] at *
      omega

theorem totalQty_append_uniform_adjustment (adjustments : List Json)
    (p : UniformPayload) (q : Int) :
    totalQty (append_uniform_adjustment adjustments p q) ≤
      totalQty adjustments + max q 0 := by
  unfold append_uniform_adjustment
  by_cases hq : q ≤ 0
  · simp only [if_pos hq]
    have : (0 : Int) ≤ max q 0 := le_max_right q 0
    omega
  · simp only [if_neg hq]
    cases h : append_adjust_list adjustments (uniform_key_from_payload p) q with
    | some updated => exact append_adjust_list_total _ _ _ _ h
    | none =>
      have hrow : adjQty (Json.obj [("alteration", .str p.alteration),
          ("type", .str p.kind), ("size", .str p.size),
          ("quantity", .num q), ("branch", .str p.branch)]) = q := by
        simp [adjQty, jget, getVal, value_i64]
      simp only [totalQty, List.map_append, List.sum_append, List.map_cons,
        List.sum_cons, List.map_nil, List.sum_nil]
      rw [show adjQty (Json.obj [("alteration", .str p.alteration),
          ("type", .str p.kind), ("size", .str p.size),
          ("quantity", .num q), ("branch", .str p.branch)]) = q from hrow]
      have : q ≤ max q 0 := le_max_left q 0
      omega

theorem deduct_loop_spec (kind size branch : String) (targets : List String) :
    ∀ (fuel : Nat) (db : Json) (remaining : Int) (misses idx : Nat)
      (adjustments : List Json),
      totalQty (deduct_loop kind size branch targets fuel db remaining misses idx
        adjustments).2 ≤ totalQty adjustments + max remaining 0 ∧
      ∀ e ∈ uniformsOf (deduct_loop kind size branch targets fuel db remaining misses
        idx adjustments).1, e ∈ uniformsOf db ∨ 0 < adjQty e := by
  intro fuel
  induction fuel with
  | zero =>
    intro db remaining misses idx adjustments
    simp only [deduct_loop]
    refine ⟨?_, fun e he => Or.inl he⟩
    have : (0 : Int) ≤ max remaining 0 := le_max_right remaining 0
    omega
  | succ fuel ih =>
    intro db remaining misses idx adjustments
    by_cases hguard : 0 < remaining ∧ misses < targets.length
    · simp only [deduct_loop, if_pos hguard]
      obtain ⟨hd0, hdle, hdmem⟩ := decrement_uniform_stock_spec db
        ⟨targets.getD (idx % targets.length) "", kind, size, "", "", 1, branch⟩
      by_cases hdpos : 0 < (decrement_uniform_stock db
          ⟨targets.getD (idx % targets.length) "", kind, size, "", "", 1, branch⟩).2
      · simp only [if_pos hdpos]
        obtain ⟨iht, ihm⟩ := ih _ _ _ _ _
        refine ⟨?_, ?_⟩
        · refine le_trans iht ?_
          have happ := totalQty_append_uniform_adjustment adjustments
            ⟨targets.getD (idx % targets.length) "", kind, size, "", "", 1, branch⟩
            (decrement_uniform_stock db
              ⟨targets.getD (idx % targets.length) "", kind, size, "", "", 1, branch⟩).2
          simp only at hdle
          omega
        · intro e he
          rcases ihm e he with h | h
          · rcases hdmem e h with h2 | h2
            · exact Or.inl h2
            · exact Or.inr h2
          · exact Or.inr h
      · simp only [if_neg hdpos]
        obtain ⟨iht, ihm⟩ := ih _ _ _ _ _
        refine ⟨iht, ?_⟩
        intro e he
        rcases ihm e he with h | h
        · rcases hdmem e h with h2 | h2
          · exact Or.inl h2
          · exact Or.inr h2
        · exact Or.inr h
    · simp only [deduct_loop, if_neg hguard]
      refine ⟨?_, fun e he => Or.inl he⟩
      have : (0 : Int) ≤ max remaining 0 := le_max_right remaining 0
      omega

/-- C3: for every stock state with nonnegative quantities and every
nonnegative requested quantity, `deduct_uniforms_across_alterations` deducts
a total of at most the requested quantity, leaves no stock entry negative,
and any entry left at quantity 0 was already present (untouched) in the
input — an entry whose quantity reaches 0 through deduction is removed. -/
theorem deduct_bounds (db : Json) (kind size : String) (quantity : Int)
    (branch : String) (alterations : List String)
    (hq : 0 ≤ quantity)
    (hstock : ∀ e ∈ uniformsOf db, 0 ≤ adjQty e) :
    totalQty (deduct_uniforms_across_alterations db kind size quantity branch
      alterations).2 ≤ quantity ∧
    (∀ e ∈ uniformsOf (deduct_uniforms_across_alterations db kind size quantity
      branch alterations).1, 0 ≤ adjQty e) ∧
    (∀ e ∈ uniformsOf (deduct_uniforms_across_alterations db kind size quantity
      branch alterations).1, adjQty e = 0 → e ∈ uniformsOf db) := by
  have hnq : parse_issued_quantity_int quantity ≤ quantity := by
    unfold parse_issued_quantity_int
    split <;> omega
  simp only [deduct_uniforms_across_alterations]
  by_cases hcond : normalize_uniform_type kind = "" ∨ clamp_string size 40 true = "" ∨
      clamp_string branch 40 true = "" ∨ parse_issued_quantity_int quantity ≤ 0
  · simp only [if_pos hcond]
    refine ⟨by simpa [totalQty] using hq, fun e he => hstock e he, fun e he _ => he⟩
  · simp only [if_neg hcond]
    have hnqpos : 0 < parse_issued_quantity_int quantity := by
      push_neg at hcond
      omega
    by_cases hlen : (if (alterations.map fun value => clamp_string value 80 true).filter
        (· ≠ "") = [] then [""] else (alterations.map fun value =>
        clamp_string value 80 true).filter (· ≠ "")).length = 1
    · simp only [if_pos hlen]
      obtain ⟨hd0, hdle, hdmem⟩ := decrement_uniform_stock_spec db
        ⟨(if (alterations.map fun value => clamp_string value 80 true).filter
            (· ≠ "") = [] then [""] else (alterations.map fun value =>
            clamp_string value 80 true).filter (· ≠ "")).headD "",
          normalize_uniform_type kind, clamp_string size 40 true, "", "",
          parse_issued_quantity_int quantity, clamp_string branch 40 true⟩
      refine ⟨?_, ?_, ?_⟩
      · have happ := totalQty_append_uniform_adjustment []
          ⟨(if (alterations.map fun value => clamp_string value 80 true).filter
              (· ≠ "") = [] then [""] else (alterations.map fun value =>
              clamp_string value 80 true).filter (· ≠ "")).headD "",
            normalize_uniform_type kind, clamp_string size 40 true, "", "",
            parse_issued_quantity_int quantity, clamp_string branch 40 true⟩
          (decrement_uniform_stock db
            ⟨(if (alterations.map fun value => clamp_string value 80 true).filter
                (· ≠ "") = [] then [""] else (alterations.map fun value =>
                clamp_string value 80 true).filter (· ≠ "")).headD "",
              normalize_uniform_type kind, clamp_string size 40 true, "", "",
              parse_issued_quantity_int quantity, clamp_string branch 40 true⟩).2
        simp only [show totalQty ([] : List Json) = 0 from rfl] at happ
        simp only at hdle
        omega
      · intro e he
        rcases hdmem e he with h | h
        · exact hstock e h
        · omega
      · intro e he hz
        rcases hdmem e he with h | h
        · exact h
        · omega
    · simp only [if_neg hlen]
      obtain ⟨ht, hm⟩ := deduct_loop_spec (normalize_uniform_type kind)
        (clamp_string size 40 true) (clamp_string branch 40 true)
        (if (alterations.map fun value => clamp_string value 80 true).filter
          (· ≠ "") = [] then [""] else (alterations.map fun value =>
          clamp_string value 80 true).filter (· ≠ ""))
        ((parse_issued_quantity_int quantity).toNat *
          ((if (alterations.map fun value => clamp_string value 80 true).filter
            (· ≠ "") = [] then [""] else (alterations.map fun value =>
            clamp_string value 80 true).filter (· ≠ "")).length + 1) +
          (if (alterations.map fun value => clamp_string value 80 true).filter
            (· ≠ "") = [] then [""] else (alterations.map fun value =>
            clamp_string value 80 true).filter (· ≠ "")).length + 1)
        db (parse_issued_quantity_int quantity) 0 0 []
      refine ⟨?_, ?_, ?_⟩
      · simp only [show totalQty ([] : List Json) = 0 from rfl] at ht
        omega
      · intro e he
        rcases hm e he with h | h
        · exact hstock e h
        · omega
      · intro e he hz
        rcases hm e he with h | h
        · exact h
        · omega

/-- Witness for C3 at a concrete stock state and request. -/
theorem deduct_bounds_witness :
    totalQty (deduct_uniforms_across_alterations c3w_db "Pants" "30x30" 2 "North"
      ["hemmed"]).2 ≤ 2 ∧
    (∀ e ∈ uniformsOf (deduct_uniforms_across_alterations c3w_db "Pants" "30x30" 2
      "North" ["hemmed"]).1, 0 ≤ adjQty e) ∧
    (∀ e ∈ uniformsOf (deduct_uniforms_across_alterations c3w_db "Pants" "30x30" 2
      "North" ["hemmed"]).1, adjQty e = 0 → e ∈ uniformsOf c3w_db) :=
  deduct_bounds c3w_db "Pants" "30x30" 2 "North" ["hemmed"] (by decide)
    (by
      intro e he
      have he2 : e = c3w_row := by
        simpa [uniformsOf, getArr, c3w_db, jget, getVal, Json.asArr] using he
      subst he2
      decide)

/-- C9: with one unit of stock for each of `alt1` and `alt2` under the
(B, Pants, 32x34) key and a request for 3 units split across `[alt1, alt2]`,
the round-robin deduction removes one unit from each row (draining the
stock), stops after a full missing rotation, and reports exactly the
adjustments `[{alt1, 1}, {alt2, 1}]` — 2 units in total. -/
theorem deduct_partial_fulfillment :
    deduct_uniforms_across_alterations c9_db "Pants" "32x34" 3 "B" ["alt1", "alt2"] =
      (.obj [("uniforms", .arr [])],
       [.obj [("alteration", .str "alt1"), ("type", .str "Pants"),
              ("size", .str "32x34"), ("quantity", .num 1), ("branch", .str "B")],
        .obj [("alteration", .str "alt2"), ("type", .str "Pants"),
              ("size", .str "32x34"), ("quantity", .num 1), ("branch", .str "B")]]) ∧
    totalQty (deduct_uniforms_across_alterations c9_db "Pants" "32x34" 3 "B"
      ["alt1", "alt2"]).2 = 2 :=
  ⟨rfl, rfl⟩

theorem measure_step_lt {t t' L m fuel : Nat} (ht : t' < t)
    (h : t * (L + 1) + (L - m) < fuel + 1) :
    t' * (L + 1) + L < fuel := by
  have h3 : t' * (L + 1) + L + 1 ≤ t * (L + 1) := by
    calc t' * (L + 1) + L + 1 = (t' + 1) * (L + 1) := by ring
    _ ≤ t * (L + 1) := Nat.mul_le_mul_right (L + 1) ht
  generalize hA : t' * (L + 1) = A at h3 ⊢
  generalize hB : t * (L + 1) = B at h3 h
  omega

/-- The fuel passed to `deduct_loop` is irrelevant as soon as it exceeds the
loop's termination measure, so the fueled embedding computes exactly the Rust
`while` loop (which always runs to guard failure). -/
theorem deduct_loop_fuel_stable (kind size branch : String) (targets : List String) :
    ∀ (fuel fuel' : Nat) (db : Json) (remaining : Int) (misses idx : Nat)
      (adjustments : List Json),
      remaining.toNat * (targets.length + 1) + (targets.length - misses) < fuel →
      remaining.toNat * (targets.length + 1) + (targets.length - misses) < fuel' →
      deduct_loop kind size branch targets fuel db remaining misses idx adjustments =
        deduct_loop kind size branch targets fuel' db remaining misses idx adjustments := by
  intro fuel
  induction fuel with
  | zero =>
    intro fuel' db r m i a h h'
    exact absurd h (Nat.not_lt_zero _)
  | succ fuel ih =>
    intro fuel' db r m i a h h'
    cases fuel' with
    | zero => exact absurd h' (Nat.not_lt_zero _)
    | succ fuel' =>
      simp only [deduct_loop]
      by_cases hguard : 0 < r ∧ m < targets.length
      · simp only [if_pos hguard]
        obtain ⟨hd0, hdle, _⟩ := decrement_uniform_stock_spec db
          ⟨targets.getD (i % targets.length) "", kind, size, "", "", 1, branch⟩
        by_cases hdpos : 0 < (decrement_uniform_stock db
            ⟨targets.getD (i % targets.length) "", kind, size, "", "", 1, branch⟩).2
        · simp only [if_pos hdpos]
          apply ih
          · apply measure_step_lt _ h
            omega
          · apply measure_step_lt _ h'
            omega
        · simp only [if_neg hdpos]
          apply ih
          · have := hguard.2
            generalize hB : r.toNat * (targets.length + 1) = B at h ⊢
            omega
          · have := hguard.2
            generalize hB : r.toNat * (targets.length + 1) = B at h' ⊢
            omega
      · simp only [if_neg hguard]

/-! ### C6 – the undo/redo ledger (support lemmas and claim) -/

theorem setVal_self_eq (l : List (String × Json)) (key : String) (v : Json)
    (h : getVal l key = some v) : setVal l key v = l := by
  induction l with
  | nil => simp [getVal] at h
  | cons head rest ih =>
    obtain ⟨k, w⟩ := head
    by_cases hk : k = key
    · subst hk
      simp only [getVal, if_pos rfl] at h
      cases h
      simp [setVal]
    · simp only [getVal, if_neg hk] at h
      simp [setVal, hk, ih h]

theorem recycle_items?_congr (db db' : Json)
    (h : jget db' "recycle" = jget db "recycle") :
    recycle_items? db' = recycle_items? db := by
  unfold recycle_items?
  rw [h]

theorem redo_items?_congr (db db' : Json)
    (h : jget db' "recycle" = jget db "recycle") :
    redo_items? db' = redo_items? db := by
  unfold redo_items?
  rw [h]

theorem jget_set_recycle_ne (db : Json) (key top : String) (l : List Json)
    (h : top ≠ "recycle") :
    jget (set_recycle_list db key l) top = jget db top := by
  cases db with
  | obj fields => simp [set_recycle_list, jget, getVal_updateObjVal_ne _ _ _ _ h]
  | null => rfl
  | bool b => rfl
  | num n => rfl
  | str s => rfl
  | arr xs => rfl

theorem recycle_items?_set_recycle_ne (db : Json) (key : String) (l : List Json)
    (h : key ≠ "items") :
    recycle_items? (set_recycle_list db key l) = recycle_items? db := by
  cases db with
  | obj fields =>
    show recycle_items?
      (.obj (updateObjVal fields "recycle" fun rs => setVal rs key (.arr l))) = _
    cases hk : getVal fields "recycle" with
    | none => rw [updateObjVal_eq_of_not_obj _ _ _ (by simp [hk])]
    | some v =>
      cases v with
      | obj rs =>
        have h2 := getVal_updateObjVal_obj fields "recycle"
          (fun rs => setVal rs key (.arr l)) rs hk
        unfold recycle_items?
        rw [jget_obj_getVal, jget_obj_getVal, h2, hk]
        simp [jget_obj_getVal, getVal_setVal_ne _ _ _ _ (Ne.symm h)]
      | null => rw [updateObjVal_eq_of_not_obj _ _ _ (by simp [hk])]
      | bool b => rw [updateObjVal_eq_of_not_obj _ _ _ (by simp [hk])]
      | num n => rw [updateObjVal_eq_of_not_obj _ _ _ (by simp [hk])]
      | str s => rw [updateObjVal_eq_of_not_obj _ _ _ (by simp [hk])]
      | arr xs => rw [updateObjVal_eq_of_not_obj _ _ _ (by simp [hk])]
  | null => rfl
  | bool b => rfl
  | num n => rfl
  | str s => rfl
  | arr xs => rfl

theorem redo_items?_set_recycle_ne (db : Json) (key : String) (l : List Json)
    (h : key ≠ "redo") :
    redo_items? (set_recycle_list db key l) = redo_items? db := by
  cases db with
  | obj fields =>
    show redo_items?
      (.obj (updateObjVal fields "recycle" fun rs => setVal rs key (.arr l))) = _
    cases hk : getVal fields "recycle" with
    | none => rw [updateObjVal_eq_of_not_obj _ _ _ (by simp [hk])]
    | some v =>
      cases v with
      | obj rs =>
        have h2 := getVal_updateObjVal_obj fields "recycle"
          (fun rs => setVal rs key (.arr l)) rs hk
        unfold redo_items?
        rw [jget_obj_getVal, jget_obj_getVal, h2, hk]
        simp [jget_obj_getVal, getVal_setVal_ne _ _ _ _ (Ne.symm h)]
      | null => rw [updateObjVal_eq_of_not_obj _ _ _ (by simp [hk])]
      | bool b => rw [updateObjVal_eq_of_not_obj _ _ _ (by simp [hk])]
      | num n => rw [updateObjVal_eq_of_not_obj _ _ _ (by simp [hk])]
      | str s => rw [updateObjVal_eq_of_not_obj _ _ _ (by simp [hk])]
      | arr xs => rw [updateObjVal_eq_of_not_obj _ _ _ (by simp [hk])]
  | null => rfl
  | bool b => rfl
  | num n => rfl
  | str s => rfl
  | arr xs => rfl

theorem recycle_items?_some_obj (db : Json) (items : List Json)
    (h : recycle_items? db = some items) :
    ∃ fields rs, db = .obj fields ∧ getVal fields "recycle" = some (.obj rs) ∧
      getVal rs "items" = some (.arr items) := by
  cases db with
  | obj fields =>
    cases hr : getVal fields "recycle" with
    | none => simp [recycle_items?, jget, hr] at h
    | some r =>
      cases r with
      | obj rs =>
        cases hi : getVal rs "items" with
        | none => simp [recycle_items?, jget, hr, hi] at h
        | some iv =>
          cases iv with
          | arr xs =>
            refine ⟨fields, rs, rfl, hr, ?_⟩
            simp only [recycle_items?, jget, hr, hi, Option.bind, Json.asArr] at h
            cases h
            exact hi
          | null => simp [recycle_items?, jget, hr, hi, Json.asArr] at h
          | bool b => simp [recycle_items?, jget, hr, hi, Json.asArr] at h
          | num n => simp [recycle_items?, jget, hr, hi, Json.asArr] at h
          | str s => simp [recycle_items?, jget, hr, hi, Json.asArr] at h
          | obj o => simp [recycle_items?, jget, hr, hi, Json.asArr] at h
      | null => simp [recycle_items?, jget, hr] at h
      | bool b => simp [recycle_items?, jget, hr] at h
      | num n => simp [recycle_items?, jget, hr] at h
      | str s => simp [recycle_items?, jget, hr] at h
      | arr xs => simp [recycle_items?, jget, hr] at h
  | null => simp [recycle_items?, jget] at h
  | bool b => simp [recycle_items?, jget] at h
  | num n => simp [recycle_items?, jget] at h
  | str s => simp [recycle_items?, jget] at h
  | arr xs => simp [recycle_items?, jget] at h

theorem redo_items?_some_obj (db : Json) (redo : List Json)
    (h : redo_items? db = some redo) :
    ∃ fields rs, db = .obj fields ∧ getVal fields "recycle" = some (.obj rs) ∧
      getVal rs "redo" = some (.arr redo) := by
  cases db with
  | obj fields =>
    cases hr : getVal fields "recycle" with
    | none => simp [redo_items?, jget, hr] at h
    | some r =>
      cases r with
      | obj rs =>
        cases hi : getVal rs "redo" with
        | none => simp [redo_items?, jget, hr, hi] at h
        | some iv =>
          cases iv with
          | arr xs =>
            refine ⟨fields, rs, rfl, hr, ?_⟩
            simp only [redo_items?, jget, hr, hi, Option.bind, Json.asArr] at h
            cases h
            exact hi
          | null => simp [redo_items?, jget, hr, hi, Json.asArr] at h
          | bool b => simp [redo_items?, jget, hr, hi, Json.asArr] at h
          | num n => simp [redo_items?, jget, hr, hi, Json.asArr] at h
          | str s => simp [redo_items?, jget, hr, hi, Json.asArr] at h
          | obj o => simp [redo_items?, jget, hr, hi, Json.asArr] at h
      | null => simp [redo_items?, jget, hr] at h
      | bool b => simp [redo_items?, jget, hr] at h
      | num n => simp [redo_items?, jget, hr] at h
      | str s => simp [redo_items?, jget, hr] at h
      | arr xs => simp [redo_items?, jget, hr] at h
  | null => simp [redo_items?, jget] at h
  | bool b => simp [redo_items?, jget] at h
  | num n => simp [redo_items?, jget] at h
  | str s => simp [redo_items?, jget] at h
  | arr xs => simp [redo_items?, jget] at h

theorem recycle_items?_set_items (db : Json) (items l : List Json)
    (h : recycle_items? db = some items) :
    recycle_items? (set_recycle_list db "items" l) = some l := by
  obtain ⟨fields, rs, hdb, hr, _⟩ := recycle_items?_some_obj db items h
  subst hdb
  show recycle_items?
    (.obj (updateObjVal fields "recycle" fun rs => setVal rs "items" (.arr l))) = _
  have h2 := getVal_updateObjVal_obj fields "recycle"
    (fun rs => setVal rs "items" (.arr l)) rs hr
  unfold recycle_items?
  rw [jget_obj_getVal, h2]
  simp [jget_obj_getVal, getVal_setVal_self, Json.asArr]

theorem pop_from_list_none (items : List Json) (id : String)
    (h : id ∉ items.map fun i => value_ref_string (jget i "id")) :
    pop_from_list items id = none := by
  induction items with
  | nil => rfl
  | cons item rest ih =>
    simp only [List.map_cons, List.mem_cons] at h
    push_neg at h
    rw [pop_from_list, if_neg (fun he => h.1 he.symm), ih h.2]
    rfl

theorem pop_from_list_not_mem (items : List Json) (id : String) (item : Json)
    (rest : List Json)
    (hpop : pop_from_list items id = some (item, rest))
    (hnd : (items.map fun i => value_ref_string (jget i "id")).Nodup) :
    id ∉ rest.map fun i => value_ref_string (jget i "id") := by
  induction items generalizing item rest with
  | nil => simp [pop_from_list] at hpop
  | cons hd tl ih =>
    rw [pop_from_list] at hpop
    simp only [List.map_cons, List.nodup_cons] at hnd
    by_cases hh : value_ref_string (jget hd "id") = id
    · rw [if_pos hh] at hpop
      simp only [Option.some.injEq, Prod.mk.injEq] at hpop
      rw [← hpop.2]
      exact hh ▸ hnd.1
    · rw [if_neg hh] at hpop
      cases hp : pop_from_list tl id with
      | none => rw [hp] at hpop; simp at hpop
      | some p =>
        obtain ⟨pi, pr⟩ := p
        rw [hp] at hpop
        simp only [Option.map_some', Option.some.injEq, Prod.mk.injEq] at hpop
        rw [← hpop.2]
        simp only [List.map_cons, List.mem_cons]
        push_neg
        exact ⟨fun he => hh he.symm, ih pi pr hp hnd.2⟩

theorem pop_recycle_item_some (db : Json) (id : String) (p : Json × Json)
    (h : pop_recycle_item db id = some p) :
    ∃ items rest, recycle_items? db = some items ∧
      pop_from_list items id = some (p.1, rest) ∧
      p.2 = set_recycle_list db "items" rest := by
  unfold pop_recycle_item at h
  cases hri : recycle_items? db with
  | none => rw [hri] at h; simp at h
  | some items =>
    rw [hri] at h
    dsimp only [] at h
    cases hpl : pop_from_list items id with
    | none => rw [hpl] at h; simp at h
    | some q =>
      obtain ⟨qi, qr⟩ := q
      rw [hpl] at h
      simp only [Option.map_some', Option.some.injEq] at h
      refine ⟨items, qr, rfl, ?_, ?_⟩
      · rw [hpl, ← h]
      · rw [← h]

theorem pop_redo_item_some (db : Json) (id : String) (p : Json × Json)
    (h : pop_redo_item db id = some p) :
    ∃ redo rest, redo_items? db = some redo ∧
      pop_from_list redo id = some (p.1, rest) ∧
      p.2 = set_recycle_list db "redo" rest := by
  unfold pop_redo_item at h
  cases hri : redo_items? db with
  | none => rw [hri] at h; simp at h
  | some redo =>
    rw [hri] at h
    dsimp only [] at h
    cases hpl : pop_from_list redo id with
    | none => rw [hpl] at h; simp at h
    | some q =>
      obtain ⟨qi, qr⟩ := q
      rw [hpl] at h
      simp only [Option.map_some', Option.some.injEq] at h
      refine ⟨redo, qr, rfl, ?_, ?_⟩
      · rw [hpl, ← h]
      · rw [← h]

theorem recycle_items?_push_redo (db payload : Json) (fid now : String) :
    recycle_items? ((push_redo_item db payload fid now).1) = recycle_items? db := by
  cases h : redo_items? db with
  | none => simp only [push_redo_item, h]
  | some redo =>
    simp only [push_redo_item, h]
    exact recycle_items?_set_recycle_ne _ _ _ (by decide)

theorem redo_items?_push_recycle (db payload : Json) (fid now : String) :
    redo_items? ((push_recycle_item db payload fid now).1) = redo_items? db := by
  cases h : recycle_items? db with
  | none => simp only [push_recycle_item, h]
  | some items =>
    simp only [push_recycle_item, h]
    exact redo_items?_set_recycle_ne _ _ _ (by decide)

theorem jget_decrement_ne (db : Json) (p : UniformPayload) (top : String)
    (h : top ≠ "uniforms") :
    jget ((decrement_uniform_stock db p).1) top = jget db top := by
  unfold decrement_uniform_stock
  cases hg : getArr db "uniforms" with
  | none => rfl
  | some uniforms =>
    cases hd : decrement_in_list uniforms (uniform_key_from_payload p) p.quantity with
    | mk us deducted => simp [hd, jget_setTop_ne _ _ _ _ h]

theorem jget_restore_adjustments_ne (fresh : Nat → String) (entries : List Json)
    (top : String) (h : top ≠ "uniforms") :
    ∀ (db : Json) (n : Nat),
      jget ((restore_adjustments fresh entries db n).1) top = jget db top := by
  induction entries with
  | nil => intro db n; rfl
  | cons entry rest ih =>
    intro db n
    by_cases hq : 0 < (normalize_uniform_payload entry).quantity
    · simp only [restore_adjustments, if_pos hq]
      rw [ih _ _, jget_upsert_ne _ _ _ _ h]
    · simp only [restore_adjustments, if_neg hq]
      exact ih db n

theorem jget_reapply_adjustments_ne (entries : List Json) (top : String)
    (h : top ≠ "uniforms") :
    ∀ db, jget (reapply_adjustments entries db) top = jget db top := by
  induction entries with
  | nil => intro db; rfl
  | cons entry rest ih =>
    intro db
    have hstep : reapply_adjustments (entry :: rest) db = reapply_adjustments rest
        (if 0 < (normalize_uniform_payload entry).quantity then
          (decrement_uniform_stock db (normalize_uniform_payload entry)).1
        else db) := rfl
    rw [hstep, ih]
    by_cases hq : 0 < (normalize_uniform_payload entry).quantity
    · rw [if_pos hq, jget_decrement_ne _ _ _ h]
    · rw [if_neg hq]

theorem jget_restore_into_kanban (db : Json) (key keyName : String)
    (snap : List Json) (top : String) (h : top ≠ "kanban") :
    jget (restore_into_kanban db key keyName snap) top = jget db top := by
  unfold restore_into_kanban
  cases hc : kanban_list? db key with
  | none => rfl
  | some cur => exact jget_set_kanban_ne _ _ _ _ h

theorem jget_restore_into_top (db : Json) (key keyName : String)
    (snap : List Json) (top : String) (h : top ≠ key) :
    jget (restore_into_top db key keyName snap) top = jget db top := by
  unfold restore_into_top
  cases hc : (jget db key).bind Json.asArr with
  | none => rfl
  | some cur => exact jget_setTop_ne _ _ _ _ h

theorem jget_restore_columns_cards (db : Json) (snap : List Json)
    (top : String) (h : top ≠ "kanban") :
    jget (restore_columns_cards db snap) top = jget db top := by
  unfold restore_columns_cards
  cases hc : kanban_list? db "cards" with
  | none => rfl
  | some cur => exact jget_set_kanban_ne _ _ _ _ h

theorem jget_restore_weekly (db : Json) (entries : List Json) (top : String)
    (h : top ≠ "weekly") :
    jget (restore_weekly_entries db entries) top = jget db top := by
  cases db with
  | obj fields =>
    simp [restore_weekly_entries, jget, getVal_updateObjVal_ne _ _ _ _ h]
  | null => rfl
  | bool b => rfl
  | num n => rfl
  | str s => rfl
  | arr xs => rfl

theorem jget_retain_kanban (db : Json) (key keyName : String)
    (ids : List String) (top : String) (h : top ≠ "kanban") :
    jget (retain_kanban db key keyName ids) top = jget db top := by
  unfold retain_kanban
  cases hc : kanban_list? db key with
  | none => rfl
  | some cur => exact jget_set_kanban_ne _ _ _ _ h

theorem jget_retain_top (db : Json) (key keyName : String)
    (ids : List String) (top : String) (h : top ≠ key) :
    jget (retain_top db key keyName ids) top = jget db top := by
  unfold retain_top
  cases hc : (jget db key).bind Json.asArr with
  | none => rfl
  | some cur => exact jget_setTop_ne _ _ _ _ h

theorem jget_reapply_weekly (db : Json) (entries : List Json) (top : String)
    (h : top ≠ "weekly") :
    jget (reapply_weekly_entries db entries) top = jget db top := by
  cases db with
  | obj fields =>
    simp [reapply_weekly_entries, jget, getVal_updateObjVal_ne _ _ _ _ h]
  | null => rfl
  | bool b => rfl
  | num n => rfl
  | str s => rfl
  | arr xs => rfl

theorem jget_reassign_step (db db2 : Json) (ids : List String)
    (target now top : String) (hrs : reassign_step db ids target now = some db2)
    (h : top ≠ "kanban") : jget db2 top = jget db top := by
  unfold reassign_step at hrs
  cases hc : kanban_list? db "cards" with
  | none => rw [hc] at hrs; cases hrs
  | some cards2 =>
    rw [hc] at hrs
    simp only [Option.some.injEq] at hrs
    rw [← hrs]
    exact jget_set_kanban_ne _ _ _ _ h

theorem record_undo_step_false (db : Json) (rc rcards : List Json)
    (fid now : String) :
    record_undo_step db false rc rcards fid now = (db, none) := by
  simp [record_undo_step]

theorem jget_remove_cols_false (db : Json) (ids : List String)
    (fid now top : String) (h : top ≠ "kanban") :
    jget ((remove_kanban_columns db ids false fid now).1) top = jget db top := by
  unfold remove_kanban_columns
  cases hc : kanban_list? db "columns" with
  | none => rfl
  | some columns =>
    cases hca : kanban_list? db "cards" with
    | none => rfl
    | some cards =>
      dsimp only []
      by_cases hlast : (columns.filter fun col =>
            decide (value_ref_string (jget col "id") ∉ ids)).isEmpty ∧
          ¬(cards.filter fun card =>
            decide (value_ref_string (jget card "column_id") ∈ ids)).isEmpty
      · rw [if_pos hlast]
      · rw [if_neg hlast]
        by_cases hre : ¬(columns.filter fun col =>
              decide (value_ref_string (jget col "id") ∉ ids)).isEmpty ∧
            ¬(cards.filter fun card =>
              decide (value_ref_string (jget card "column_id") ∈ ids)).isEmpty
        · rw [if_pos hre]
          by_cases htid : target_column_id (columns.filter fun col =>
              decide (value_ref_string (jget col "id") ∉ ids)) = ""
          · rw [if_pos htid]
            show jget ((remove_columns_tail db ids false _ _ fid now).1) top = _
            unfold remove_columns_tail
            rw [record_undo_step_false]
            exact jget_retain_kanban _ _ _ _ _ h
          · rw [if_neg htid]
            cases hrs : reassign_step db ids (target_column_id
                (columns.filter fun col =>
                  decide (value_ref_string (jget col "id") ∉ ids))) now with
            | none => rfl
            | some db2 =>
              show jget ((remove_columns_tail db2 ids false _ _ fid now).1) top = _
              unfold remove_columns_tail
              rw [record_undo_step_false]
              rw [jget_retain_kanban _ _ _ _ _ h]
              exact jget_reassign_step _ _ _ _ _ _ hrs h
        · rw [if_neg hre]
          show jget ((remove_columns_tail db ids false _ _ fid now).1) top = _
          unfold remove_columns_tail
          rw [record_undo_step_false]
          exact jget_retain_kanban _ _ _ _ _ h

theorem jget_restore_ne (fresh : Nat → String) (db item : Json) (n : Nat)
    (top : String) (hk : top ≠ "kanban") (hw : top ≠ "weekly")
    (ht : top ≠ "todos") (hu : top ≠ "uniforms") :
    jget ((restore_recycle_item fresh db item n).1) top = jget db top := by
  unfold restore_recycle_item
  split
  · rw [jget_restore_adjustments_ne _ _ _ hu,
      jget_restore_into_kanban _ _ _ _ _ hk, jget_restore_into_kanban _ _ _ _ _ hk]
  · rw [jget_restore_columns_cards _ _ _ hk, jget_restore_into_kanban _ _ _ _ _ hk]
  · exact jget_restore_into_kanban _ _ _ _ _ hk
  · exact jget_restore_weekly _ _ _ hw
  · exact jget_restore_into_top _ _ _ _ _ ht
  · exact jget_restore_into_top _ _ _ _ _ hu
  · rfl

theorem jget_reapply_ne (db item : Json) (now top : String)
    (hk : top ≠ "kanban") (hw : top ≠ "weekly")
    (ht : top ≠ "todos") (hu : top ≠ "uniforms") :
    jget ((reapply_recycle_item db item now).1) top = jget db top := by
  unfold reapply_recycle_item
  split
  · rw [jget_reapply_adjustments_ne _ _ hu,
      jget_retain_kanban _ _ _ _ _ hk, jget_retain_kanban _ _ _ _ _ hk]
  · by_cases hid : (idsFrom (snapList item "columns") "id").isEmpty
    · rw [if_pos hid]
    · rw [if_neg hid]
      exact jget_remove_cols_false _ _ _ _ _ hk
  · exact jget_retain_kanban _ _ _ _ _ hk
  · exact jget_reapply_weekly _ _ _ hw
  · exact jget_retain_top _ _ _ _ _ ht
  · exact jget_retain_top _ _ _ _ _ hu
  · rfl

theorem redo_items?_set_redo (db : Json) (redo l : List Json)
    (h : redo_items? db = some redo) :
    redo_items? (set_recycle_list db "redo" l) = some l := by
  obtain ⟨fields, rs, hdb, hr, _⟩ := redo_items?_some_obj db redo h
  subst hdb
  show redo_items?
    (.obj (updateObjVal fields "recycle" fun rs => setVal rs "redo" (.arr l))) = _
  have h2 := getVal_updateObjVal_obj fields "recycle"
    (fun rs => setVal rs "redo" (.arr l)) rs hr
  unfold redo_items?
  rw [jget_obj_getVal, h2]
  simp [jget_obj_getVal, getVal_setVal_self, Json.asArr]

theorem db_recycle_undo_success (db : Json) (tok : String) (item db1 : Json)
    (fresh : Nat → String) (now : String) (n : Nat)
    (hclamp : clamp_string tok 128 true = tok) (hne : tok ≠ "")
    (hpop : pop_recycle_item db tok = some (item, db1))
    (hres : (restore_recycle_item fresh db1 item n).2.1 = true) :
    db_recycle_undo db tok fresh now n =
      ((push_redo_item (restore_recycle_item fresh db1 item n).1 item
        (fresh (restore_recycle_item fresh db1 item n).2.2) now).1,
       .obj [("ok", .bool true), ("redoId",
        (push_redo_item (restore_recycle_item fresh db1 item n).1 item
          (fresh (restore_recycle_item fresh db1 item n).2.2) now).2.elim
          .null .str)],
       (restore_recycle_item fresh db1 item n).2.2 + 1) := by
  unfold db_recycle_undo
  rw [hclamp, if_neg hne, hpop]
  dsimp only []
  rw [if_neg (by simp [hres])]

theorem db_recycle_undo_fail (db : Json) (tok : String) (fresh : Nat → String)
    (now : String) (n : Nat)
    (hclamp : clamp_string tok 128 true = tok) (hne : tok ≠ "")
    (hpop : pop_recycle_item db tok = none) :
    db_recycle_undo db tok fresh now n =
      (db, .obj [("ok", .bool false), ("error", .str "Nothing to undo.")], n) := by
  unfold db_recycle_undo
  rw [hclamp, if_neg hne, hpop]

theorem db_recycle_redo_success (db : Json) (tok : String) (item db1 : Json)
    (fresh : Nat → String) (now : String) (n : Nat)
    (hclamp : clamp_string tok 128 true = tok) (hne : tok ≠ "")
    (hpop : pop_redo_item db tok = some (item, db1))
    (hres : (reapply_recycle_item db1 item now).2 = true) :
    db_recycle_redo db tok fresh now n =
      ((push_recycle_item (reapply_recycle_item db1 item now).1 item
        (fresh n) now).1,
       .obj [("ok", .bool true), ("undoId",
        (push_recycle_item (reapply_recycle_item db1 item now).1 item
          (fresh n) now).2.elim .null .str)],
       n + 1) := by
  unfold db_recycle_redo
  rw [hclamp, if_neg hne, hpop]
  dsimp only []
  rw [if_neg (by simp [hres])]

theorem db_recycle_redo_fail (db : Json) (tok : String) (fresh : Nat → String)
    (now : String) (n : Nat)
    (hclamp : clamp_string tok 128 true = tok) (hne : tok ≠ "")
    (hpop : pop_redo_item db tok = none) :
    db_recycle_redo db tok fresh now n =
      (db, .obj [("ok", .bool false), ("error", .str "Nothing to redo.")], n) := by
  unfold db_recycle_redo
  rw [hclamp, if_neg hne, hpop]

/-- C6: Undo and redo tokens are single-use.  For any document whose ledger
token ids are unique, a clamp-stable nonempty token that matches a ledger
entry of a known type: the undo (resp. redo) call succeeds, the matching
entry is removed (the token no longer names any recycle (resp. redo) ledger
entry of the saved document), and a second call with the same token returns
the failed response "Nothing to undo." (resp. "Nothing to redo.") and
leaves the document untouched. -/
theorem undo_redo_tokens_single_use :
    (∀ (db item db1 : Json) (tok : String) (fresh : Nat → String)
      (now now2 : String) (n n2 : Nat),
      clamp_string tok 128 true = tok → tok ≠ "" →
      pop_recycle_item db tok = some (item, db1) →
      (recycleIdsOf db).Nodup →
      (restore_recycle_item fresh db1 item n).2.1 = true →
      jget ((db_recycle_undo db tok fresh now n).2.1) "ok" =
        some (.bool true) ∧
      tok ∉ recycleIdsOf (db_recycle_undo db tok fresh now n).1 ∧
      db_recycle_undo (db_recycle_undo db tok fresh now n).1 tok fresh now2 n2 =
        ((db_recycle_undo db tok fresh now n).1,
         .obj [("ok", .bool false), ("error", .str "Nothing to undo.")], n2)) ∧
    (∀ (db item db1 : Json) (tok : String) (fresh : Nat → String)
      (now now2 : String) (n n2 : Nat),
      clamp_string tok 128 true = tok → tok ≠ "" →
      pop_redo_item db tok = some (item, db1) →
      (redoIdsOf db).Nodup →
      (reapply_recycle_item db1 item now).2 = true →
      jget ((db_recycle_redo db tok fresh now n).2.1) "ok" =
        some (.bool true) ∧
      tok ∉ redoIdsOf (db_recycle_redo db tok fresh now n).1 ∧
      db_recycle_redo (db_recycle_redo db tok fresh now n).1 tok fresh now2 n2 =
        ((db_recycle_redo db tok fresh now n).1,
         .obj [("ok", .bool false), ("error", .str "Nothing to redo.")], n2)) := by
  constructor
  · intro db item db1 tok fresh now now2 n n2 hclamp hne hpop hnd hres
    obtain ⟨items, rest, hri, hpl, hdb1⟩ :=
      pop_recycle_item_some db tok (item, db1) hpop
    have hdb1items : recycle_items? db1 = some rest := by
      rw [show db1 = set_recycle_list db "items" rest from hdb1]
      exact recycle_items?_set_items db items rest hri
    have h1 := db_recycle_undo_success db tok item db1 fresh now n
      hclamp hne hpop hres
    have hfin : recycle_items? (db_recycle_undo db tok fresh now n).1 =
        some rest := by
      rw [h1]
      dsimp only []
      rw [recycle_items?_push_redo,
        recycle_items?_congr _ _ (jget_restore_ne fresh db1 item n "recycle"
          (by decide) (by decide) (by decide) (by decide))]
      exact hdb1items
    have hnotmem : tok ∉ rest.map fun i => value_ref_string (jget i "id") := by
      apply pop_from_list_not_mem items tok item rest hpl
      unfold recycleIdsOf at hnd
      rw [hri] at hnd
      simpa using hnd
    refine ⟨?_, ?_, ?_⟩
    · rw [h1]
      rfl
    · unfold recycleIdsOf
      rw [hfin]
      simpa using hnotmem
    · apply db_recycle_undo_fail _ _ _ _ _ hclamp hne
      unfold pop_recycle_item
      rw [hfin]
      dsimp only []
      rw [pop_from_list_none rest tok hnotmem]
      rfl
  · intro db item db1 tok fresh now now2 n n2 hclamp hne hpop hnd hres
    obtain ⟨redo, rest, hri, hpl, hdb1⟩ :=
      pop_redo_item_some db tok (item, db1) hpop
    have hdb1items : redo_items? db1 = some rest := by
      rw [show db1 = set_recycle_list db "redo" rest from hdb1]
      exact redo_items?_set_redo db redo rest hri
    have h1 := db_recycle_redo_success db tok item db1 fresh now n
      hclamp hne hpop hres
    have hfin : redo_items? (db_recycle_redo db tok fresh now n).1 =
        some rest := by
      rw [h1]
      dsimp only []
      rw [redo_items?_push_recycle,
        redo_items?_congr _ _ (jget_reapply_ne db1 item now "recycle"
          (by decide) (by decide) (by decide) (by decide))]
      exact hdb1items
    have hnotmem : tok ∉ rest.map fun i => value_ref_string (jget i "id") := by
      apply pop_from_list_not_mem redo tok item rest hpl
      unfold redoIdsOf at hnd
      rw [hri] at hnd
      simpa using hnd
    refine ⟨?_, ?_, ?_⟩
    · rw [h1]
      rfl
    · unfold redoIdsOf
      rw [hfin]
      simpa using hnotmem
    · apply db_recycle_redo_fail _ _ _ _ _ hclamp hne
      unfold pop_redo_item
      rw [hfin]
      dsimp only []
      rw [pop_from_list_none rest tok hnotmem]
      rfl

/-- Witness for C6: a concrete document with one recycle entry (token
`tok1`) and a concrete document with one redo entry (token `tok2`); both
halves of the theorem applied at them. -/
theorem undo_redo_tokens_single_use_witness :
    (clamp_string "tok1" 128 true = "tok1" ∧
     pop_recycle_item c6db "tok1" = some (c6item, c6db1) ∧
     (recycleIdsOf c6db).Nodup ∧
     (restore_recycle_item c2w_fresh c6db1 c6item 0).2.1 = true) ∧
    (jget ((db_recycle_undo c6db "tok1" c2w_fresh "NOW" 0).2.1) "ok" =
       some (.bool true) ∧
     "tok1" ∉ recycleIdsOf (db_recycle_undo c6db "tok1" c2w_fresh "NOW" 0).1 ∧
     db_recycle_undo (db_recycle_undo c6db "tok1" c2w_fresh "NOW" 0).1 "tok1"
        c2w_fresh "LATER" 5 =
       ((db_recycle_undo c6db "tok1" c2w_fresh "NOW" 0).1,
        .obj [("ok", .bool false), ("error", .str "Nothing to undo.")], 5)) ∧
    (jget ((db_recycle_redo c6rdb "tok2" c2w_fresh "NOW" 0).2.1) "ok" =
       some (.bool true) ∧
     "tok2" ∉ redoIdsOf (db_recycle_redo c6rdb "tok2" c2w_fresh "NOW" 0).1 ∧
     db_recycle_redo (db_recycle_redo c6rdb "tok2" c2w_fresh "NOW" 0).1 "tok2"
        c2w_fresh "LATER" 5 =
       ((db_recycle_redo c6rdb "tok2" c2w_fresh "NOW" 0).1,
        .obj [("ok", .bool false), ("error", .str "Nothing to redo.")], 5)) :=
  ⟨⟨rfl, rfl, by decide, rfl⟩,
   undo_redo_tokens_single_use.1 c6db c6item c6db1 "tok1" c2w_fresh "NOW"
     "LATER" 0 5 rfl (by decide) rfl (by decide) rfl,
   undo_redo_tokens_single_use.2 c6rdb c6item2 c6rdb1 "tok2" c2w_fresh "NOW"
     "LATER" 0 5 rfl (by decide) rfl (by decide) rfl⟩

/-! ### C7 – the type-specific restorers -/

theorem restore_append_id (keyName : String) (current snapshot : List Json)
    (h : ∀ e ∈ snapshot, value_ref_string (jget e keyName) = "" ∨
      value_ref_string (jget e keyName) ∈
        current.map fun c => value_ref_string (jget c keyName)) :
    restore_append keyName current snapshot = current := by
  unfold restore_append
  rw [List.filter_eq_nil_iff.2, List.append_nil]
  intro e he
  simp only [decide_eq_true_eq, not_not]
  exact h e he

theorem kanban_list?_some_obj (db : Json) (key : String) (l : List Json)
    (h : kanban_list? db key = some l) :
    ∃ fields ks, db = .obj fields ∧ getVal fields "kanban" = some (.obj ks) ∧
      getVal ks key = some (.arr l) := by
  cases db with
  | obj fields =>
    cases hr : getVal fields "kanban" with
    | none => simp [kanban_list?, jget, hr] at h
    | some r =>
      cases r with
      | obj ks =>
        cases hi : getVal ks key with
        | none => simp [kanban_list?, jget, hr, hi] at h
        | some iv =>
          cases iv with
          | arr xs =>
            refine ⟨fields, ks, rfl, hr, ?_⟩
            simp only [kanban_list?, jget, hr, hi, Option.bind, Json.asArr] at h
            cases h
            exact hi
          | null => simp [kanban_list?, jget, hr, hi, Json.asArr] at h
          | bool b => simp [kanban_list?, jget, hr, hi, Json.asArr] at h
          | num n => simp [kanban_list?, jget, hr, hi, Json.asArr] at h
          | str s => simp [kanban_list?, jget, hr, hi, Json.asArr] at h
          | obj o => simp [kanban_list?, jget, hr, hi, Json.asArr] at h
      | null => simp [kanban_list?, jget, hr] at h
      | bool b => simp [kanban_list?, jget, hr] at h
      | num n => simp [kanban_list?, jget, hr] at h
      | str s => simp [kanban_list?, jget, hr] at h
      | arr xs => simp [kanban_list?, jget, hr] at h
  | null => simp [kanban_list?, jget] at h
  | bool b => simp [kanban_list?, jget] at h
  | num n => simp [kanban_list?, jget] at h
  | str s => simp [kanban_list?, jget] at h
  | arr xs => simp [kanban_list?, jget] at h

theorem set_kanban_list_self (db : Json) (key : String) (l : List Json)
    (h : kanban_list? db key = some l) : set_kanban_list db key l = db := by
  obtain ⟨fields, ks, hdb, hr, hi⟩ := kanban_list?_some_obj db key l h
  subst hdb
  show Json.obj (updateObjVal fields "kanban" fun ks => setVal ks key (.arr l)) = _
  rw [updateObjVal_id]
  intro inner hinner
  rw [hr] at hinner
  cases hinner
  exact setVal_self_eq _ _ _ hi

theorem top_arr_some_obj (db : Json) (key : String) (l : List Json)
    (h : (jget db key).bind Json.asArr = some l) :
    ∃ fields, db = .obj fields ∧ getVal fields key = some (.arr l) := by
  cases db with
  | obj fields =>
    cases hi : getVal fields key with
    | none => simp [jget, hi] at h
    | some iv =>
      cases iv with
      | arr xs =>
        refine ⟨fields, rfl, ?_⟩
        simp only [jget, hi, Option.bind, Json.asArr] at h
        cases h
        exact hi
      | null => simp [jget, hi, Json.asArr] at h
      | bool b => simp [jget, hi, Json.asArr] at h
      | num n => simp [jget, hi, Json.asArr] at h
      | str s => simp [jget, hi, Json.asArr] at h
      | obj o => simp [jget, hi, Json.asArr] at h
  | null => simp [jget] at h
  | bool b => simp [jget] at h
  | num n => simp [jget] at h
  | str s => simp [jget] at h
  | arr xs => simp [jget] at h

theorem setTop_self (db : Json) (key : String) (l : List Json)
    (h : (jget db key).bind Json.asArr = some l) :
    setTop db key (.arr l) = db := by
  obtain ⟨fields, hdb, hi⟩ := top_arr_some_obj db key l h
  subst hdb
  show Json.obj (setVal fields key (.arr l)) = _
  rw [setVal_self_eq _ _ _ hi]

theorem restore_into_kanban_id (db : Json) (key keyName : String)
    (snapshot : List Json) (cur : List Json)
    (hcur : kanban_list? db key = some cur)
    (h : ∀ e ∈ snapshot, value_ref_string (jget e keyName) = "" ∨
      value_ref_string (jget e keyName) ∈
        cur.map fun c => value_ref_string (jget c keyName)) :
    restore_into_kanban db key keyName snapshot = db := by
  unfold restore_into_kanban
  rw [hcur]
  dsimp only []
  rw [restore_append_id _ _ _ h]
  exact set_kanban_list_self _ _ _ hcur

theorem restore_into_top_id (db : Json) (key keyName : String)
    (snapshot : List Json) (cur : List Json)
    (hcur : (jget db key).bind Json.asArr = some cur)
    (h : ∀ e ∈ snapshot, value_ref_string (jget e keyName) = "" ∨
      value_ref_string (jget e keyName) ∈
        cur.map fun c => value_ref_string (jget c keyName)) :
    restore_into_top db key keyName snapshot = db := by
  unfold restore_into_top
  rw [hcur]
  dsimp only []
  rw [restore_append_id _ _ _ h]
  exact setTop_self _ _ _ hcur

theorem restore_columns_cards_nil (db : Json) :
    restore_columns_cards db [] = db := by
  unfold restore_columns_cards
  cases hc : kanban_list? db "cards" with
  | none => rfl
  | some db_cards =>
    dsimp only []
    have hf : (db_cards.filter fun card =>
        decide (value_ref_string (jget card "uuid") ∉ snapCardIds [])) =
        db_cards := by
      apply List.filter_eq_self.2
      intro c _
      simp [snapCardIds]
    rw [List.filter_nil, hf, List.append_nil]
    exact set_kanban_list_self _ _ _ hc

/-- C7 (amended): for the keyed collections — cards, candidate rows,
columns, todos and uniform rows — the restorer appends only snapshot
entities whose nonempty key is absent, so when every snapshot key already
exists in the document (and, for `kanban_cards`, no stock adjustments are
recorded; for `kanban_columns`, the card snapshot is empty) the restore is
the identity: nothing is duplicated or modified.  The claim's full
statement is false: the `weekly_entries` restorer overwrites an existing
(week, day) payload, and the card half of the `kanban_columns` restorer
replaces existing cards (see the counterexample). -/
theorem restore_skips_existing_keys :
    (∀ (fresh : Nat → String) (db item : Json) (n : Nat) (todos : List Json),
      value_ref_string (jget item "type") = "todos" →
      (jget db "todos").bind Json.asArr = some todos →
      (∀ e ∈ snapList item "todos", value_ref_string (jget e "id") = "" ∨
        value_ref_string (jget e "id") ∈
          todos.map fun c => value_ref_string (jget c "id")) →
      (restore_recycle_item fresh db item n).1 = db) ∧
    (∀ (fresh : Nat → String) (db item : Json) (n : Nat) (uniforms : List Json),
      value_ref_string (jget item "type") = "uniform_rows" →
      (jget db "uniforms").bind Json.asArr = some uniforms →
      (∀ e ∈ snapList item "uniforms", value_ref_string (jget e "id") = "" ∨
        value_ref_string (jget e "id") ∈
          uniforms.map fun c => value_ref_string (jget c "id")) →
      (restore_recycle_item fresh db item n).1 = db) ∧
    (∀ (fresh : Nat → String) (db item : Json) (n : Nat) (rows : List Json),
      value_ref_string (jget item "type") = "candidate_rows" →
      kanban_list? db "candidates" = some rows →
      (∀ e ∈ snapList item "candidates",
        value_ref_string (jget e "candidate UUID") = "" ∨
        value_ref_string (jget e "candidate UUID") ∈
          rows.map fun c => value_ref_string (jget c "candidate UUID")) →
      (restore_recycle_item fresh db item n).1 = db) ∧
    (∀ (fresh : Nat → String) (db item : Json) (n : Nat)
      (cards rows : List Json),
      value_ref_string (jget item "type") = "kanban_cards" →
      kanban_list? db "cards" = some cards →
      kanban_list? db "candidates" = some rows →
      (∀ e ∈ snapList item "cards", value_ref_string (jget e "uuid") = "" ∨
        value_ref_string (jget e "uuid") ∈
          cards.map fun c => value_ref_string (jget c "uuid")) →
      (∀ e ∈ snapList item "candidates",
        value_ref_string (jget e "candidate UUID") = "" ∨
        value_ref_string (jget e "candidate UUID") ∈
          rows.map fun c => value_ref_string (jget c "candidate UUID")) →
      snapList item "uniformAdjustments" = [] →
      (restore_recycle_item fresh db item n).1 = db) ∧
    (∀ (fresh : Nat → String) (db item : Json) (n : Nat) (cols : List Json),
      value_ref_string (jget item "type") = "kanban_columns" →
      kanban_list? db "columns" = some cols →
      (∀ e ∈ snapList item "columns", value_ref_string (jget e "id") = "" ∨
        value_ref_string (jget e "id") ∈
          cols.map fun c => value_ref_string (jget c "id")) →
      snapList item "cards" = [] →
      (restore_recycle_item fresh db item n).1 = db) := by
  refine ⟨?_, ?_, ?_, ?_, ?_⟩
  · intro fresh db item n todos hty hcur h
    unfold restore_recycle_item
    rw [hty]
    exact restore_into_top_id db "todos" "id" _ todos hcur h
  · intro fresh db item n uniforms hty hcur h
    unfold restore_recycle_item
    rw [hty]
    exact restore_into_top_id db "uniforms" "id" _ uniforms hcur h
  · intro fresh db item n rows hty hcur h
    unfold restore_recycle_item
    rw [hty]
    exact restore_into_kanban_id db "candidates" "candidate UUID" _ rows hcur h
  · intro fresh db item n cards rows hty hcards hrows hc hr hadj
    unfold restore_recycle_item
    rw [hty]
    dsimp only []
    rw [restore_into_kanban_id db "cards" "uuid" _ cards hcards hc,
      restore_into_kanban_id db "candidates" "candidate UUID" _ rows hrows hr,
      hadj]
    rfl
  · intro fresh db item n cols hty hcols h hcards
    unfold restore_recycle_item
    rw [hty]
    dsimp only []
    rw [restore_into_kanban_id db "columns" "id" _ cols hcols h, hcards]
    exact restore_columns_cards_nil db

/-- C7 counterexample: against the claim "skipping any entity whose key
already exists … does not duplicate or modify existing entities", the
`weekly_entries` restorer overwrites the existing payload of week
2024-01-01, Monday. -/
theorem restore_overwrites_weekly :
    value_ref_string (jget c7witem "type") = "weekly_entries" ∧
    weekly_entry c7wdb "2024-01-01" "Monday" = some (.str "original") ∧
    weekly_entry ((restore_recycle_item c2w_fresh c7wdb c7witem 0).1)
      "2024-01-01" "Monday" = some (.str "overwritten") :=
  ⟨rfl, rfl, rfl⟩

/-- Witness for the amended C7: restoring a todo whose id `t1` is already
present leaves the concrete document exactly unchanged. -/
theorem restore_skips_existing_keys_witness :
    value_ref_string (jget c7item "type") = "todos" ∧
    (jget c7db "todos").bind Json.asArr =
      some [.obj [("id", .str "t1"), ("title", .str "live copy")]] ∧
    (restore_recycle_item c2w_fresh c7db c7item 0).1 = c7db :=
  ⟨rfl, rfl,
   restore_skips_existing_keys.1 c2w_fresh c7db c7item 0
     [.obj [("id", .str "t1"), ("title", .str "live copy")]] rfl rfl
     (by
       intro e he
       rw [show snapList c7item "todos" =
         [Json.obj [("id", .str "t1"), ("title", .str "stale copy")]] from rfl] at he
       rcases List.mem_singleton.1 he with rfl
       right
       decide)⟩

/-! ### C10 – candidate processing scrubs PII -/

theorem list_getD_set_self {α : Type} (l : List α) (i : Nat) (v d : α)
    (h : i < l.length) : (l.set i v).getD i d = v := by
  induction l generalizing i with
  | nil => simp at h
  | cons a t ih =>
    cases i with
    | zero => rfl
    | succ j =>
      simp only [List.set_cons_succ, List.getD_cons_succ]
      exact ih j (by simpa using h)

theorem list_getD_append_self {α : Type} (l : List α) (x d : α) :
    (l ++ [x]).getD l.length d = x := by
  induction l with
  | nil => rfl
  | cons a t ih => simpa [List.getD_cons_succ] using ih

theorem findIdx?_spec {α : Type} (p : α → Bool) (l : List α) (i : Nat)
    (h : l.findIdx? p = some i) :
    i < l.length ∧ ∀ d, p (l.getD i d) = true := by
  induction l generalizing i with
  | nil => simp [List.findIdx?] at h
  | cons a t ih =>
    rw [List.findIdx?_cons] at h
    by_cases hp : p a
    · rw [if_pos hp] at h
      simp only [Option.some.injEq] at h
      subst h
      exact ⟨by simp, fun d => hp⟩
    · rw [if_neg hp, List.findIdx?_succ] at h
      cases hf : t.findIdx? p with
      | none => rw [hf] at h; simp at h
      | some j =>
        rw [hf] at h
        simp only [Option.map_some', Option.some.injEq] at h
        subst h
        obtain ⟨hl, hd⟩ := ih j hf
        exact ⟨by simpa using hl, fun d => by
          simpa [List.getD_cons_succ] using hd d⟩

theorem vrs_obj (x : Json) (k s : String) (h : value_ref_string (jget x k) = s)
    (hne : s ≠ "") : ∃ o, x = .obj o := by
  cases x with
  | obj o => exact ⟨o, rfl⟩
  | null => exact absurd h.symm hne
  | bool b => exact absurd h.symm hne
  | num n => exact absurd h.symm hne
  | str t => exact absurd h.symm hne
  | arr xs => exact absurd h.symm hne

theorem getVal_fold_blank_stable (fields : List String)
    (acc : List (String × Json)) (key : String)
    (h : getVal acc key = some (.str "")) :
    getVal (fields.foldl (fun o f => setVal o f (.str "")) acc) key =
      some (.str "") := by
  induction fields generalizing acc with
  | nil => exact h
  | cons f rest ih =>
    apply ih
    by_cases hf : key = f
    · subst hf
      exact getVal_setVal_self acc key (.str "")
    · rw [getVal_setVal_ne _ _ _ _ hf]
      exact h

theorem getVal_fold_blank_mem (fields : List String)
    (acc : List (String × Json)) (key : String) (h : key ∈ fields) :
    getVal (fields.foldl (fun o f => setVal o f (.str "")) acc) key =
      some (.str "") := by
  induction fields generalizing acc with
  | nil => simp at h
  | cons f rest ih =>
    rcases List.mem_cons.1 h with rfl | hm
    · exact getVal_fold_blank_stable rest _ key (getVal_setVal_self acc key _)
    · exact ih (setVal acc f (.str "")) hm

theorem getVal_fold_blank_ne (fields : List String)
    (acc : List (String × Json)) (key : String) (h : key ∉ fields) :
    getVal (fields.foldl (fun o f => setVal o f (.str "")) acc) key =
      getVal acc key := by
  induction fields generalizing acc with
  | nil => rfl
  | cons f rest ih =>
    simp only [List.mem_cons] at h
    push_neg at h
    show getVal (rest.foldl _ (setVal acc f (.str ""))) key = _
    rw [ih _ h.2, getVal_setVal_ne _ _ _ _ h.1]

theorem getVal_scrub_pii_mem (row : List (String × Json)) (field : String)
    (h : field ∈ SENSITIVE_PII_FIELDS) :
    getVal (scrub_pii row) field = some (.str "") :=
  getVal_fold_blank_mem SENSITIVE_PII_FIELDS row field h

theorem getVal_scrub_pii_ne (row : List (String × Json)) (key : String)
    (h : key ∉ SENSITIVE_PII_FIELDS) :
    getVal (scrub_pii row) key = getVal row key :=
  getVal_fold_blank_ne SENSITIVE_PII_FIELDS row key h

theorem getVal_row_stamp_ne (row : List (String × Json)) (pre_card : Json)
    (b ta td th key : String)
    (h : key ∉ ["Candidate Name", "ICIMS ID", "Employee ID", "REQ ID",
      "Job ID Name", "Job Location", "Manager", "Branch", "Neo Arrival Time",
      "Neo Departure Time", "Total Neo Hours"]) :
    getVal (row_stamp row pre_card b ta td th) key = getVal row key := by
  simp only [List.mem_cons, List.not_mem_nil, or_false, not_or] at h
  obtain ⟨n1, n2, n3, n4, n5, n6, n7, n8, n9, n10, n11⟩ := h
  unfold row_stamp
  cases pre_card with
  | obj card =>
    rw [getVal_setVal_ne _ _ _ _ n11, getVal_setVal_ne _ _ _ _ n10,
      getVal_setVal_ne _ _ _ _ n9, getVal_setVal_ne _ _ _ _ n8,
      getVal_setVal_ne _ _ _ _ n7, getVal_setVal_ne _ _ _ _ n6,
      getVal_setVal_ne _ _ _ _ n5, getVal_setVal_ne _ _ _ _ n4,
      getVal_setVal_ne _ _ _ _ n3, getVal_setVal_ne _ _ _ _ n2,
      getVal_setVal_ne _ _ _ _ n1]
  | null =>
    rw [getVal_setVal_ne _ _ _ _ n11, getVal_setVal_ne _ _ _ _ n10,
      getVal_setVal_ne _ _ _ _ n9, getVal_setVal_ne _ _ _ _ n8]
  | bool v =>
    rw [getVal_setVal_ne _ _ _ _ n11, getVal_setVal_ne _ _ _ _ n10,
      getVal_setVal_ne _ _ _ _ n9, getVal_setVal_ne _ _ _ _ n8]
  | num v =>
    rw [getVal_setVal_ne _ _ _ _ n11, getVal_setVal_ne _ _ _ _ n10,
      getVal_setVal_ne _ _ _ _ n9, getVal_setVal_ne _ _ _ _ n8]
  | str v =>
    rw [getVal_setVal_ne _ _ _ _ n11, getVal_setVal_ne _ _ _ _ n10,
      getVal_setVal_ne _ _ _ _ n9, getVal_setVal_ne _ _ _ _ n8]
  | arr v =>
    rw [getVal_setVal_ne _ _ _ _ n11, getVal_setVal_ne _ _ _ _ n10,
      getVal_setVal_ne _ _ _ _ n9, getVal_setVal_ne _ _ _ _ n8]

theorem jget_ensure_ne (db : Json) (cid : String) (db1 : Json) (idx : Nat)
    (top : String) (h : ensure_candidate_row db cid = some (db1, idx))
    (ht : top ≠ "kanban") : jget db1 top = jget db top := by
  unfold ensure_candidate_row at h
  cases hc : kanban_list? db "cards" with
  | none => rw [hc] at h; cases h
  | some cards =>
    rw [hc] at h
    dsimp only [] at h
    cases hcand : kanban_list? db "candidates" with
    | none => rw [hcand] at h; cases h
    | some candidates =>
      rw [hcand] at h
      dsimp only [] at h
      cases hfi : candidates.findIdx? (fun row =>
          value_ref_string (jget row "candidate UUID") == cid) with
      | some i =>
        rw [hfi] at h
        simp only [Option.some.injEq, Prod.mk.injEq] at h
        rw [← h.1]
        exact jget_set_kanban_ne _ _ _ _ ht
      | none =>
        rw [hfi] at h
        simp only [Option.some.injEq, Prod.mk.injEq] at h
        rw [← h.1]
        exact jget_set_kanban_ne _ _ _ _ ht

theorem kanban_ensure_ne (db : Json) (cid : String) (db1 : Json) (idx : Nat)
    (key : String) (h : ensure_candidate_row db cid = some (db1, idx))
    (hk : key ≠ "candidates") :
    kanban_list? db1 key = kanban_list? db key := by
  unfold ensure_candidate_row at h
  cases hc : kanban_list? db "cards" with
  | none => rw [hc] at h; cases h
  | some cards =>
    rw [hc] at h
    dsimp only [] at h
    cases hcand : kanban_list? db "candidates" with
    | none => rw [hcand] at h; cases h
    | some candidates =>
      rw [hcand] at h
      dsimp only [] at h
      cases hfi : candidates.findIdx? (fun row =>
          value_ref_string (jget row "candidate UUID") == cid) with
      | some i =>
        rw [hfi] at h
        simp only [Option.some.injEq, Prod.mk.injEq] at h
        rw [← h.1]
        exact kanban_list?_set_kanban_ne _ _ _ _ hk
      | none =>
        rw [hfi] at h
        simp only [Option.some.injEq, Prod.mk.injEq] at h
        rw [← h.1]
        exact kanban_list?_set_kanban_ne _ _ _ _ hk

theorem ensure_candidate_row_spec (db : Json) (cid : String) (db1 : Json)
    (idx : Nat) (hne : cid ≠ "")
    (h : ensure_candidate_row db cid = some (db1, idx)) :
    ∃ rows1 row_obj, kanban_list? db1 "candidates" = some rows1 ∧
      idx < rows1.length ∧
      rows1.getD idx Json.null = .obj row_obj ∧
      getVal row_obj "candidate UUID" = some (.str cid) := by
  unfold ensure_candidate_row at h
  cases hc : kanban_list? db "cards" with
  | none => rw [hc] at h; cases h
  | some cards =>
    rw [hc] at h
    dsimp only [] at h
    cases hcand : kanban_list? db "candidates" with
    | none => rw [hcand] at h; cases h
    | some candidates =>
      rw [hcand] at h
      dsimp only [] at h
      obtain ⟨fields, ks, hdb, hk, _⟩ :=
        kanban_list?_some_obj db "candidates" candidates hcand
      cases hfi : candidates.findIdx? (fun row =>
          value_ref_string (jget row "candidate UUID") == cid) with
      | some i =>
        rw [hfi] at h
        simp only [Option.some.injEq, Prod.mk.injEq] at h
        obtain ⟨hi, hp⟩ := findIdx?_spec _ _ _ hfi
        have hvrs : value_ref_string
            (jget (candidates.getD i Json.null) "candidate UUID") = cid := by
          have := hp Json.null
          simpa using this
        obtain ⟨ro, hro⟩ := vrs_obj _ _ _ hvrs hne
        refine ⟨candidates.set i (match candidates.getD i Json.null with
          | .obj row_obj => Json.obj (setVal (fill_candidate_fields row_obj)
              "candidate UUID" (.str cid))
          | other => other),
          setVal (fill_candidate_fields ro) "candidate UUID" (.str cid),
          ?_, ?_, ?_, ?_⟩
        · rw [← h.1]
          rw [hdb]
          exact kanban_list?_set_kanban_self fields "candidates" _ ks hk
        · rw [← h.2]
          simpa using hi
        · rw [← h.2]
          rw [list_getD_set_self _ _ _ _ (by simpa using hi), hro]
        · exact getVal_setVal_self _ _ _
      | none =>
        rw [hfi] at h
        simp only [Option.some.injEq, Prod.mk.injEq] at h
        refine ⟨candidates ++ [Json.obj (match cards.find? fun c =>
              value_ref_string (jget c "uuid") == cid with
            | some c => setVal (setVal
                (setVal default_candidate_row "candidate UUID" (.str cid))
                "Candidate Name"
                (.str (value_ref_string (jget c "candidate_name"))))
                "REQ ID" (.str (value_ref_string (jget c "req_id")))
            | none => setVal default_candidate_row "candidate UUID"
                (.str cid))],
          (match cards.find? fun c =>
              value_ref_string (jget c "uuid") == cid with
            | some c => setVal (setVal
                (setVal default_candidate_row "candidate UUID" (.str cid))
                "Candidate Name"
                (.str (value_ref_string (jget c "candidate_name"))))
                "REQ ID" (.str (value_ref_string (jget c "req_id")))
            | none => setVal default_candidate_row "candidate UUID"
                (.str cid)), ?_, ?_, ?_, ?_⟩
        · rw [← h.1]
          rw [hdb]
          exact kanban_list?_set_kanban_self fields "candidates" _ ks hk
        · rw [← h.2]
          simp
        · rw [← h.2]
          exact list_getD_append_self _ _ _
        · cases hfind : cards.find? fun c =>
              value_ref_string (jget c "uuid") == cid with
          | some c =>
            rw [getVal_setVal_ne _ _ _ _ (by decide),
              getVal_setVal_ne _ _ _ _ (by decide)]
            exact getVal_setVal_self _ _ _
          | none => exact getVal_setVal_self _ _ _

theorem jget_deduct_loop_ne (kind size branch : String) (targets : List String)
    (top : String) (h : top ≠ "uniforms") :
    ∀ (fuel : Nat) (db : Json) (r : Int) (m i : Nat) (adj : List Json),
      jget ((deduct_loop kind size branch targets fuel db r m i adj).1) top =
        jget db top := by
  intro fuel
  induction fuel with
  | zero => intro db r m i adj; rfl
  | succ f ih =>
    intro db r m i adj
    by_cases hguard : 0 < r ∧ m < targets.length
    · simp only [deduct_loop, if_pos hguard]
      by_cases hd : 0 < (decrement_uniform_stock db
          ⟨targets.getD (i % targets.length) "", kind, size, "", "", 1, branch⟩).2
      · simp only [if_pos hd]
        rw [ih, jget_decrement_ne _ _ _ h]
      · simp only [if_neg hd]
        rw [ih, jget_decrement_ne _ _ _ h]
    · simp only [deduct_loop, if_neg hguard]

theorem jget_deduct_ne (db : Json) (kind size : String) (q : Int)
    (branch : String) (alterations : List String) (top : String)
    (h : top ≠ "uniforms") :
    jget ((deduct_uniforms_across_alterations db kind size q branch
      alterations).1) top = jget db top := by
  unfold deduct_uniforms_across_alterations
  by_cases hg : normalize_uniform_type kind = "" ∨ clamp_string size 40 true = "" ∨
      clamp_string branch 40 true = "" ∨ parse_issued_quantity_int q ≤ 0
  · rw [if_pos hg]
  · rw [if_neg hg]
    dsimp only []
    by_cases hlen : (if ((alterations.map fun value =>
          clamp_string value 80 true).filter (· ≠ "")) = [] then [""]
        else ((alterations.map fun value =>
          clamp_string value 80 true).filter (· ≠ ""))).length = 1
    · rw [if_pos hlen]
      exact jget_decrement_ne _ _ _ h
    · rw [if_neg hlen]
      exact jget_deduct_loop_ne _ _ _ _ _ h _ _ _ _ _ _

theorem jget_plan_shirt_ne (db : Json) (branch : String)
    (plan : Option (String × Int × List String)) (top : String)
    (h : top ≠ "uniforms") :
    jget ((plan_deduct_shirt db branch plan).1) top = jget db top := by
  cases plan with
  | none => rfl
  | some triple =>
    obtain ⟨size, qty, alts⟩ := triple
    exact jget_deduct_ne _ _ _ _ _ _ _ h

theorem jget_plan_pants_ne (db : Json) (branch : String)
    (plan : Option (String × Int × String)) (top : String)
    (h : top ≠ "uniforms") :
    jget ((plan_deduct_pants db branch plan).1) top = jget db top := by
  cases plan with
  | none => rfl
  | some triple =>
    obtain ⟨size, qty, alt⟩ := triple
    exact jget_deduct_ne _ _ _ _ _ _ _ h

theorem process_finish_ok (db6 : Json) (card_index : Nat) (cid : String)
    (pre_card pre_row : Json) (adjs : List Json) (fid now : String)
    (cs : List Json) (items : List Json)
    (hcs : kanban_list? db6 "cards" = some cs)
    (hrec : recycle_items? db6 = some items) :
    ∃ out, process_finish db6 card_index cid pre_card pre_row adjs fid now =
        some out ∧
      jget out.2 "ok" = some (.bool true) ∧
      kanban_list? out.1 "candidates" = kanban_list? db6 "candidates" ∧
      (∀ card ∈ (kanban_list? out.1 "cards").getD [],
        value_ref_string (jget card "uuid") ≠ cid) ∧
      recycle_items? out.1 = some (items ++ [recycle_entry_of fid now
        (.obj [("type", .str "kanban_cards"), ("cards", .arr [pre_card]),
         ("candidates", .arr [pre_row]),
         ("uniformAdjustments", .arr adjs)])]) := by
  obtain ⟨fields, ks, hdb, hk, _⟩ := kanban_list?_some_obj db6 "cards" cs hcs
  have hcs7 : kanban_list? (set_kanban_list db6 "cards"
      (cs.set card_index (scrub_card (cs.getD card_index Json.null))))
      "cards" = some (cs.set card_index
        (scrub_card (cs.getD card_index Json.null))) := by
    rw [hdb]
    exact kanban_list?_set_kanban_self fields "cards" _ ks hk
  have hrec8 : recycle_items? (set_kanban_list (set_kanban_list db6 "cards"
      (cs.set card_index (scrub_card (cs.getD card_index Json.null)))) "cards"
      ((cs.set card_index (scrub_card (cs.getD card_index Json.null))).filter
        fun card => decide (value_ref_string (jget card "uuid") ≠ cid))) =
      some items := by
    rw [recycle_items?_congr _ _ (jget_set_kanban_ne _ _ _ _ (by decide)),
      recycle_items?_congr _ _ (jget_set_kanban_ne _ _ _ _ (by decide))]
    exact hrec
  have hcs8 : kanban_list? (set_kanban_list (set_kanban_list db6 "cards"
      (cs.set card_index (scrub_card (cs.getD card_index Json.null)))) "cards"
      ((cs.set card_index (scrub_card (cs.getD card_index Json.null))).filter
        fun card => decide (value_ref_string (jget card "uuid") ≠ cid))) "cards" =
      some ((cs.set card_index (scrub_card (cs.getD card_index Json.null))).filter
        fun card => decide (value_ref_string (jget card "uuid") ≠ cid)) := by
    rw [hdb]
    show kanban_list? (set_kanban_list (.obj (updateObjVal fields "kanban"
      fun ks => setVal ks "cards" (.arr (cs.set card_index
        (scrub_card (cs.getD card_index Json.null)))))) "cards" _) "cards" = _
    exact kanban_list?_set_kanban_self _ "cards" _ _
      (getVal_updateObjVal_obj fields "kanban" _ ks hk)
  unfold process_finish
  rw [hcs]
  dsimp only []
  rw [hcs7]
  dsimp only []
  unfold push_recycle_item
  rw [hrec8]
  dsimp only []
  refine ⟨_, rfl, rfl, ?_, ?_, ?_⟩
  · dsimp only []
    rw [kanban_list?_congr _ _ _
      (jget_set_recycle_ne _ _ _ _ (by decide)),
      kanban_list?_set_kanban_ne _ _ _ _ (by decide),
      kanban_list?_set_kanban_ne _ _ _ _ (by decide)]
  · intro card hmem
    dsimp only [] at hmem
    rw [kanban_list?_congr _ _ _
      (jget_set_recycle_ne _ _ _ _ (by decide)), hcs8] at hmem
    simp only [Option.getD_some] at hmem
    have := (List.mem_filter.1 hmem).2
    exact of_decide_eq_true this
  · dsimp only []
    exact recycle_items?_set_items _ _ _ hrec8

/-- C10: a successful `db_kanban_process_candidate` blanks all 29
`SENSITIVE_PII_FIELDS` of the retained candidate row (which keeps its
`candidate UUID`), removes every card with the candidate's uuid from the
board, and appends to the recycle ledger an undo snapshot holding the
pre-update card and the pre-scrub candidate row. -/
theorem process_candidate_scrubs_pii
    (db : Json) (cid_raw braw arr dep now fid : String)
    (jparse : String → Option (List Json)) (cid : String)
    (cards rows1 : List Json) (card_index idx idx2 : Nat) (db1 db3 : Json)
    (am dm : Int) (items0 : List Json)
    (hcid : clamp_string cid_raw 128 true = cid) (hne : cid ≠ "")
    (hcards : kanban_list? db "cards" = some cards)
    (hfind : cards.findIdx? (fun card =>
      value_ref_string (jget card "uuid") == cid) = some card_index)
    (hbr : ¬selected_branch_of cards card_index braw = "")
    (harr : (parse_military_time arr).map round_to_quarter_hour = some am)
    (hdep : (parse_military_time dep).map round_to_quarter_hour = some dm)
    (hens1 : ensure_candidate_row db cid = some (db1, idx))
    (hrows1 : kanban_list? db1 "candidates" = some rows1)
    (hens2 : ensure_candidate_row (set_kanban_list db1 "cards"
      (cards.set card_index (stamp_card (cards.getD card_index Json.null)
        (selected_branch_of cards card_index braw) now))) cid =
      some (db3, idx2))
    (hrec : recycle_items? db = some items0) :
    ∃ out rows2 row_obj adjustments,
      db_kanban_process_candidate db cid_raw braw arr dep now fid jparse =
        some out ∧
      jget out.2 "ok" = some (.bool true) ∧
      kanban_list? out.1 "candidates" = some rows2 ∧
      rows2.getD idx2 Json.null = .obj row_obj ∧
      getVal row_obj "candidate UUID" = some (.str cid) ∧
      (∀ field ∈ SENSITIVE_PII_FIELDS, getVal row_obj field = some (.str "")) ∧
      (∀ card ∈ (kanban_list? out.1 "cards").getD [],
        value_ref_string (jget card "uuid") ≠ cid) ∧
      recycle_items? out.1 = some (items0 ++
        [recycle_entry_of fid now (.obj [("type", .str "kanban_cards"),
          ("cards", .arr [cards.getD card_index (.obj [])]),
          ("candidates", .arr [rows1.getD idx Json.null]),
          ("uniformAdjustments", .arr adjustments)])]) := by
  obtain ⟨rows3, row_obj3, hrows3, hlt3, hrow3, huuid3⟩ :=
    ensure_candidate_row_spec _ _ _ _ hne hens2
  have hcards1 : kanban_list? db1 "cards" = some cards := by
    rw [kanban_ensure_ne db cid db1 idx "cards" hens1 (by decide)]
    exact hcards
  obtain ⟨fields1, ks1, hdb1, hk1, _⟩ :=
    kanban_list?_some_obj db1 "cards" cards hcards1
  have hcards2 : kanban_list? (set_kanban_list db1 "cards"
      (cards.set card_index (stamp_card (cards.getD card_index Json.null)
        (selected_branch_of cards card_index braw) now))) "cards" =
      some (cards.set card_index (stamp_card (cards.getD card_index Json.null)
        (selected_branch_of cards card_index braw) now)) := by
    rw [hdb1]
    exact kanban_list?_set_kanban_self fields1 "cards" _ ks1 hk1
  obtain ⟨fields3, ks3, hdb3, hk3, _⟩ :=
    kanban_list?_some_obj db3 "candidates" rows3 hrows3
  -- the run reaches the object-row branch
  have hrun : db_kanban_process_candidate db cid_raw braw arr dep now fid
      jparse = process_with_row cards card_index idx2 cid
      (selected_branch_of cards card_index braw) am dm now fid jparse
      (rows1.getD idx Json.null) db3 rows3 row_obj3 := by
    unfold db_kanban_process_candidate
    rw [hcid, if_neg hne, hcards]
    dsimp only []
    rw [hfind]
    dsimp only []
    rw [if_neg hbr, harr, hdep]
    dsimp only []
    rw [hens1]
    dsimp only []
    unfold process_core
    rw [hrows1]
    dsimp only []
    rw [hcards1]
    dsimp only []
    rw [hens2]
    dsimp only []
    rw [hrows3]
    dsimp only []
    rw [hrow3]
  rw [hrun]
  unfold process_with_row
  dsimp only []
  -- frames into the finish
  have hcsP : ∀ (pl1 : Option (String × Int × List String))
      (pl2 : Option (String × Int × String)),
      kanban_list? (plan_deduct_pants (plan_deduct_shirt
      (set_kanban_list db3 "candidates" (rows3.set idx2
        (Json.obj (scrub_pii (stamped_row row_obj3
          (cards.getD card_index (.obj []))
          (selected_branch_of cards card_index braw) am dm)))))
      (selected_branch_of cards card_index braw) pl1).1
      (selected_branch_of cards card_index braw) pl2).1 "cards" =
      some (cards.set card_index (stamp_card (cards.getD card_index Json.null)
        (selected_branch_of cards card_index braw) now)) := by
    intro pl1 pl2
    rw [kanban_list?_congr _ _ _ (jget_plan_pants_ne _ _ _ _ (by decide)),
      kanban_list?_congr _ _ _ (jget_plan_shirt_ne _ _ _ _ (by decide)),
      kanban_list?_set_kanban_ne _ _ _ _ (by decide),
      kanban_ensure_ne _ cid db3 idx2 "cards" hens2 (by decide)]
    exact hcards2
  have hrecP : ∀ (pl1 : Option (String × Int × List String))
      (pl2 : Option (String × Int × String)),
      recycle_items? (plan_deduct_pants (plan_deduct_shirt
      (set_kanban_list db3 "candidates" (rows3.set idx2
        (Json.obj (scrub_pii (stamped_row row_obj3
          (cards.getD card_index (.obj []))
          (selected_branch_of cards card_index braw) am dm)))))
      (selected_branch_of cards card_index braw) pl1).1
      (selected_branch_of cards card_index braw) pl2).1 = some items0 := by
    intro pl1 pl2
    rw [recycle_items?_congr _ _ (jget_plan_pants_ne _ _ _ _ (by decide)),
      recycle_items?_congr _ _ (jget_plan_shirt_ne _ _ _ _ (by decide)),
      recycle_items?_congr _ _ (jget_set_kanban_ne _ _ _ _ (by decide)),
      recycle_items?_congr _ _
        (jget_ensure_ne _ cid db3 idx2 "recycle" hens2 (by decide)),
      recycle_items?_congr _ _ (jget_set_kanban_ne _ _ _ _ (by decide)),
      recycle_items?_congr _ _
        (jget_ensure_ne _ cid db1 idx "recycle" hens1 (by decide))]
    exact hrec
  obtain ⟨out, hout, hok, hcand_eq, hcards_ne, hrec_out⟩ :=
    process_finish_ok _ card_index cid (cards.getD card_index (.obj []))
      (rows1.getD idx Json.null) _ fid now _ items0 (hcsP _ _) (hrecP _ _)
  refine ⟨out, rows3.set idx2 (Json.obj (scrub_pii (stamped_row row_obj3
      (cards.getD card_index (.obj []))
      (selected_branch_of cards card_index braw) am dm))),
    scrub_pii (stamped_row row_obj3 (cards.getD card_index (.obj []))
      (selected_branch_of cards card_index braw) am dm), _,
    hout, hok, ?_, ?_, ?_, ?_, hcards_ne, hrec_out⟩
  · rw [hcand_eq,
      kanban_list?_congr _ _ _ (jget_plan_pants_ne _ _ _ _ (by decide)),
      kanban_list?_congr _ _ _ (jget_plan_shirt_ne _ _ _ _ (by decide))]
    rw [hdb3]
    exact kanban_list?_set_kanban_self fields3 "candidates" _ ks3 hk3
  · exact list_getD_set_self _ _ _ _ (by simpa using hlt3)
  · rw [getVal_scrub_pii_ne _ _ (by decide)]
    show getVal (row_stamp row_obj3 _ _ _ _ _) "candidate UUID" = _
    rw [getVal_row_stamp_ne _ _ _ _ _ _ _ (by decide)]
    exact huuid3
  · intro field hf
    exact getVal_scrub_pii_mem _ _ hf

/-- Witness for C10: processing candidate `cand1` (arrival 09:00, departure
17:00) on the concrete document, with every hypothesis discharged by
evaluation. -/
theorem process_candidate_scrubs_pii_witness :
    ∃ out rows2 row_obj adjustments,
      db_kanban_process_candidate c10_db "cand1" "" "0900" "1700" "NOW" "undo1"
        (fun _ => none) = some out ∧
      jget out.2 "ok" = some (.bool true) ∧
      kanban_list? out.1 "candidates" = some rows2 ∧
      rows2.getD 0 Json.null = .obj row_obj ∧
      getVal row_obj "candidate UUID" = some (.str "cand1") ∧
      (∀ field ∈ SENSITIVE_PII_FIELDS, getVal row_obj field = some (.str "")) ∧
      (∀ card ∈ (kanban_list? out.1 "cards").getD [],
        value_ref_string (jget card "uuid") ≠ "cand1") ∧
      recycle_items? out.1 = some ([] ++
        [recycle_entry_of "undo1" "NOW" (.obj [("type", .str "kanban_cards"),
          ("cards", .arr [([c10_card]).getD 0 (.obj [])]),
          ("candidates", .arr [c10_rows1.getD 0 Json.null]),
          ("uniformAdjustments", .arr adjustments)])]) :=
  process_candidate_scrubs_pii c10_db "cand1" "" "0900" "1700" "NOW" "undo1"
    (fun _ => none) "cand1" [c10_card] c10_rows1 0 0 0 c10_db1 c10_db3 540 1020
    [] rfl (by decide) rfl rfl (by decide) rfl rfl rfl rfl rfl rfl

/-! ### C1 – encrypt/decrypt round trip -/

theorem takeWhile_rep_b (n : Nat) (l : List Char)
    (h : l.takeWhile (· = 'b') = []) :
    (List.replicate n 'b' ++ l).takeWhile (· = 'b') = List.replicate n 'b' := by
  induction n with
  | zero => simpa using h
  | succ k ih => simp [List.replicate_succ, List.takeWhile_cons, ih]

theorem dropWhile_rep_b (n : Nat) (l : List Char)
    (h : l.dropWhile (· = 'b') = l) :
    (List.replicate n 'b' ++ l).dropWhile (· = 'b') = l := by
  induction n with
  | zero => simpa using h
  | succ k ih => simp [List.replicate_succ, List.dropWhile_cons, ih]

theorem enc_takeWhile (bs : List Nat) :
    ((bs.flatMap fun b => 'a' :: List.replicate b 'b').takeWhile
      (· = 'b')) = [] := by
  cases bs with
  | nil => rfl
  | cons b rest => simp [List.takeWhile_cons]

theorem enc_dropWhile (bs : List Nat) :
    ((bs.flatMap fun b => 'a' :: List.replicate b 'b').dropWhile
      (· = 'b')) = bs.flatMap fun b => 'a' :: List.replicate b 'b' := by
  cases bs with
  | nil => rfl
  | cons b rest => simp [List.dropWhile_cons]

theorem decodeToyAux_encode (bs : List Nat) :
    ∀ fuel, (bs.flatMap fun b => 'a' :: List.replicate b 'b').length ≤ fuel →
    decodeToyAux fuel (bs.flatMap fun b => 'a' :: List.replicate b 'b') =
      some bs := by
  induction bs with
  | nil => intro fuel _; cases fuel <;> rfl
  | cons b rest ih =>
    intro fuel hfuel
    rw [List.flatMap_cons] at hfuel ⊢
    cases fuel with
    | zero => simp at hfuel
    | succ f =>
      show decodeToyAux (f + 1) ('a' :: (List.replicate b 'b' ++
        rest.flatMap fun b => 'a' :: List.replicate b 'b')) = _
      rw [decodeToyAux, if_pos rfl,
        takeWhile_rep_b _ _ (enc_takeWhile rest),
        dropWhile_rep_b _ _ (enc_dropWhile rest), ih f (by
          simp only [List.length_cons, List.length_append,
            List.length_replicate] at hfuel
          omega)]
      simp

theorem toyCrypto_good : GoodCrypto toyCrypto := by
  refine ⟨?_, ?_, ?_, ?_, ?_⟩
  · intro bs
    show decodeToy (encodeToy bs) = some bs
    unfold decodeToy encodeToy
    exact decodeToyAux_encode bs _ le_rfl
  · intro key iv m
    show toyCrypto.aeadDecrypt key iv (toyCrypto.aeadEncrypt key iv m) = some m
    simp only [toyCrypto]
    rw [if_pos (by simp)]
    have h1 : (m ++ List.replicate 16 0).length - 16 = m.length := by simp
    rw [h1]
    simp
  · intro key iv m
    simp [toyCrypto]
  · intro s
    show some (String.mk ((s.data.map Char.toNat).map Char.ofNat)) = some s
    rw [List.map_map]
    have hmap : s.data.map (Char.ofNat ∘ Char.toNat) = s.data := by
      rw [show (Char.ofNat ∘ Char.toNat) = fun c => Char.ofNat c.toNat from rfl,
        List.map_congr_left fun c _ => Char.ofNat_toNat c, List.map_id']
    rw [hmap]
  · intro s
    show s.data.map Char.toNat = [] ↔ s = ""
    constructor
    · intro h
      rw [List.map_eq_nil] at h
      cases s with
      | mk data =>
        cases h
        rfl
    · intro h
      rw [h]
      rfl

/-- C1 (amended): for any primitives satisfying the AEAD/encoding laws,
any password, 12-byte iv and any NONEMPTY text,
`decrypt(encrypt(text, password), password) = Some(text)`.  The claim's
"for every plaintext" is false: the empty string encrypts to an envelope
with empty `data`, which `decrypt_envelope_with_key` rejects
(`data.is_empty()`), returning `None` — see the counterexample. -/
theorem encrypt_decrypt_roundtrip (P : CryptoPrims) (hP : GoodCrypto P)
    (text password : String) (salt iv : List Nat)
    (hiv : iv.length = 12) (hne : text ≠ "") :
    ∃ env, encrypt_text P text password salt iv = some env ∧
      decrypt_envelope P env password = some text := by
  obtain ⟨hdec, hround, hlen, hutf, hempty⟩ := hP
  have hlen' := hlen (P.deriveKey password salt DEFAULT_PBKDF2_ITERATIONS) iv
    (P.utf8Encode text)
  have hnot : ¬(P.aeadEncrypt
      (P.deriveKey password salt DEFAULT_PBKDF2_ITERATIONS) iv
      (P.utf8Encode text)).length < 16 := by omega
  have henc : encrypt_text P text password salt iv = some
      { v := 1
        salt := P.encodeB64 salt
        iv := P.encodeB64 iv
        tag := P.encodeB64 ((P.aeadEncrypt
          (P.deriveKey password salt DEFAULT_PBKDF2_ITERATIONS) iv
          (P.utf8Encode text)).drop ((P.aeadEncrypt
          (P.deriveKey password salt DEFAULT_PBKDF2_ITERATIONS) iv
          (P.utf8Encode text)).length - 16))
        data := P.encodeB64 ((P.aeadEncrypt
          (P.deriveKey password salt DEFAULT_PBKDF2_ITERATIONS) iv
          (P.utf8Encode text)).take ((P.aeadEncrypt
          (P.deriveKey password salt DEFAULT_PBKDF2_ITERATIONS) iv
          (P.utf8Encode text)).length - 16)) } := by
    unfold encrypt_text encrypt_text_with_key
    rw [if_neg hnot]
  refine ⟨_, henc, ?_⟩
  unfold decrypt_envelope
  dsimp only []
  rw [hdec salt]
  dsimp only []
  unfold decrypt_envelope_with_key
  dsimp only []
  rw [hdec iv, hdec, hdec]
  dsimp only []
  have htag : (P.aeadEncrypt
      (P.deriveKey password salt DEFAULT_PBKDF2_ITERATIONS) iv
      (P.utf8Encode text)).drop ((P.aeadEncrypt
      (P.deriveKey password salt DEFAULT_PBKDF2_ITERATIONS) iv
      (P.utf8Encode text)).length - 16) ≠ [] := by
    intro hcontra
    have := congrArg List.length hcontra
    rw [List.length_drop, hlen'] at this
    simp at this
  have hdata : (P.aeadEncrypt
      (P.deriveKey password salt DEFAULT_PBKDF2_ITERATIONS) iv
      (P.utf8Encode text)).take ((P.aeadEncrypt
      (P.deriveKey password salt DEFAULT_PBKDF2_ITERATIONS) iv
      (P.utf8Encode text)).length - 16) ≠ [] := by
    intro hcontra
    have hm : P.utf8Encode text ≠ [] := fun he => hne ((hempty text).1 he)
    have hml : (P.utf8Encode text).length ≠ 0 := by
      intro h0
      exact hm (List.length_eq_zero.1 h0)
    have := congrArg List.length hcontra
    rw [List.length_take, hlen'] at this
    simp only [List.length_nil] at this
    omega
  rw [if_neg (by push_neg; exact ⟨hiv, htag, hdata⟩)]
  rw [List.take_append_drop, hround]
  exact hutf text

/-- C1 counterexample: encrypting the EMPTY string succeeds, but decrypting
the resulting envelope with the same password yields `None`, because the
AES-GCM ciphertext of an empty plaintext is tag-only and the decryptor
rejects empty `data`.  Exhibited on the concrete primitive instance. -/
theorem encrypt_empty_decrypts_none :
    ∃ env, encrypt_text toyCrypto "" "pw" [1, 2] (List.replicate 12 0) =
        some env ∧
      decrypt_envelope toyCrypto env "pw" = none :=
  ⟨_, rfl, rfl⟩

/-- Witness for C1 (amended): a nonempty text round-trips on the concrete
primitive instance. -/
theorem encrypt_decrypt_roundtrip_witness :
    (List.replicate 12 0 : List Nat).length = 12 ∧ ("hi" : String) ≠ "" ∧
    ∃ env, encrypt_text toyCrypto "hi" "pw" [1, 2] (List.replicate 12 0) =
        some env ∧
      decrypt_envelope toyCrypto env "pw" = some "hi" :=
  ⟨by decide, by decide,
   encrypt_decrypt_roundtrip toyCrypto toyCrypto_good "hi" "pw" [1, 2]
     (List.replicate 12 0) (by decide) (by decide)⟩

/-! ### C8 – salt/key selection on save -/

/-- C8 (amended): on save, a cached `(salt, key)` pair for this password's
hash is reused UNCONDITIONALLY — the existing file's salt is never
consulted (the result is independent of the file) — contrary to the claim's
"only when that salt matches the exact salt found in the existing file".
On a cache miss the existing file's decodable nonempty salt is adopted with
a re-derived key (not a fresh salt); a fresh salt is generated only when no
usable file salt exists.  The exact-salt-match check the claim describes
exists only on the LOAD path (`load_key_choice`), where a mismatch does
force re-derivation. -/
theorem save_salt_selection (P : CryptoPrims) (hP : GoodCrypto P)
    (hash : String → String) (ser : Json → String) (st : DbCacheState)
    (password : String) (value : Json)
    (file_env : Option (Option CryptoEnvelope)) (fresh_salt iv : List Nat) :
    (∀ pair, load_cached_db_crypto hash st password = some pair →
      ∃ env st2, save_db_value P hash ser st password value file_env
          fresh_salt iv = some (env, st2) ∧
        env.salt = P.encodeB64 pair.1 ∧ st2.db_salt = some pair.1 ∧
        st2.db_key = some pair.2 ∧
        (∀ file_env2, save_db_value P hash ser st password value file_env2
          fresh_salt iv =
          save_db_value P hash ser st password value file_env fresh_salt iv)) ∧
    (load_cached_db_crypto hash st password = none →
      ∀ env0 salt, file_env = some (some env0) →
        P.decodeB64 env0.salt = some salt → ¬salt.isEmpty →
        ∃ env st2, save_db_value P hash ser st password value file_env
            fresh_salt iv = some (env, st2) ∧
          env.salt = P.encodeB64 salt ∧ st2.db_salt = some salt ∧
          st2.db_key = some (P.deriveKey password salt
            DEFAULT_PBKDF2_ITERATIONS)) ∧
    (load_cached_db_crypto hash st password = none → file_env = none →
      ∃ env st2, save_db_value P hash ser st password value file_env
          fresh_salt iv = some (env, st2) ∧
        env.salt = P.encodeB64 fresh_salt ∧ st2.db_salt = some fresh_salt ∧
        st2.db_key = some (P.deriveKey password fresh_salt
          DEFAULT_PBKDF2_ITERATIONS)) ∧
    (∀ pair salt, load_cached_db_crypto hash st password = some pair →
      pair.1 ≠ salt →
      load_key_choice P hash st password salt =
        P.deriveKey password salt DEFAULT_PBKDF2_ITERATIONS) := by
  obtain ⟨_, _, hlen, _, _⟩ := hP
  have hrun : ∀ (sel : List Nat × List Nat),
      save_salt_key P hash st password file_env fresh_salt = sel →
      ∃ env st2, save_db_value P hash ser st password value file_env
          fresh_salt iv = some (env, st2) ∧
        env.salt = P.encodeB64 sel.1 ∧ st2.db_salt = some sel.1 ∧
        st2.db_key = some sel.2 := by
    intro sel hsel
    have hnot : ¬(P.aeadEncrypt sel.2 iv
        (P.utf8Encode (ser (ensure_db_shape_value value)))).length < 16 := by
      rw [hlen]
      omega
    unfold save_db_value
    rw [hsel]
    unfold encrypt_text_with_key
    rw [if_neg hnot]
    exact ⟨_, _, rfl, rfl, rfl, rfl⟩
  refine ⟨?_, ?_, ?_, ?_⟩
  · intro pair hc
    have hsel : save_salt_key P hash st password file_env fresh_salt = pair := by
      unfold save_salt_key
      rw [hc]
    obtain ⟨env, st2, h1, h2, h3, h4⟩ := hrun pair hsel
    refine ⟨env, st2, h1, h2, h3, h4, ?_⟩
    intro file_env2
    unfold save_db_value save_salt_key
    rw [hc]
  · intro hc env0 salt hfe hdec hne
    subst hfe
    have hsel : save_salt_key P hash st password (some (some env0)) fresh_salt =
        (salt, P.deriveKey password salt DEFAULT_PBKDF2_ITERATIONS) := by
      unfold save_salt_key
      rw [hc]
      dsimp only []
      rw [hdec]
      dsimp only []
      rw [if_pos hne]
    exact hrun _ hsel
  · intro hc hfe
    subst hfe
    have hsel : save_salt_key P hash st password none fresh_salt =
        (fresh_salt, P.deriveKey password fresh_salt
          DEFAULT_PBKDF2_ITERATIONS) := by
      unfold save_salt_key
      rw [hc]
    exact hrun _ hsel
  · intro pair salt hc hne
    unfold load_key_choice
    rw [hc]
    dsimp only []
    rw [if_neg hne]

/-- C8 counterexample: with a cached pair of salt `[1]` and an existing
file whose envelope salt decodes to `[2] ≠ [1]`, save still uses the cached
pair (the claim's "reused only when it matches the file's salt" fails); and
on a cache miss save adopts the FILE's salt `[2]` instead of the fresh draw
`[9]` (the claim's "cache miss generates a fresh salt" fails). -/
theorem save_reuses_cache_despite_mismatch :
    decodeToy c8_env.salt = some [2] ∧ ([1] : List Nat) ≠ [2] ∧
    save_salt_key toyCrypto toyHash c8_state "pw" (some (some c8_env)) [9] =
      ([1], [7]) ∧
    save_salt_key toyCrypto toyHash ⟨none, none, none, none⟩ "pw"
      (some (some c8_env)) [9] =
      ([2], toyCrypto.deriveKey "pw" [2] DEFAULT_PBKDF2_ITERATIONS) ∧
    ([2] : List Nat) ≠ [9] :=
  ⟨rfl, by decide, rfl, rfl, by decide⟩

/-- Witness for the amended C8: the cache-hit conjunct applied at the
concrete cache and file scenario. -/
theorem save_salt_selection_witness :
    load_cached_db_crypto toyHash c8_state "pw" = some ([1], [7]) ∧
    ∃ env st2, save_db_value toyCrypto toyHash (fun _ => "doc") c8_state "pw"
        (Json.obj []) (some (some c8_env)) [9] (List.replicate 12 0) =
        some (env, st2) ∧
      env.salt = toyCrypto.encodeB64 [1] ∧ st2.db_salt = some [1] ∧
      st2.db_key = some [7] ∧
      (∀ file_env2, save_db_value toyCrypto toyHash (fun _ => "doc") c8_state
        "pw" (Json.obj []) file_env2 [9] (List.replicate 12 0) =
        save_db_value toyCrypto toyHash (fun _ => "doc") c8_state "pw"
          (Json.obj []) (some (some c8_env)) [9] (List.replicate 12 0)) :=
  ⟨rfl,
   (save_salt_selection toyCrypto toyCrypto_good toyHash (fun _ => "doc")
     c8_state "pw" (Json.obj []) (some (some c8_env)) [9]
     (List.replicate 12 0)).1 ([1], [7]) rfl⟩

end Workflow
